import Mathlib

/-! # ATA adapter and PLIC driver: shallow embedding

Source files embedded here:

* `src/add-ons/kernel/generic/ata_adapter/ata_adapter.cpp`
* `src/add-ons/kernel/interrupt_controllers/plic/plic.cpp`
* `headers/private/kernel/int.h` (the declarations of the vector registry)
* `src/kits/interface/ColumnTypes.cpp` (the integer column)

Conventions.  Machine integers are natural numbers (or integers) with the
truncations written out.  Hardware and the upper protocol layer are an
arbitrary deterministic state machine (`Machine`), so every theorem holds for
every device behaviour.  Each register access and each up-call is appended to
a trace.  Undefined behaviour (an access outside an array) and `panic` make a
function return `none`.
-/

namespace AtaAdapter

/-! ## Integer helpers -/

/-- The C expression `a & ~m` for non-negative `a`: the bits of `a` that are not bits of `m`. -/
def andNot (a m : Nat) : Nat := a ^^^ (a &&& m)

/-- Conversion of an unsigned value to a 32-bit `int` (two's complement, as GCC does). -/
def toInt32 (x : Nat) : Int :=
  if x % 2 ^ 32 < 2 ^ 31 then ((x % 2 ^ 32 : Nat) : Int) else ((x % 2 ^ 32 : Nat) : Int) - 2 ^ 32

/-! ## Types and constants of the absent headers -/

/-- Status codes of `status_t` used by the adapter (distinct values of `Errors.h`). -/
inductive status_t where
  | B_OK
  | B_ERROR
  | B_DEV_DATA_OVERRUN
  | B_NO_MEMORY
  deriving DecidableEq, Repr

/-- Constants of `ata_adapter.h` and `KernelExport.h`, which are not among the
sources; they are parameters of every function that uses them. -/
structure AtaConsts where
  ATA_BM_COMMAND_REG : Nat
  ATA_BM_STATUS_REG : Nat
  ATA_BM_PRDT_ADDRESS : Nat
  ATA_BM_COMMAND_START_STOP : Nat
  ATA_BM_COMMAND_READ_FROM_DEVICE : Nat
  ATA_BM_STATUS_ACTIVE : Nat
  ATA_BM_STATUS_ERROR : Nat
  ATA_BM_STATUS_INTERRUPT : Nat
  ATA_BM_STATUS_SIMPLEX_DMA : Nat
  ATA_ADAPTER_MAX_SG_COUNT : Nat
  B_UNHANDLED_INTERRUPT : Int

/-- The values these constants have in the Haiku headers (PCI IDE bus-master layout). -/
def haikuConsts : AtaConsts where
  ATA_BM_COMMAND_REG := 0
  ATA_BM_STATUS_REG := 2
  ATA_BM_PRDT_ADDRESS := 4
  ATA_BM_COMMAND_START_STOP := 0x01
  ATA_BM_COMMAND_READ_FROM_DEVICE := 0x08
  ATA_BM_STATUS_ACTIVE := 0x01
  ATA_BM_STATUS_ERROR := 0x02
  ATA_BM_STATUS_INTERRUPT := 0x04
  ATA_BM_STATUS_SIMPLEX_DMA := 0x80
  ATA_ADAPTER_MAX_SG_COUNT := 512
  B_UNHANDLED_INTERRUPT := 0

/-- One scatter-gather segment (`physical_entry`): physical address and size in bytes. -/
structure physical_entry where
  address : Nat
  size : Nat
  deriving DecidableEq, Repr

/-- Modelled from the spec: the `prd_entry` declaration of `ata_adapter.h` is not among
the sources.  One entry is a 32-bit physical address, a 16-bit byte count (0 encodes
64 KiB) and the end-of-table flag.  A field holds the number its bytes encode in
little-endian order, which is the value the bus-master engine reads. -/
structure prd_entry where
  address : Nat
  count : Nat
  EOT : Bool
  deriving DecidableEq, Repr

/-- The macro `B_HOST_TO_LENDIAN_INT32` (`ByteOrder.h`, absent): the 32-bit little-endian
encoding of its argument.  With fields holding the encoded number it is the cast to
`uint32`. -/
def B_HOST_TO_LENDIAN_INT32 (x : Nat) : Nat := x % 2 ^ 32

/-- The macro `B_HOST_TO_LENDIAN_INT16` (`ByteOrder.h`, absent), as for 32 bits. -/
def B_HOST_TO_LENDIAN_INT16 (x : Nat) : Nat := x % 2 ^ 16

/-- The task file `ata_task_file`: `r i` is the byte `tf->raw.r[i]`, `i < 14`. -/
structure ata_task_file where
  r : Nat → Nat

/-- The fields of `ata_adapter_channel_info` that the adapter functions use.
`prdt` is the table `channel->prdt` points to, `ataChannel` the upper layer's handle. -/
structure ata_adapter_channel_info where
  command_block_base : Nat
  control_block_base : Nat
  bus_master_base : Nat
  intnum : Int
  lost : Nat
  ataChannel : Nat
  prdt : List prd_entry
  prdt_phys : Nat
  dmaing : Bool

/-! ## Hardware, upper layer and trace -/

/-- What the adapter does to the outside, in program order.  `offset` is the first
argument of `MmioOp` (the port), `size` the width in bytes, `val` the value
transferred. -/
inductive Event where
  | read (size offset val : Nat)
  | write (size offset val : Nat)
  | interrupt_handler (ataChannel status : Nat)
  deriving DecidableEq, Repr

/-- The environment of the adapter as a deterministic state machine over `σ`:
`map_physical_memory` yields the virtual base of the register window, `load` and
`store` are volatile accesses of `size` bytes at an address, and
`interrupt_handler` is `sATA->interrupt_handler`. -/
structure Machine (σ : Type) where
  map_physical_memory : σ → Nat × σ
  load : σ → Nat → Nat → Nat × σ
  store : σ → Nat → Nat → Nat → σ
  interrupt_handler : σ → Nat → Nat → Int × σ

/-- Global state of the module: the environment's state, the static `sMappedRegs`
(0 while the window is not mapped) and the trace so far. -/
structure World (σ : Type) where
  hw : σ
  sMappedRegs : Nat
  trace : List Event

/-- The lazy mapping at the head of `MmioOp`: map the window if `sMappedRegs == 0`. -/
def ensureMapped {σ : Type} (m : Machine σ) (w : World σ) : World σ :=
  if w.sMappedRegs = 0 then
    { w with sMappedRegs := (m.map_physical_memory w.hw).1, hw := (m.map_physical_memory w.hw).2 }
  else w

/-- The address `sMappedRegs + offset - 0x1000` (64-bit pointer arithmetic). -/
def mmioAddress (sMappedRegs offset : Nat) : Nat :=
  (sMappedRegs + offset + (2 ^ 64 - 0x1000)) % 2 ^ 64

/-- The function `MmioOp(offset, val, size, isWrite)`; returns the new `val`.  The
`default` branches of both switches panic: `none`. -/
def MmioOp {σ : Type} (m : Machine σ) (offset val size : Nat) (isWrite : Bool)
    (w : World σ) : Option (Nat × World σ) :=
  let w1 := ensureMapped m w
  let adr := mmioAddress w1.sMappedRegs offset
  if !isWrite then
    match size with
    | 1 | 2 | 4 =>
      let v := (m.load w1.hw size adr).1 % 2 ^ (8 * size)
      some (v, { w1 with hw := (m.load w1.hw size adr).2,
                         trace := w1.trace ++ [Event.read size offset v] })
    | _ => none
  else
    match size with
    | 1 | 2 | 4 =>
      let v := val % 2 ^ (8 * size)
      some (val, { w1 with hw := m.store w1.hw size adr v,
                           trace := w1.trace ++ [Event.write size offset v] })
    | _ => none

/-- The wrapper `Write8(offset, val)`, `val` being a `uint32` parameter. -/
def Write8 {σ : Type} (m : Machine σ) (offset val : Nat) (w : World σ) : Option (World σ) :=
  (MmioOp m offset (val % 2 ^ 32) 1 true w).map Prod.snd

/-- The wrapper `Write16(offset, val)`. -/
def Write16 {σ : Type} (m : Machine σ) (offset val : Nat) (w : World σ) : Option (World σ) :=
  (MmioOp m offset (val % 2 ^ 32) 2 true w).map Prod.snd

/-- The wrapper `Write32(offset, val)`. -/
def Write32 {σ : Type} (m : Machine σ) (offset val : Nat) (w : World σ) : Option (World σ) :=
  (MmioOp m offset (val % 2 ^ 32) 4 true w).map Prod.snd

/-- The wrapper `Read8(offset)`: returns `(uint8)val`. -/
def Read8 {σ : Type} (m : Machine σ) (offset : Nat) (w : World σ) : Option (Nat × World σ) :=
  (MmioOp m offset 0 1 false w).map fun r => (r.1 % 2 ^ 8, r.2)

/-- The wrapper `Read16(offset)`: returns `(uint16)val`. -/
def Read16 {σ : Type} (m : Machine σ) (offset : Nat) (w : World σ) : Option (Nat × World σ) :=
  (MmioOp m offset 0 2 false w).map fun r => (r.1 % 2 ^ 16, r.2)

/-- The wrapper `Read32(offset)`. -/
def Read32 {σ : Type} (m : Machine σ) (offset : Nat) (w : World σ) : Option (Nat × World σ) :=
  MmioOp m offset 0 4 false w

/-! ## Command block registers -/

/-- The loop of `ata_adapter_write_command_block_regs`, `n` iterations left and loop
variable `i`: the LBA48 byte `r[i + 7]` first, then `r[i]`, both to port
`ioaddr + 1 + i`. -/
def write_command_block_loop {σ : Type} (m : Machine σ) (ioaddr : Nat) (tf : ata_task_file)
    (mask : Nat) : Nat → Nat → World σ → Option (World σ)
  | 0, _, w => some w
  | n + 1, i, w =>
    (if ((1 <<< (i + 7)) &&& mask) ≠ 0 then Write8 m (ioaddr + 1 + i) (tf.r (i + 7)) w
      else some w).bind fun w1 =>
    (if ((1 <<< i) &&& mask) ≠ 0 then Write8 m (ioaddr + 1 + i) (tf.r i) w1
      else some w1).bind fun w2 =>
    write_command_block_loop m ioaddr tf mask n (i + 1) w2

/-- The function `ata_adapter_write_command_block_regs(channel, tf, mask)`. -/
def ata_adapter_write_command_block_regs {σ : Type} (m : Machine σ)
    (channel : ata_adapter_channel_info) (tf : ata_task_file) (mask : Nat)
    (w : World σ) : Option (status_t × World σ) :=
  let ioaddr := channel.command_block_base
  if channel.lost ≠ 0 then some (status_t.B_ERROR, w)
  else (write_command_block_loop m ioaddr tf mask 7 0 w).map fun w1 => (status_t.B_OK, w1)

/-! ## Interrupt handler -/

/-- The function `ata_adapter_inthand(arg)`, `arg` being the channel. -/
def ata_adapter_inthand {σ : Type} (K : AtaConsts) (m : Machine σ)
    (channel : ata_adapter_channel_info) (w : World σ) : Option (Int × World σ) :=
  (Read8 m (channel.bus_master_base + K.ATA_BM_STATUS_REG) w).bind fun r0 =>
  let statusBM := r0.1
  if (statusBM &&& K.ATA_BM_STATUS_INTERRUPT) ≠ 0 then
    (Read8 m (channel.command_block_base + 7) r0.2).bind fun r1 =>
    let statusATA := r1.1
    (Write8 m (channel.bus_master_base + K.ATA_BM_STATUS_REG)
      ((statusBM &&& 0xf8) ||| K.ATA_BM_STATUS_INTERRUPT) r1.2).bind fun w2 =>
    if !channel.dmaing then some (K.B_UNHANDLED_INTERRUPT, w2)
    else
      some ((m.interrupt_handler w2.hw channel.ataChannel statusATA).1,
        { w2 with hw := (m.interrupt_handler w2.hw channel.ataChannel statusATA).2,
                  trace := w2.trace ++ [Event.interrupt_handler channel.ataChannel statusATA] })
  else some (K.B_UNHANDLED_INTERRUPT, r0.2)

/-! ## Bus-master DMA -/

/-- The body of the loop of `ata_adapter_prepare_dma` run while the loop variable goes
from `i` down to 0 (first argument `i + 1`; 0 means `i >= 0` is false and the loop is
left).  `k` counts the `++prd, ++sgList` steps made so far, so `prd` points to entry `k`
of the table and `sgList` to entry `k` of the list. -/
def prd_fill (sgList : List physical_entry) : Nat → Nat → List prd_entry → Option (List prd_entry)
  | 0, _, prdt => some prdt
  | i + 1, k, prdt =>
    match sgList[k]?, prdt[k]? with
    | some sg, some prd =>
      prd_fill sgList i (k + 1)
        (prdt.set k { prd with address := B_HOST_TO_LENDIAN_INT32 sg.address,
                               count := B_HOST_TO_LENDIAN_INT16 (sg.size % 2 ^ 16),
                               EOT := decide (i = 0) })
    | _, _ => none

/-- The loop of `ata_adapter_prepare_dma` with its initialisation
`int i = sgListCount - 1` (`sgListCount` is a 64-bit `size_t`). -/
def prd_build (sgList : List physical_entry) (sgListCount : Nat) (prdt : List prd_entry) :
    Option (List prd_entry) :=
  let i := toInt32 ((sgListCount + (2 ^ 64 - 1)) % 2 ^ 64)
  if 0 ≤ i then prd_fill sgList (i.toNat + 1) 0 prdt else some prdt

/-- The function `ata_adapter_prepare_dma(channel, sgList, sgListCount, writeToDevice)`;
`sgListCount` is the length of `sgList`. -/
def ata_adapter_prepare_dma {σ : Type} (K : AtaConsts) (m : Machine σ)
    (channel : ata_adapter_channel_info) (sgList : List physical_entry) (writeToDevice : Bool)
    (w : World σ) : Option (status_t × ata_adapter_channel_info × World σ) :=
  (prd_build sgList sgList.length channel.prdt).bind fun prdt =>
  (Read32 m (channel.bus_master_base + K.ATA_BM_PRDT_ADDRESS) w).bind fun r0 =>
  (Write32 m (channel.bus_master_base + K.ATA_BM_PRDT_ADDRESS)
    ((r0.1 &&& 3) ||| (B_HOST_TO_LENDIAN_INT32 channel.prdt_phys &&& 0xfffffffc)) r0.2).bind fun w1 =>
  (Read8 m (channel.bus_master_base + K.ATA_BM_STATUS_REG) w1).bind fun r1 =>
  let status := (r1.1 ||| K.ATA_BM_STATUS_INTERRUPT ||| K.ATA_BM_STATUS_ERROR) % 2 ^ 8
  (Write8 m (channel.bus_master_base + K.ATA_BM_STATUS_REG) status r1.2).bind fun w2 =>
  (Read8 m (channel.bus_master_base + K.ATA_BM_COMMAND_REG) w2).bind fun r2 =>
  let command :=
    if writeToDevice then andNot r2.1 K.ATA_BM_COMMAND_READ_FROM_DEVICE
    else (r2.1 ||| K.ATA_BM_COMMAND_READ_FROM_DEVICE) % 2 ^ 8
  (Write8 m (channel.bus_master_base + K.ATA_BM_COMMAND_REG) command r2.2).map fun w3 =>
  (status_t.B_OK, { channel with prdt := prdt }, w3)

/-- The function `ata_adapter_start_dma(channel)`. -/
def ata_adapter_start_dma {σ : Type} (K : AtaConsts) (m : Machine σ)
    (channel : ata_adapter_channel_info) (w : World σ) :
    Option (status_t × ata_adapter_channel_info × World σ) :=
  (Read8 m (channel.bus_master_base + K.ATA_BM_COMMAND_REG) w).bind fun r0 =>
  let command := (r0.1 ||| K.ATA_BM_COMMAND_START_STOP) % 2 ^ 8
  (Write8 m (channel.bus_master_base + K.ATA_BM_COMMAND_REG) command r0.2).map fun w1 =>
  (status_t.B_OK, { channel with dmaing := true }, w1)

/-- The function `ata_adapter_finish_dma(channel)`. -/
def ata_adapter_finish_dma {σ : Type} (K : AtaConsts) (m : Machine σ)
    (channel : ata_adapter_channel_info) (w : World σ) :
    Option (status_t × ata_adapter_channel_info × World σ) :=
  (Read8 m (channel.bus_master_base + K.ATA_BM_STATUS_REG) w).bind fun r0 =>
  let status := r0.1
  (Read8 m (channel.bus_master_base + K.ATA_BM_COMMAND_REG) r0.2).bind fun r1 =>
  let command := r1.1
  (Write8 m (channel.bus_master_base + K.ATA_BM_COMMAND_REG)
    (andNot command K.ATA_BM_COMMAND_START_STOP) r1.2).bind fun w2 =>
  (Write8 m (channel.bus_master_base + K.ATA_BM_STATUS_REG)
    (status ||| K.ATA_BM_STATUS_ERROR) w2).map fun w3 =>
  (if (status &&& K.ATA_BM_STATUS_ACTIVE) ≠ 0 then status_t.B_DEV_DATA_OVERRUN
    else if (status &&& K.ATA_BM_STATUS_ERROR) ≠ 0 then status_t.B_ERROR
    else status_t.B_OK,
   { channel with dmaing := false }, w3)

end AtaAdapter

namespace Plic

open AtaAdapter (andNot toInt32)

/-! ## PLIC driver (`plic.cpp`) -/

/-- The data members of `PlicInterruptController`: `fIrqCount` and the per-CPU context
table `fPlicContexts[SMP_MAX_CPUS]`. -/
structure PlicInterruptController where
  fIrqCount : Nat
  fPlicContexts : List Nat

/-- Modelled from the spec: the `PlicRegs` declaration (`Plic.h`) is not among the
sources.  The enable bitmap has one row of 32-bit words per context; `enable[c][j]`
is word `j` of the row of context `c`. -/
structure PlicRegs where
  enable : List (List Nat)
  deriving DecidableEq, Repr

/-- Word `j` of the enable row of context `c`, if there is one. -/
def PlicRegs.word (regs : PlicRegs) (c j : Nat) : Option Nat :=
  (regs.enable[c]?).bind fun row => row[j]?

/-- The read-modify-write `fRegs->enable[fPlicContexts[0]][irq / 32] = f(old)` shared by
`EnableIoInterrupt` and `DisableIoInterrupt`, with C's truncating `/` and `%` on
`int`.  A negative shift count or an index outside an array is undefined: `none`. -/
def updateEnable (ctrl : PlicInterruptController) (irq : Int) (f : Nat → Nat → Nat)
    (regs : PlicRegs) : Option PlicRegs :=
  let wordIndex := Int.tdiv irq 32
  let bit := Int.tmod irq 32
  if wordIndex < 0 ∨ bit < 0 then none
  else
    match ctrl.fPlicContexts[0]? with
    | none => none
    | some c =>
      match regs.enable[c]? with
      | none => none
      | some row =>
        match row[wordIndex.toNat]? with
        | none => none
        | some old => some { regs with enable := regs.enable.set c (row.set wordIndex.toNat (f old bit.toNat)) }

/-- The method `EnableIoInterrupt(irq)`: `enable[..][irq / 32] |= 1 << (irq % 32)`.
For `irq % 32 = 31` the `int` value `1 << 31` converts to the word with bit 31 set. -/
def EnableIoInterrupt (ctrl : PlicInterruptController) (irq : Int) (regs : PlicRegs) :
    Option PlicRegs :=
  updateEnable ctrl irq (fun old bit => old ||| (1 <<< bit)) regs

/-- The method `DisableIoInterrupt(irq)`: `enable[..][irq / 32] &= ~(1 << (irq % 32))`. -/
def DisableIoInterrupt (ctrl : PlicInterruptController) (irq : Int) (regs : PlicRegs) :
    Option PlicRegs :=
  updateEnable ctrl irq (fun old bit => andNot old (1 <<< bit)) regs

/-- What `HandleInterrupt` does to the outside, in program order: the volatile read and
write of `contexts[context].claimAndComplete` and the call of the generic dispatcher. -/
inductive Event where
  | readClaim (context val : Nat)
  | writeClaim (context val : Nat)
  | int_io_interrupt_handler (vector : Int) (levelTriggered : Bool)
  deriving DecidableEq, Repr

/-- The environment of `HandleInterrupt` as a deterministic state machine over `σ`: the
current CPU index, the claim/complete register of each context (a 32-bit register) and
the kernel function `int_io_interrupt_handler(int vector, bool levelTriggered)`. -/
structure Machine (σ : Type) where
  smp_get_current_cpu : σ → Nat
  claim : σ → Nat → Nat × σ
  complete : σ → Nat → Nat → σ
  int_io_interrupt_handler : σ → Int → Bool → Int × σ

/-- The environment's state and the trace so far. -/
structure World (σ : Type) where
  hw : σ
  trace : List Event

/-- The value `HandleInterrupt` reads from the claim register of `context`. -/
def claimValue {σ : Type} (m : Machine σ) (context : Nat) (w : World σ) : Nat :=
  (m.claim w.hw context).1 % 2 ^ 32

/-- The static method `HandleInterrupt(arg)`, `arg` being the controller;
`B_HANDLED_INTERRUPT` (`KernelExport.h`, absent) is a parameter.  The `uint64 irq` is
converted to the `int vector` parameter of `int_io_interrupt_handler`. -/
def HandleInterrupt {σ : Type} (B_HANDLED_INTERRUPT : Int) (m : Machine σ)
    (ctrl : PlicInterruptController) (w : World σ) : Option (Int × World σ) :=
  match ctrl.fPlicContexts[m.smp_get_current_cpu w.hw]? with
  | none => none
  | some context =>
    let irq := claimValue m context w
    let w1 : World σ :=
      { hw := (m.claim w.hw context).2, trace := w.trace ++ [Event.readClaim context irq] }
    if irq = 0 then some (B_HANDLED_INTERRUPT, w1)
    else
      let w2 : World σ :=
        { hw := (m.int_io_interrupt_handler w1.hw (toInt32 irq) true).2,
          trace := w1.trace ++ [Event.int_io_interrupt_handler (toInt32 irq) true] }
      let w3 : World σ :=
        { hw := m.complete w2.hw context (irq % 2 ^ 32),
          trace := w2.trace ++ [Event.writeClaim context (irq % 2 ^ 32)] }
      some (B_HANDLED_INTERRUPT, w3)

end Plic

namespace AtaAdapter

/-! ## Reference descriptions used in the statements -/

/-- The entry the loop of `ata_adapter_prepare_dma` stores for segment `s`. -/
def prdOf (s : physical_entry) (last : Bool) : prd_entry :=
  { address := s.address % 2 ^ 32, count := s.size % 2 ^ 16, EOT := last }

/-- The result of `finishDma` as the specification words it, from the two observed
bits: overrun if "active" was set, else generic error if "error" was set, else success. -/
def finishDmaSpec (active error : Bool) : status_t :=
  if active then status_t.B_DEV_DATA_OVERRUN
  else if error then status_t.B_ERROR
  else status_t.B_OK

/-- The register writes the specification asks of `writeCommandBlockRegisters` for the
logical register `i`: the high byte `r[i + 7]` if mask bit `i + 7` is set, then the low
byte `r[i]` if mask bit `i` is set, both 8 bits wide to port `ioaddr + 1 + i`. -/
def commandBlockWrites (ioaddr : Nat) (tf : ata_task_file) (mask i : Nat) : List Event :=
  (if mask.testBit (i + 7) then [Event.write 1 (ioaddr + 1 + i) (tf.r (i + 7))] else []) ++
  (if mask.testBit i then [Event.write 1 (ioaddr + 1 + i) (tf.r i)] else [])

end AtaAdapter

namespace AtaAdapter

/-- Whether an event is a register access (a read or a write), as opposed to a call
of the upper layer. -/
def Event.isAccess : Event → Bool
  | Event.read _ _ _ => true
  | Event.write _ _ _ => true
  | Event.interrupt_handler _ _ => false

end AtaAdapter

namespace Plic

/-- The bitmap `out` differs from `regs` at most in bit `b` of word `wi` of the row of
context `c`: that word exists, its bit `b` has the value `v` in `out`, its other bits
are as in `regs`, and every other word of every row is as in `regs`. -/
def OnlyBitChanged (regs out : PlicRegs) (c wi b : Nat) (v : Bool) : Prop :=
  (∃ old new, regs.word c wi = some old ∧ out.word c wi = some new ∧
    new.testBit b = v ∧ ∀ j, j ≠ b → new.testBit j = old.testBit j) ∧
  ∀ r j, ¬ (r = c ∧ j = wi) → out.word r j = regs.word r j

end Plic

namespace AtaAdapter

/-! ## Concrete environment for the instances -/

/-- A register file as environment: every address holds the value last stored there
(initially the state's value), the window is mapped at `0x10000`, and the upper
layer answers every interrupt with 1. -/
def regFile : Machine (Nat → Nat) where
  map_physical_memory := fun s => (0x10000, s)
  load := fun s _ adr => (s adr, s)
  store := fun s _ adr v => fun a => if a = adr then v else s a
  interrupt_handler := fun s _ _ => (1, s)

/-- The start state in which every register of `regFile` holds `v`. -/
def world0 (v : Nat) : World (Nat → Nat) := { hw := fun _ => v, sMappedRegs := 0, trace := [] }

/-- A channel at command base `0x1000`, control base `0x2000`, bus-master base
`0x3000`, with a table of 512 entries. -/
def channel0 : ata_adapter_channel_info where
  command_block_base := 0x1000
  control_block_base := 0x2000
  bus_master_base := 0x3000
  intnum := 4
  lost := 0
  ataChannel := 77
  prdt := List.replicate 512 { address := 7, count := 7, EOT := true }
  prdt_phys := 0x80000
  dmaing := false

/-- Three segments: 512 bytes, 64 KiB above 4 GiB, 4 KiB. -/
def sg3 : List physical_entry :=
  [{ address := 0x1000, size := 512 }, { address := 0x100002000, size := 65536 },
   { address := 0x3000, size := 4096 }]

/-- A task file whose byte `i` is `0x10 + i`. -/
def tf0 : ata_task_file := { r := fun i => 0x10 + i }

/-- One segment of size 0. -/
def sgZero : List physical_entry := [{ address := 0x1000, size := 0 }]

end AtaAdapter

namespace Plic

/-! ## Concrete environment for the instances -/

/-- A PLIC whose claim register always reads `n`, on CPU 0; the dispatcher answers 1. -/
def claimDevice (n : Nat) : Machine Unit where
  smp_get_current_cpu := fun _ => 0
  claim := fun s _ => (n, s)
  complete := fun s _ _ => s
  int_io_interrupt_handler := fun s _ _ => (1, s)

/-- A controller with 10 lines whose CPU 0 uses context 1 and CPU 1 context 3. -/
def ctrl0 : PlicInterruptController := { fIrqCount := 10, fPlicContexts := [1, 3] }

/-- Four enable rows of two words; bits 0 and 2 of word 0 of context 1 are set. -/
def regs0 : PlicRegs := { enable := [[0, 0], [5, 0], [0, 0], [0, 0]] }

/-- The empty start state of `claimDevice`. -/
def world0 : World Unit := { hw := (), trace := [] }

end Plic

namespace AtaAdapter

/-! ## Remaining channel operations -/

/-- The function `set_channel(channel, ataChannel)`. -/
def set_channel (channel : ata_adapter_channel_info) (ataChannel : Nat) :
    ata_adapter_channel_info :=
  { channel with ataChannel := ataChannel }

/-- The loop of `ata_adapter_read_command_block_regs`, `n` iterations left and loop
variable `i`: `tf->raw.r[i] = Read8(ioaddr + 1 + i)` if mask bit `i` is set. -/
def read_command_block_loop {σ : Type} (m : Machine σ) (ioaddr mask : Nat) :
    Nat → Nat → ata_task_file → World σ → Option (ata_task_file × World σ)
  | 0, _, tf, w => some (tf, w)
  | n + 1, i, tf, w =>
    (if ((1 <<< i) &&& mask) ≠ 0 then
        (Read8 m (ioaddr + 1 + i) w).map fun r =>
          (({ r := fun j => if j = i then r.1 else tf.r j } : ata_task_file), r.2)
      else some (tf, w)).bind fun p =>
    read_command_block_loop m ioaddr mask n (i + 1) p.1 p.2

/-- The function `ata_adapter_read_command_block_regs(channel, tf, mask)`; returns the
status and the task file as left in the caller's memory. -/
def ata_adapter_read_command_block_regs {σ : Type} (m : Machine σ)
    (channel : ata_adapter_channel_info) (tf : ata_task_file) (mask : Nat)
    (w : World σ) : Option (status_t × ata_task_file × World σ) :=
  let ioaddr := channel.command_block_base
  if channel.lost ≠ 0 then some (status_t.B_ERROR, tf, w)
  else (read_command_block_loop m ioaddr mask 7 0 tf w).map fun p => (status_t.B_OK, p.1, p.2)

/-- The function `ata_adapter_get_altstatus(channel)`. -/
def ata_adapter_get_altstatus {σ : Type} (m : Machine σ)
    (channel : ata_adapter_channel_info) (w : World σ) : Option (Nat × World σ) :=
  let altstatusaddr := channel.control_block_base
  if channel.lost ≠ 0 then some (0x01, w)
  else Read8 m altstatusaddr w

/-- The function `ata_adapter_write_device_control(channel, val)`. -/
def ata_adapter_write_device_control {σ : Type} (m : Machine σ)
    (channel : ata_adapter_channel_info) (val : Nat) (w : World σ) :
    Option (status_t × World σ) :=
  let device_control_addr := channel.control_block_base
  if channel.lost ≠ 0 then some (status_t.B_ERROR, w)
  else (Write8 m device_control_addr val w).map fun w1 => (status_t.B_OK, w1)

/-- The 16-bit loop of `ata_adapter_write_pio`: `for (; count > 0; --count)
Write16(ioaddr, *(data++))`, first argument the iterations left, `data` the words from
the pointer on.  Reading past the end of the buffer is undefined: `none`. -/
def write_pio_loop16 {σ : Type} (m : Machine σ) (ioaddr : Nat) :
    Nat → List Nat → World σ → Option (World σ)
  | 0, _, w => some w
  | _ + 1, [], _ => none
  | n + 1, d :: data, w => (Write16 m ioaddr d w).bind fun w1 => write_pio_loop16 m ioaddr n data w1

/-- The 32-bit loop of `ata_adapter_write_pio`: `for (; count > 0; count -= 2)
Write32(ioaddr, *(cur_data++))`, first argument `count` when positive.  Two 16-bit words
are read as one little-endian 32-bit word. -/
def write_pio_loop32 {σ : Type} (m : Machine σ) (ioaddr : Nat) :
    Nat → List Nat → World σ → Option (World σ)
  | 0, _, w => some w
  | 1, d0 :: d1 :: _, w => Write32 m ioaddr (d0 + 2 ^ 16 * d1) w
  | n + 2, d0 :: d1 :: data, w =>
    (Write32 m ioaddr (d0 + 2 ^ 16 * d1) w).bind fun w1 => write_pio_loop32 m ioaddr n data w1
  | _ + 1, _, _ => none

/-- The function `ata_adapter_write_pio(channel, data, count, force_16bit)`; the
parameter `force_16bit` is overwritten with `true` before it is tested. -/
def ata_adapter_write_pio {σ : Type} (m : Machine σ) (channel : ata_adapter_channel_info)
    (data : List Nat) (count : Int) (force_16bit : Bool) (w : World σ) :
    Option (status_t × World σ) :=
  let ioaddr := channel.command_block_base
  if channel.lost ≠ 0 then some (status_t.B_ERROR, w)
  else
    let force_16bit := (fun (_ : Bool) => true) force_16bit
    if count % 2 ≠ 0 ∨ force_16bit = true then
      (write_pio_loop16 m ioaddr count.toNat data w).map fun w1 => (status_t.B_OK, w1)
    else
      (write_pio_loop32 m ioaddr count.toNat data w).map fun w1 => (status_t.B_OK, w1)

/-- The 16-bit loop of `ata_adapter_read_pio`: `for (; count > 0; --count)
*(data++) = Read16(ioaddr)`; returns the buffer from the pointer on, as left in memory.
Writing past the end of the buffer is undefined: `none`. -/
def read_pio_loop16 {σ : Type} (m : Machine σ) (ioaddr : Nat) :
    Nat → List Nat → World σ → Option (List Nat × World σ)
  | 0, data, w => some (data, w)
  | _ + 1, [], _ => none
  | n + 1, _ :: data, w =>
    (Read16 m ioaddr w).bind fun r =>
    (read_pio_loop16 m ioaddr n data r.2).map fun p => (r.1 :: p.1, p.2)

/-- The 32-bit loop of `ata_adapter_read_pio`: `for (; count > 0; count -= 2)
*(cur_data++) = Read32(ioaddr)`; a 32-bit word is stored as two little-endian 16-bit
words. -/
def read_pio_loop32 {σ : Type} (m : Machine σ) (ioaddr : Nat) :
    Nat → List Nat → World σ → Option (List Nat × World σ)
  | 0, data, w => some (data, w)
  | 1, _ :: _ :: data, w =>
    (Read32 m ioaddr w).map fun r => (r.1 % 2 ^ 16 :: r.1 / 2 ^ 16 :: data, r.2)
  | n + 2, _ :: _ :: data, w =>
    (Read32 m ioaddr w).bind fun r =>
    (read_pio_loop32 m ioaddr n data r.2).map fun p => (r.1 % 2 ^ 16 :: r.1 / 2 ^ 16 :: p.1, p.2)
  | _ + 1, _, _ => none

/-- The function `ata_adapter_read_pio(channel, data, count, force_16bit)`; returns the
status and the buffer as left in the caller's memory. -/
def ata_adapter_read_pio {σ : Type} (m : Machine σ) (channel : ata_adapter_channel_info)
    (data : List Nat) (count : Int) (force_16bit : Bool) (w : World σ) :
    Option (status_t × List Nat × World σ) :=
  let ioaddr := channel.command_block_base
  if channel.lost ≠ 0 then some (status_t.B_ERROR, data, w)
  else
    let force_16bit := (fun (_ : Bool) => true) force_16bit
    if count % 2 ≠ 0 ∨ force_16bit = true then
      (read_pio_loop16 m ioaddr count.toNat data w).map fun p => (status_t.B_OK, p.1, p.2)
    else
      (read_pio_loop32 m ioaddr count.toNat data w).map fun p => (status_t.B_OK, p.1, p.2)

/-- The function `ata_adapter_channel_removed(channel)`; `none` is the NULL pointer.
`atomic_or(&channel->lost, 1)` is `lost |= 1`. -/
def ata_adapter_channel_removed (channel : Option ata_adapter_channel_info) :
    Option ata_adapter_channel_info :=
  channel.map fun c => { c with lost := c.lost ||| 1 }

/-- The fields of `ata_adapter_controller_info` that the adapter functions use. -/
structure ata_adapter_controller_info where
  bus_master_base : Nat
  lost : Nat
  deriving DecidableEq, Repr

/-- The function `ata_adapter_controller_removed(controller)`; `none` is the NULL
pointer. -/
def ata_adapter_controller_removed (controller : Option ata_adapter_controller_info) :
    Option ata_adapter_controller_info :=
  controller.map fun c => { c with lost := c.lost ||| 1 }

/-- One call of an operation of the adapter interface on an initialised channel, with
its arguments. -/
inductive AdapterOp where
  | set_channel (ataChannel : Nat)
  | write_command_block_regs (tf : ata_task_file) (mask : Nat)
  | read_command_block_regs (tf : ata_task_file) (mask : Nat)
  | get_altstatus
  | write_device_control (val : Nat)
  | write_pio (data : List Nat) (count : Int) (force_16bit : Bool)
  | read_pio (data : List Nat) (count : Int) (force_16bit : Bool)
  | prepare_dma (sgList : List physical_entry) (writeToDevice : Bool)
  | start_dma
  | finish_dma
  | inthand
  | channel_removed

/-- The effect of one call on the channel structure and the world (results that go
back to the caller are dropped). -/
def AdapterOp.run {σ : Type} (K : AtaConsts) (m : Machine σ) :
    AdapterOp → ata_adapter_channel_info × World σ → Option (ata_adapter_channel_info × World σ)
  | AdapterOp.set_channel a, (c, w) => some (AtaAdapter.set_channel c a, w)
  | AdapterOp.write_command_block_regs tf mask, (c, w) =>
    (ata_adapter_write_command_block_regs m c tf mask w).map fun r => (c, r.2)
  | AdapterOp.read_command_block_regs tf mask, (c, w) =>
    (ata_adapter_read_command_block_regs m c tf mask w).map fun r => (c, r.2.2)
  | AdapterOp.get_altstatus, (c, w) => (ata_adapter_get_altstatus m c w).map fun r => (c, r.2)
  | AdapterOp.write_device_control val, (c, w) =>
    (ata_adapter_write_device_control m c val w).map fun r => (c, r.2)
  | AdapterOp.write_pio data count f, (c, w) =>
    (ata_adapter_write_pio m c data count f w).map fun r => (c, r.2)
  | AdapterOp.read_pio data count f, (c, w) =>
    (ata_adapter_read_pio m c data count f w).map fun r => (c, r.2.2)
  | AdapterOp.prepare_dma sgList wr, (c, w) =>
    (ata_adapter_prepare_dma K m c sgList wr w).map fun r => r.2
  | AdapterOp.start_dma, (c, w) => (ata_adapter_start_dma K m c w).map fun r => r.2
  | AdapterOp.finish_dma, (c, w) => (ata_adapter_finish_dma K m c w).map fun r => r.2
  | AdapterOp.inthand, (c, w) => (ata_adapter_inthand K m c w).map fun r => (c, r.2)
  | AdapterOp.channel_removed, (c, w) =>
    (ata_adapter_channel_removed (some c)).map fun c1 => (c1, w)

/-- A sequence of calls, run in order. -/
def runOps {σ : Type} (K : AtaConsts) (m : Machine σ) :
    List AdapterOp → ata_adapter_channel_info × World σ → Option (ata_adapter_channel_info × World σ)
  | [], s => some s
  | op :: ops, s => (op.run K m s).bind fun s1 => runOps K m ops s1

end AtaAdapter

namespace AtaAdapter

/-! ## Channel and controller detection -/

/-- Constants of `PCI.h`, which is not among the sources; they are parameters of the
detection functions. -/
structure PciConsts where
  PCI_vendor_id : Nat
  PCI_command : Nat
  PCI_class_api : Nat
  PCI_command_io : Nat
  PCI_command_master : Nat
  PCI_ide_primary_native : Nat
  PCI_ide_secondary_native : Nat

/-- The values these constants have in the Haiku headers (PCI configuration space). -/
def haikuPci : PciConsts where
  PCI_vendor_id := 0x00
  PCI_command := 0x04
  PCI_class_api := 0x09
  PCI_command_io := 0x001
  PCI_command_master := 0x004
  PCI_ide_primary_native := 0x01
  PCI_ide_secondary_native := 0x04

/-- The attributes and I/O resources `ata_adapter_publish_channel` hands to
`register_node`; a resource is a pair (first port, number of ports). -/
structure channel_node where
  command_block_base : Nat
  control_block_base : Nat
  can_dma : Bool
  intnum : Nat
  channel_index : Nat
  resources : List (Nat × Nat)
  deriving DecidableEq, Repr

/-- The attributes and I/O resources `ata_adapter_publish_controller` hands to
`register_node`. -/
structure controller_node where
  bus_master_base : Nat
  can_dma : Bool
  dma_alignment : Nat
  dma_boundary : Nat
  max_sg_block_size : Nat
  max_sg_count : Nat
  resources : List (Nat × Nat)
  deriving DecidableEq, Repr

/-- A node handed to `register_node`. -/
inductive NodeInfo where
  | channel (n : channel_node)
  | controller (n : controller_node)
  deriving DecidableEq, Repr

/-- What detection does to PCI configuration space and the device manager, in program
order. -/
inductive DevEvent where
  | read_pci_config (offset size val : Nat)
  | write_pci_config (offset size val : Nat)
  | register_node (info : NodeInfo)
  deriving DecidableEq, Repr

/-- The PCI bus driver and the device manager as a deterministic state machine over the
same state `σ` as `Machine`: `register_node` yields the status and the node pointer it
stores (`none` for NULL). -/
structure Platform (σ : Type) where
  read_pci_config : σ → Nat → Nat → Nat × σ
  write_pci_config : σ → Nat → Nat → Nat → σ
  register_node : σ → NodeInfo → (status_t × Option Nat) × σ

/-- The world of the detection functions: the module's world and the trace of PCI and
device-manager events. -/
structure DetectWorld (σ : Type) where
  w : World σ
  devlog : List DevEvent

/-- The call `pci->read_pci_config(device, offset, size)`. -/
def read_pci_config {σ : Type} (pl : Platform σ) (offset size : Nat) (d : DetectWorld σ) :
    Nat × DetectWorld σ :=
  ((pl.read_pci_config d.w.hw offset size).1,
   { w := { d.w with hw := (pl.read_pci_config d.w.hw offset size).2 },
     devlog := d.devlog ++
       [DevEvent.read_pci_config offset size (pl.read_pci_config d.w.hw offset size).1] })

/-- The call `pci->write_pci_config(device, offset, size, value)`. -/
def write_pci_config {σ : Type} (pl : Platform σ) (offset size val : Nat)
    (d : DetectWorld σ) : DetectWorld σ :=
  { w := { d.w with hw := pl.write_pci_config d.w.hw offset size val },
    devlog := d.devlog ++ [DevEvent.write_pci_config offset size val] }

/-- The call `sDeviceManager->register_node(...)` with the given attributes. -/
def register_node {σ : Type} (pl : Platform σ) (info : NodeInfo) (d : DetectWorld σ) :
    (status_t × Option Nat) × DetectWorld σ :=
  ((pl.register_node d.w.hw info).1,
   { w := { d.w with hw := (pl.register_node d.w.hw info).2 },
     devlog := d.devlog ++ [DevEvent.register_node info] })

/-- The function `ata_adapter_publish_channel`. -/
def ata_adapter_publish_channel {σ : Type} (pl : Platform σ)
    (command_block_base control_block_base intnum : Nat) (can_dma : Bool)
    (channel_index : Nat) (resources : List (Nat × Nat)) (d : DetectWorld σ) :
    (status_t × Option Nat) × DetectWorld σ :=
  register_node pl (NodeInfo.channel
    { command_block_base := command_block_base, control_block_base := control_block_base,
      can_dma := can_dma, intnum := intnum, channel_index := channel_index,
      resources := resources }) d

/-- Address resolution at the head of `ata_adapter_detect_channel`, from the API byte:
the (command base, control base, interrupt) to publish, or `none` where the function
returns `B_ERROR`.  `control_block_base` is a `uint16`. -/
def resolveChannel (P : PciConsts) (supports_compatibility_mode : Bool)
    (api command_block_base control_block_base intnum channel_index : Nat) :
    Option (Nat × Nat × Nat) :=
  if supports_compatibility_mode = true ∧ channel_index = 0
      ∧ api &&& P.PCI_ide_primary_native = 0 then
    some (0x1f0, 0x3f6, 14)
  else if supports_compatibility_mode = true ∧ channel_index = 1
      ∧ api &&& P.PCI_ide_secondary_native = 0 then
    some (0x170, 0x376, 15)
  else if command_block_base = 0 ∨ control_block_base = 0 then none
  else if intnum = 0 ∨ intnum = 0xff then none
  else some (command_block_base, (control_block_base + 2) % 2 ^ 16, intnum)

/-- The value `pcicmdNew` that `ata_adapter_detect_channel` computes from the 16-bit
value `pcicmdOld` read from `PCI_command`. -/
def pcicmdNew (P : PciConsts) (pcicmdOld : Nat) : Nat :=
  let n1 := if pcicmdOld &&& (1 <<< 10) ≠ 0 then andNot pcicmdOld (1 <<< 10) else pcicmdOld
  let n2 := if n1 &&& P.PCI_command_io = 0 then (n1 ||| P.PCI_command_io) % 2 ^ 16 else n1
  let n3 := if n2 &&& P.PCI_command_master = 0 then (n2 ||| P.PCI_command_master) % 2 ^ 16 else n2
  n3

/-- The middle of `ata_adapter_detect_channel`: read `PCI_command`, normalise it, and
write it back if it changed. -/
def setupPciCommand {σ : Type} (P : PciConsts) (pl : Platform σ) (d : DetectWorld σ) :
    DetectWorld σ :=
  let r := read_pci_config pl P.PCI_command 2 d
  let pcicmdOld := r.1 % 2 ^ 16
  if pcicmdOld ≠ pcicmdNew P pcicmdOld then
    write_pci_config pl P.PCI_command 2 (pcicmdNew P pcicmdOld) r.2
  else r.2

/-- The simplex test of `ata_adapter_detect_channel`: the value of `controller_can_dma`
after it, and the world.  The bus-master status is that of the primary channel
(`bus_master_base` is the controller's base). -/
def detectSimplex {σ : Type} (K : AtaConsts) (P : PciConsts) (m : Machine σ) (pl : Platform σ)
    (controller_can_dma : Bool) (bus_master_base channel_index : Nat)
    (supports_compatibility_mode : Bool) (d : DetectWorld σ) :
    Option (Bool × DetectWorld σ) :=
  if supports_compatibility_mode then
    (Read8 m (bus_master_base + K.ATA_BM_STATUS_REG) d.w).bind fun r =>
    let status := r.1
    let d1 : DetectWorld σ := { d with w := r.2 }
    if status &&& K.ATA_BM_STATUS_SIMPLEX_DMA ≠ 0 ∧ channel_index ≠ 0 then
      let v := read_pci_config pl P.PCI_vendor_id 2 d1
      let pciVendor := v.1 % 2 ^ 16
      if pciVendor ≠ 0x8086 then some (false, v.2)
      else some (controller_can_dma, v.2)
    else some (controller_can_dma, d1)
  else some (controller_can_dma, d)

/-- The function `ata_adapter_detect_channel`; returns the status, the node pointer
stored through `node` (`none` if nothing was stored) and the world. -/
def ata_adapter_detect_channel {σ : Type} (K : AtaConsts) (P : PciConsts) (m : Machine σ)
    (pl : Platform σ) (controller_can_dma : Bool)
    (command_block_base control_block_base bus_master_base intnum channel_index : Nat)
    (supports_compatibility_mode : Bool) (d : DetectWorld σ) :
    Option (status_t × Option Nat × DetectWorld σ) :=
  let a := read_pci_config pl P.PCI_class_api 1 d
  let api := a.1 % 2 ^ 8
  match resolveChannel P supports_compatibility_mode api command_block_base
      control_block_base intnum channel_index with
  | none => some (status_t.B_ERROR, none, a.2)
  | some (command_block_base, control_block_base, intnum) =>
    let d2 := setupPciCommand P pl a.2
    (detectSimplex K P m pl controller_can_dma bus_master_base channel_index
      supports_compatibility_mode d2).map fun s =>
    let resources := [(command_block_base, 8), (control_block_base, 1)]
    let r := ata_adapter_publish_channel pl command_block_base control_block_base intnum
      s.1 channel_index resources s.2
    (r.1.1, r.1.2, r.2)

/-- The function `ata_adapter_publish_controller`. -/
def ata_adapter_publish_controller {σ : Type} (K : AtaConsts) (pl : Platform σ)
    (bus_master_base : Nat) (resources : List (Nat × Nat)) (can_dma : Bool)
    (dma_alignment dma_boundary max_sg_block_size : Nat) (d : DetectWorld σ) :
    (status_t × Option Nat) × DetectWorld σ :=
  register_node pl (NodeInfo.controller
    { bus_master_base := bus_master_base, can_dma := can_dma, dma_alignment := dma_alignment,
      dma_boundary := dma_boundary, max_sg_block_size := max_sg_block_size,
      max_sg_count := K.ATA_ADAPTER_MAX_SG_COUNT, resources := resources }) d

/-- The function `ata_adapter_detect_controller`. -/
def ata_adapter_detect_controller {σ : Type} (K : AtaConsts) (pl : Platform σ)
    (bus_master_base : Nat) (can_dma : Bool)
    (dma_alignment dma_boundary max_sg_block_size : Nat) (d : DetectWorld σ) :
    (status_t × Option Nat) × DetectWorld σ :=
  let resources := [(bus_master_base, 16)]
  if bus_master_base = 0 then ((status_t.B_ERROR, none), d)
  else ata_adapter_publish_controller K pl bus_master_base resources can_dma dma_alignment
    dma_boundary max_sg_block_size d

/-- The function `ata_adapter_probe_controller`, with its fixed addresses. -/
def ata_adapter_probe_controller {σ : Type} (K : AtaConsts) (P : PciConsts) (m : Machine σ)
    (pl : Platform σ) (can_dma : Bool) (dma_alignment dma_boundary max_sg_block_size : Nat)
    (supports_compatibility_mode : Bool) (d : DetectWorld σ) :
    Option (status_t × DetectWorld σ) :=
  let command_block_base0 := 0x1000
  let control_block_base0 := 0x2000
  let command_block_base1 := 0
  let control_block_base1 := 0
  let bus_master_base := 0x3000
  let intnum := 4
  let r := ata_adapter_detect_controller K pl bus_master_base can_dma dma_alignment
    dma_boundary max_sg_block_size d
  let res := r.1.1
  let controller_node := r.1.2
  if res ≠ status_t.B_OK ∨ controller_node = none then some (res, r.2)
  else
    (ata_adapter_detect_channel K P m pl can_dma command_block_base0 control_block_base0
      bus_master_base intnum 0 supports_compatibility_mode r.2).bind fun c0 =>
    (ata_adapter_detect_channel K P m pl can_dma command_block_base1 control_block_base1
      bus_master_base intnum 1 supports_compatibility_mode c0.2.2).map fun c1 =>
    (status_t.B_OK, c1.2.2)

end AtaAdapter

namespace Plic

/-! ## Context table built by `InitDriver` -/

/-- One tuple of the `get_interrupt` loop of `InitDriver`: the cause and the `reg`
property (hart id) of the hart node; `hartId = none` stands for a failing `get_driver`
or a missing or ill-sized `reg` property, on which `InitDriver` returns an error. -/
structure interrupt_entry where
  cause : Nat
  hartId : Option Nat
  deriving DecidableEq, Repr

/-- The scan `while (cpu < cpuCount && !(gCPU[cpu].arch.hartId == hartId)) cpu++` over
the hart ids of the remaining CPUs, from CPU index `cpu`; yields `cpuCount` if no CPU
matches. -/
def findCpu (hartId : Nat) : List Nat → Nat → Nat
  | [], cpu => cpu
  | h :: rest, cpu => if h = hartId then cpu else findCpu hartId rest (cpu + 1)

/-- The `get_interrupt` loop of `InitDriver`: `plicContext` is the cookie, `gCPU` the
hart ids of the `cpuCount` CPUs, `sExternInt` the external-interrupt cause (absent
header).  Yields the table `fPlicContexts`, or `none` where `InitDriver` fails (or
would write outside the table). -/
def initContexts (sExternInt : Nat) (gCPU : List Nat) :
    List interrupt_entry → Nat → List Nat → Option (List Nat)
  | [], _, fPlicContexts => some fPlicContexts
  | e :: rest, plicContext, fPlicContexts =>
    match e.hartId with
    | none => none
    | some hartId =>
      if e.cause = sExternInt then
        let cpu := findCpu hartId gCPU 0
        if cpu < gCPU.length then
          if cpu < fPlicContexts.length then
            initContexts sExternInt gCPU rest (plicContext + 1) (fPlicContexts.set cpu plicContext)
          else none
        else initContexts sExternInt gCPU rest (plicContext + 1) fPlicContexts
      else initContexts sExternInt gCPU rest (plicContext + 1) fPlicContexts

/-- The table `fPlicContexts {}` of a fresh `PlicInterruptController` (all zero), as
filled by the `get_interrupt` loop of `InitDriver`. -/
def InitDriver_contexts (sExternInt SMP_MAX_CPUS : Nat) (gCPU : List Nat)
    (entries : List interrupt_entry) : Option (List Nat) :=
  initContexts sExternInt gCPU entries 0 (List.replicate SMP_MAX_CPUS 0)

end Plic

namespace AtaAdapter

/-- The call result `result`, made in world `d`, published exactly one node: the
channel node `n`, as the last event, after events `before` that register nothing. -/
def PublishesChannel {σ : Type} (result : Option (status_t × Option Nat × DetectWorld σ))
    (d : DetectWorld σ) (n : channel_node) : Prop :=
  ∃ st node dfin before, result = some (st, node, dfin) ∧
    dfin.devlog = d.devlog ++ before ++ [DevEvent.register_node (NodeInfo.channel n)] ∧
    ∀ info, DevEvent.register_node info ∉ before

/-- Whether an event registers a node. -/
def DevEvent.isRegister : DevEvent → Bool
  | DevEvent.register_node _ => true
  | _ => false

end AtaAdapter

namespace Plic

/-- The context the specification of `InitDriver` records for the CPU with hart id
`hart0`: the index (counted from `k`) of the last tuple whose cause is the external
interrupt and whose hart is `hart0`, if there is one. -/
def lastExternContext (sExternInt hart0 : Nat) : List interrupt_entry → Nat → Option Nat
  | [], _ => none
  | e :: rest, k =>
    match lastExternContext sExternInt hart0 rest (k + 1) with
    | some i => some i
    | none => if e.cause = sExternInt ∧ e.hartId = some hart0 then some k else none

end Plic

namespace AtaAdapter

/-- The channel `channel0` after its device was removed (`lost` set). -/
def lostChannel : ata_adapter_channel_info := { channel0 with lost := 1 }

/-- A data buffer of four 16-bit words. -/
def data4 : List Nat := [0x1111, 0x2222, 0x3333, 0x4444]

end AtaAdapter

namespace AtaAdapter

/-- A sequence of calls on one channel, with a removal in the middle. -/
def demoOps : List AdapterOp :=
  [AdapterOp.start_dma, AdapterOp.channel_removed, AdapterOp.write_device_control 0x0a,
   AdapterOp.finish_dma, AdapterOp.set_channel 5, AdapterOp.inthand]

end AtaAdapter

namespace AtaAdapter

/-- A PCI function with fixed vendor id, API byte and command word, whose device
manager registers every node as node 1. -/
def pciDevice (vendor api command : Nat) : Platform (Nat → Nat) where
  read_pci_config := fun s offset _ =>
    (if offset = 0x00 then vendor else if offset = 0x09 then api
      else if offset = 0x04 then command else 0, s)
  write_pci_config := fun s _ _ _ => s
  register_node := fun s _ => ((status_t.B_OK, some 1), s)

/-- The start state of detection in which every register of `regFile` holds `v`. -/
def detect0 (v : Nat) : DetectWorld (Nat → Nat) := { w := world0 v, devlog := [] }

end AtaAdapter

namespace Plic

/-- The tuples of a single-hart board: context 0 is the machine-mode external
interrupt (cause 11) of hart 0, context 1 its supervisor-mode external interrupt
(cause 9). -/
def entries0 : List interrupt_entry :=
  [{ cause := 11, hartId := some 0 }, { cause := 9, hartId := some 0 }]

/-- A controller whose table is the one `InitDriver` builds from `entries0` on one CPU
with hart id 0 (`SMP_MAX_CPUS = 8`, external-interrupt cause 9). -/
def ctrl1 : PlicInterruptController :=
  { fIrqCount := 10, fPlicContexts := [1, 0, 0, 0, 0, 0, 0, 0] }

end Plic

namespace AtaAdapter

/-! ## Accesses as the environment sees them -/

/-- One volatile access as the environment sees it: direction, width in bytes and
address. -/
structure Access where
  isWrite : Bool
  size : Nat
  adr : Nat
  deriving DecidableEq, Repr

/-- The environment `m` with a log of the accesses made to it: every `load` and every
`store` is passed on to `m` and appended to the log; the other calls are passed on. -/
def logged {σ : Type} (m : Machine σ) : Machine (σ × List Access) where
  map_physical_memory := fun s =>
    ((m.map_physical_memory s.1).1, ((m.map_physical_memory s.1).2, s.2))
  load := fun s size adr =>
    ((m.load s.1 size adr).1, ((m.load s.1 size adr).2, s.2 ++ [⟨false, size, adr⟩]))
  store := fun s size adr v => (m.store s.1 size adr v, s.2 ++ [⟨true, size, adr⟩])
  interrupt_handler := fun s c st =>
    ((m.interrupt_handler s.1 c st).1, ((m.interrupt_handler s.1 c st).2, s.2))

/-- How a call of `MmioOp` ends: it returns, with the new `val`, or it calls `panic`, in
the world reached by then. -/
inductive MmioOutcome (σ : Type) where
  | returned (val : Nat) (w : World σ)
  | panicked (w : World σ)

/-- The function `MmioOp(offset, val, size, isWrite)` once more, keeping the world in
which the `default` branch calls `panic`; `MmioOp` above is this function with the
panic mapped to `none`. -/
def MmioOpOutcome {σ : Type} (m : Machine σ) (offset val size : Nat) (isWrite : Bool)
    (w : World σ) : MmioOutcome σ :=
  let w1 := ensureMapped m w
  let adr := mmioAddress w1.sMappedRegs offset
  if !isWrite then
    match size with
    | 1 | 2 | 4 =>
      let v := (m.load w1.hw size adr).1 % 2 ^ (8 * size)
      MmioOutcome.returned v { w1 with hw := (m.load w1.hw size adr).2,
                                       trace := w1.trace ++ [Event.read size offset v] }
    | _ => MmioOutcome.panicked w1
  else
    match size with
    | 1 | 2 | 4 =>
      let v := val % 2 ^ (8 * size)
      MmioOutcome.returned val { w1 with hw := m.store w1.hw size adr v,
                                         trace := w1.trace ++ [Event.write size offset v] }
    | _ => MmioOutcome.panicked w1

/-- The result of a call that returned; `none` for a call that panicked. -/
def MmioOutcome.toOption {σ : Type} : MmioOutcome σ → Option (Nat × World σ)
  | MmioOutcome.returned val w => some (val, w)
  | MmioOutcome.panicked _ => none

/-- The value of the last write to port `offset` in a trace, if there is one. -/
def lastWritten (offset : Nat) : List Event → Option Nat
  | [] => none
  | e :: rest =>
    match lastWritten offset rest with
    | some v => some v
    | none =>
      match e with
      | Event.write _ o v => if o = offset then some v else none
      | _ => none

end AtaAdapter

namespace Plic

open AtaAdapter (andNot toInt32)

/-! ## `GetVector` and the register set-up of `InitDriver` -/

/-- Status codes of `status_t` that `GetVector` returns (distinct values of
`Errors.h`). -/
inductive status_t where
  | B_OK
  | B_BAD_INDEX
  deriving DecidableEq, Repr

/-- Conversion of an unsigned value to a 64-bit `long` (two's complement). -/
def toInt64 (x : Nat) : Int :=
  if x % 2 ^ 64 < 2 ^ 63 then ((x % 2 ^ 64 : Nat) : Int) else ((x % 2 ^ 64 : Nat) : Int) - 2 ^ 64

/-- The method `GetVector(irq, vector)`: `irq` is a `uint64`, `fIrqCount + 1` a `uint32`
sum, `vector` the `long` behind the reference.  Returns the status and the value of
`vector` afterwards. -/
def GetVector (ctrl : PlicInterruptController) (irq : Nat) (vector : Int) : status_t × Int :=
  if irq < 1 ∨ irq ≥ (ctrl.fIrqCount + 1) % 2 ^ 32 then (status_t.B_BAD_INDEX, vector)
  else (status_t.B_OK, toInt64 irq)

/-- What `InitDriver` does to the kernel and to the registers once the device tree is
read, in program order. -/
inductive InitEvent where
  | map_physical_memory (regs regsLen : Nat)
  | reserve_io_interrupt_vectors (count startVector : Int)
  | install_io_interrupt_handler (vector : Int)
  | writePriorityThreshold (context val : Nat)
  | writePriority (irq val : Nat)
  deriving DecidableEq, Repr

/-- The answers `InitDriver` gets from the allocator, the device manager, the FDT bus
and the kernel.  `bus` is the `B_DEVICE_BUS` attribute of the parent (`none`: the query
fails), `ndev` the `riscv,ndev` property as (host-order value, `propLen`) (`none`:
NULL), `interrupts` the tuples of `get_interrupt`, `gCPU` the hart ids of the
`smp_get_num_cpus()` CPUs, `get_reg` the register window (`none`: the query fails),
`regsAreaIsSet` whether the area of `map_physical_memory` is valid. -/
structure InitEnv where
  allocated : Bool
  bus : Option String
  get_driver : Bool
  ndev : Option (Nat × Int)
  interrupts : List interrupt_entry
  gCPU : List Nat
  get_reg : Option (Nat × Nat)
  regsAreaIsSet : Bool

/-- The loop `for (cpu = 0; cpu < cpuCount; cpu++)
contexts[fPlicContexts[cpu]].priorityThreshold = 0` of `InitDriver`, first argument the
iterations left.  An index outside `fPlicContexts` is undefined: `none`. -/
def thresholdLoop (fPlicContexts : List Nat) :
    Nat → Nat → List InitEvent → Option (List InitEvent)
  | 0, _, t => some t
  | n + 1, cpu, t =>
    match fPlicContexts[cpu]? with
    | none => none
    | some context =>
      thresholdLoop fPlicContexts n (cpu + 1) (t ++ [InitEvent.writePriorityThreshold context 0])

/-- The loop `for (uint32 irq = 1; irq < fIrqCount + 1; irq++) priority[irq] = 1` of
`InitDriver` from `irq` on, first argument the iterations left (the bound minus `irq`,
or 0 if the bound is not above `irq`). -/
def priorityLoop : Nat → Nat → List InitEvent → List InitEvent
  | 0, _, t => t
  | n + 1, irq, t => priorityLoop n (irq + 1) (t ++ [InitEvent.writePriority irq 1])

/-- The static method `InitDriver(node, outDriver)`: the driver stored through
`outDriver` and the trace when it returns `B_OK`; `none` on each of its error returns
(and where it would index outside `fPlicContexts`).  `sExternInt` and `SMP_MAX_CPUS`
are constants of absent headers. -/
def InitDriver (sExternInt SMP_MAX_CPUS : Nat) (env : InitEnv) :
    Option (PlicInterruptController × List InitEvent) :=
  if env.allocated = false then none
  else
    env.bus.bind fun bus =>
    if bus ≠ "fdt" then none
    else if env.get_driver = false then none
    else
      env.ndev.bind fun prop =>
      if prop.2 ≠ 4 then none
      else
        let fIrqCount := prop.1 % 2 ^ 32
        let cpuCount := env.gCPU.length
        (InitDriver_contexts sExternInt SMP_MAX_CPUS env.gCPU env.interrupts).bind
          fun fPlicContexts =>
        env.get_reg.bind fun reg =>
        if env.regsAreaIsSet = false then none
        else
          let t1 := [InitEvent.map_physical_memory reg.1 reg.2,
            InitEvent.reserve_io_interrupt_vectors (toInt64 ((fIrqCount + 1) % 2 ^ 32)) 0,
            InitEvent.install_io_interrupt_handler 0]
          (thresholdLoop fPlicContexts cpuCount 0 t1).map fun t2 =>
          ({ fIrqCount := fIrqCount, fPlicContexts := fPlicContexts },
            priorityLoop ((fIrqCount + 1) % 2 ^ 32 - 1) 1 t2)

end Plic

namespace KernelInt

open AtaAdapter (status_t)

/-! ## Vector registry (`int.h`) -/

/-- The `enum interrupt_type` of `int.h`. -/
inductive interrupt_type where
  | INTERRUPT_TYPE_EXCEPTION
  | INTERRUPT_TYPE_IRQ
  | INTERRUPT_TYPE_LOCAL_IRQ
  | INTERRUPT_TYPE_SYSCALL
  | INTERRUPT_TYPE_ICI
  | INTERRUPT_TYPE_UNKNOWN
  deriving DecidableEq, Repr

/-- Modelled from the spec: the vector registry, whose code is not among the sources
(`int.h` declares `reserve_io_interrupt_vectors` and `free_io_interrupt_vectors`, their
bodies are absent).  The registry maps each vector to its reservation, the type and
the interrupt source it was reserved for, or to `none` while the vector is free. -/
structure Registry where
  reserved : Int → Option (interrupt_type × Nat)

/-- The vectors of the range of `count` vectors beginning at `startVector`. -/
def vectorRange (count startVector : Int) : List Int :=
  (List.range count.toNat).map fun (i : Nat) => startVector + (i : Int)

/-- Modelled from the spec: `reserve_io_interrupt_vectors(count, startVector, type,
source)`, whose body is absent, "reserves a contiguous range of vectors beginning at
`startVector` for the given Interrupt Source and type; fails if any vector in range is
already reserved".  A failure is `B_ERROR` (the spec names no code) and leaves the
registry as it was. -/
def reserve_io_interrupt_vectors (count startVector : Int) (type : interrupt_type)
    (source : Nat) (r : Registry) : status_t × Registry :=
  if (vectorRange count startVector).any (fun v => (r.reserved v).isSome) then
    (status_t.B_ERROR, r)
  else
    (status_t.B_OK,
      { reserved := fun v =>
          if startVector ≤ v ∧ v < startVector + count then some (type, source)
          else r.reserved v })

/-- Modelled from the spec: `free_io_interrupt_vectors(count, startVector)`, whose body
is absent, "releases a previously reserved range; no-op-safe if nothing is
installed". -/
def free_io_interrupt_vectors (count startVector : Int) (r : Registry) : Registry :=
  { reserved := fun v =>
      if startVector ≤ v ∧ v < startVector + count then none else r.reserved v }

end KernelInt

namespace ColumnTypes

/-! ## Integer column (`ColumnTypes.cpp`) -/

/-- The class `BIntegerField`: its data member `int32 fInteger`. -/
structure BIntegerField where
  fInteger : Int
  deriving DecidableEq, Repr

/-- The method `BIntegerField::Value()`. -/
def BIntegerField.Value (field : BIntegerField) : Int := field.fInteger

/-- The value of an `int` expression in 32-bit two's-complement arithmetic. -/
def wrapInt32 (x : Int) : Int := (x + 2 ^ 31) % 2 ^ 32 - 2 ^ 31

/-- The method `BIntegerColumn::CompareFields(field1, field2)`: the difference of the
two values, an `int32` subtraction. -/
def BIntegerColumn.CompareFields (field1 field2 : BIntegerField) : Int :=
  wrapInt32 (field1.Value - field2.Value)

end ColumnTypes

namespace AtaAdapter

/-- An environment that only logs: loads yield 0, the window is mapped at `0x10000`. -/
def recorder : Machine (Unit × List Access) := logged
  { map_physical_memory := fun s => (0x10000, s)
    load := fun s _ _ => (0, s)
    store := fun s _ _ _ => s
    interrupt_handler := fun s _ _ => (1, s) }

/-- The start state of `recorder`: nothing mapped, nothing logged. -/
def recorder0 : World (Unit × List Access) := { hw := ((), []), sMappedRegs := 0, trace := [] }

/-- Two segments: 512 bytes at `0x1000` and 4 KiB at `0x3000`. -/
def sg2 : List physical_entry :=
  [{ address := 0x1000, size := 512 }, { address := 0x3000, size := 4096 }]

end AtaAdapter

namespace Plic

/-- A board with two CPUs (hart ids 0 and 1), three lines, and the supervisor external
interrupts of the harts at contexts 1 and 3. -/
def env0 : InitEnv where
  allocated := true
  bus := some "fdt"
  get_driver := true
  ndev := some (3, 4)
  interrupts := [{ cause := 11, hartId := some 0 }, { cause := 9, hartId := some 0 },
    { cause := 11, hartId := some 1 }, { cause := 9, hartId := some 1 }]
  gCPU := [0, 1]
  get_reg := some (0xc000000, 0x4000000)
  regsAreaIsSet := true

/-- The board `env0` reporting `0xffffffff` lines. -/
def envMax : InitEnv := { env0 with ndev := some (0xffffffff, 4) }

end Plic

namespace KernelInt

/-- The registry in which no vector is reserved. -/
def emptyRegistry : Registry := { reserved := fun _ => none }

end KernelInt

namespace Plic

/-- A controller reporting `0xffffffff` lines. -/
def ctrlMax : PlicInterruptController := { fIrqCount := 0xffffffff, fPlicContexts := [0] }

/-- The driver `InitDriver` builds on the board `env0` (external-interrupt cause 9,
`SMP_MAX_CPUS = 8`). -/
def driver0 : PlicInterruptController :=
  { fIrqCount := 3, fPlicContexts := [1, 3, 0, 0, 0, 0, 0, 0] }

/-- The trace of `InitDriver` on the board `env0`. -/
def initTrace0 : List InitEvent :=
  [InitEvent.map_physical_memory 0xc000000 0x4000000,
   InitEvent.reserve_io_interrupt_vectors 4 0,
   InitEvent.install_io_interrupt_handler 0,
   InitEvent.writePriorityThreshold 1 0,
   InitEvent.writePriorityThreshold 3 0,
   InitEvent.writePriority 1 1,
   InitEvent.writePriority 2 1,
   InitEvent.writePriority 3 1]

end Plic


/-! # Theorems -/

namespace AtaAdapter

theorem Read8_eq {σ : Type} (m : Machine σ) (offset : Nat) (w : World σ) :
    Read8 m offset w =
      some ((m.load (ensureMapped m w).hw 1 (mmioAddress (ensureMapped m w).sMappedRegs offset)).1 % 2 ^ 8,
        { ensureMapped m w with
          hw := (m.load (ensureMapped m w).hw 1 (mmioAddress (ensureMapped m w).sMappedRegs offset)).2,
          trace := (ensureMapped m w).trace ++ [Event.read 1 offset
            ((m.load (ensureMapped m w).hw 1 (mmioAddress (ensureMapped m w).sMappedRegs offset)).1 % 2 ^ 8)] }) := by
  simp [Read8, MmioOp]

theorem Read32_eq {σ : Type} (m : Machine σ) (offset : Nat) (w : World σ) :
    Read32 m offset w =
      some ((m.load (ensureMapped m w).hw 4 (mmioAddress (ensureMapped m w).sMappedRegs offset)).1 % 2 ^ 32,
        { ensureMapped m w with
          hw := (m.load (ensureMapped m w).hw 4 (mmioAddress (ensureMapped m w).sMappedRegs offset)).2,
          trace := (ensureMapped m w).trace ++ [Event.read 4 offset
            ((m.load (ensureMapped m w).hw 4 (mmioAddress (ensureMapped m w).sMappedRegs offset)).1 % 2 ^ 32)] }) := by
  simp [Read32, MmioOp]

theorem Write8_eq {σ : Type} (m : Machine σ) (offset val : Nat) (w : World σ) :
    Write8 m offset val w =
      some { ensureMapped m w with
          hw := m.store (ensureMapped m w).hw 1 (mmioAddress (ensureMapped m w).sMappedRegs offset) (val % 2 ^ 8),
          trace := (ensureMapped m w).trace ++ [Event.write 1 offset (val % 2 ^ 8)] } := by
  have h : val % 4294967296 % 256 = val % 256 := by omega
  simp [Write8, MmioOp, h]

theorem Write32_eq {σ : Type} (m : Machine σ) (offset val : Nat) (w : World σ) :
    Write32 m offset val w =
      some { ensureMapped m w with
          hw := m.store (ensureMapped m w).hw 4 (mmioAddress (ensureMapped m w).sMappedRegs offset) (val % 2 ^ 32),
          trace := (ensureMapped m w).trace ++ [Event.write 4 offset (val % 2 ^ 32)] } := by
  simp [Write32, MmioOp]

theorem ensureMapped_trace {σ : Type} (m : Machine σ) (w : World σ) :
    (ensureMapped m w).trace = w.trace := by
  unfold ensureMapped; split <;> rfl

theorem prd_fill_spec (sgList : List physical_entry) :
    ∀ (cnt k : Nat) (prdt : List prd_entry), k + cnt ≤ sgList.length → k + cnt ≤ prdt.length →
      ∃ out, prd_fill sgList cnt k prdt = some out ∧ out.length = prdt.length ∧
        ∀ j, out[j]? = if k ≤ j ∧ j < k + cnt
          then sgList[j]?.map (fun s => prdOf s (decide (j + 1 = k + cnt))) else prdt[j]? := by
  intro cnt
  induction cnt with
  | zero =>
    intro k prdt _ _
    refine ⟨prdt, rfl, rfl, fun j => ?_⟩
    rw [if_neg (by omega)]
  | succ i ih =>
    intro k prdt hs hp
    have hks : k < sgList.length := by omega
    have hkp : k < prdt.length := by omega
    obtain ⟨out, hout, hlen, hget⟩ := ih (k + 1)
      (prdt.set k ⟨B_HOST_TO_LENDIAN_INT32 sgList[k].address,
        B_HOST_TO_LENDIAN_INT16 (sgList[k].size % 2 ^ 16), decide (i = 0)⟩)
      (by omega) (by simp; omega)
    refine ⟨out, ?_, by simpa using hlen, fun j => ?_⟩
    · simp only [prd_fill, List.getElem?_eq_getElem hks, List.getElem?_eq_getElem hkp]
      exact hout
    · rw [hget j]
      by_cases h1 : k + 1 ≤ j ∧ j < k + 1 + i
      · have h2 : k ≤ j ∧ j < k + (i + 1) := by omega
        have h3 : (j + 1 = k + 1 + i) = (j + 1 = k + (i + 1)) := by
          apply propext; constructor <;> intro h <;> omega
        simp only [h1, h2, and_self, if_true, h3]
      · by_cases hj : j = k
        · subst hj
          have h2 : j ≤ j ∧ j < j + (i + 1) := by omega
          have h3 : (j + 1 = j + (i + 1)) = (i = 0) := by
            apply propext; constructor <;> intro h <;> omega
          simp [h1, h2, List.getElem?_eq_getElem hks, hkp, prdOf, B_HOST_TO_LENDIAN_INT32,
            B_HOST_TO_LENDIAN_INT16, h3]
        · have h2 : ¬ (k ≤ j ∧ j < k + (i + 1)) := by omega
          have h4 : ¬ k = j := fun h => hj h.symm
          simp [h1, h2, List.getElem?_set, h4]

end AtaAdapter

namespace AtaAdapter

theorem prd_build_spec (sgList : List physical_entry) (prdt : List prd_entry)
    (hcap : sgList.length ≤ prdt.length) (hint : sgList.length ≤ 2 ^ 31) :
    ∃ out, prd_build sgList sgList.length prdt = some out ∧ out.length = prdt.length ∧
      ∀ j, out[j]? = if j < sgList.length
        then sgList[j]?.map (fun s => prdOf s (decide (j + 1 = sgList.length))) else prdt[j]? := by
  rcases Nat.eq_zero_or_pos sgList.length with h0 | hpos
  · refine ⟨prdt, ?_, rfl, fun j => ?_⟩
    · have hneg : toInt32 ((0 + (2 ^ 64 - 1)) % 2 ^ 64) = -1 := by decide
      unfold prd_build
      rw [h0]
      simp only [hneg]
      rfl
    · rw [if_neg (by omega)]
  · have hi : toInt32 ((sgList.length + (2 ^ 64 - 1)) % 2 ^ 64) = ((sgList.length - 1 : Nat) : Int) := by
      have e1 : (sgList.length + (2 ^ 64 - 1)) % 2 ^ 64 = sgList.length - 1 := by omega
      have e2 : (sgList.length - 1) % 2 ^ 32 = sgList.length - 1 := by omega
      have e3 : sgList.length - 1 < 2 ^ 31 := by omega
      rw [e1]; unfold toInt32; rw [e2, if_pos e3]
    obtain ⟨out, hout, hlen, hget⟩ := prd_fill_spec sgList (sgList.length - 1 + 1) 0 prdt
      (by omega) (by omega)
    refine ⟨out, ?_, hlen, fun j => ?_⟩
    · unfold prd_build
      simp only [hi]
      rw [if_pos (Int.ofNat_nonneg _)]
      simpa using hout
    · rw [hget j]
      have h1 : (0 ≤ j ∧ j < 0 + (sgList.length - 1 + 1)) = (j < sgList.length) := by
        apply propext; constructor <;> intro h <;> omega
      have h2 : (j + 1 = 0 + (sgList.length - 1 + 1)) = (j + 1 = sgList.length) := by
        apply propext; constructor <;> intro h <;> omega
      simp only [h1, h2]

theorem prepare_dma_of_prd_build {σ : Type} (K : AtaConsts) (m : Machine σ)
    (channel : ata_adapter_channel_info) (sgList : List physical_entry) (writeToDevice : Bool)
    (w : World σ) (t : List prd_entry)
    (h : prd_build sgList sgList.length channel.prdt = some t) :
    ∃ w1, ata_adapter_prepare_dma K m channel sgList writeToDevice w =
      some (status_t.B_OK, { channel with prdt := t }, w1) := by
  simp [ata_adapter_prepare_dma, h, Read32_eq, Write32_eq, Read8_eq, Write8_eq]

/-- C1.  For a scatter-gather list of length `n` with `1 ≤ n ≤ ATA_ADAPTER_MAX_SG_COUNT`
(the table holds that many entries, and the count fits an `int`),
`ata_adapter_prepare_dma` returns `B_OK`, and among the first `n` entries of the table
exactly the entry at index `n - 1` has EOT set: entry `k < n` has EOT = 1 if and only if
`k = n - 1`, and that entry is the one built from the last segment `sgList[n - 1]`. -/
theorem prepare_dma_single_EOT {σ : Type} (K : AtaConsts) (m : Machine σ)
    (channel : ata_adapter_channel_info) (sgList : List physical_entry) (writeToDevice : Bool)
    (w : World σ)
    (h1 : 1 ≤ sgList.length) (h2 : sgList.length ≤ K.ATA_ADAPTER_MAX_SG_COUNT)
    (hK : K.ATA_ADAPTER_MAX_SG_COUNT ≤ channel.prdt.length)
    (hint : K.ATA_ADAPTER_MAX_SG_COUNT < 2 ^ 31) :
    ∃ ch w1, ata_adapter_prepare_dma K m channel sgList writeToDevice w =
        some (status_t.B_OK, ch, w1) ∧
      (∀ k, k < sgList.length → ∃ e, ch.prdt[k]? = some e ∧ (e.EOT = true ↔ k = sgList.length - 1)) ∧
      (∃! k, k < sgList.length ∧ (ch.prdt[k]?).map prd_entry.EOT = some true) ∧
      (∃ last, sgList[sgList.length - 1]? = some last ∧
        ch.prdt[sgList.length - 1]? = some (prdOf last true)) := by
  obtain ⟨out, hout, _, hget⟩ := prd_build_spec sgList channel.prdt (by omega) (by omega)
  obtain ⟨w1, hw1⟩ := prepare_dma_of_prd_build K m channel sgList writeToDevice w out hout
  have hk : ∀ k (hlt : k < sgList.length),
      out[k]? = some (prdOf sgList[k] (decide (k + 1 = sgList.length))) := by
    intro k hk
    rw [hget k, if_pos hk]
    simp [List.getElem?_eq_getElem hk]
  refine ⟨_, w1, hw1, ?_, ?_, ?_⟩
  · intro k hlt
    refine ⟨_, hk k hlt, ?_⟩
    simp only [prdOf, decide_eq_true_eq]
    omega
  · refine ⟨sgList.length - 1, ⟨by omega, ?_⟩, ?_⟩
    · show (out[sgList.length - 1]?).map prd_entry.EOT = some true
      rw [hk _ (by omega)]
      simp [prdOf]; omega
    · rintro k ⟨hlt, he⟩
      have he2 : (out[k]?).map prd_entry.EOT = some true := he
      rw [hk k hlt] at he2
      simp [prdOf] at he2
      omega
  · have hl : sgList.length - 1 < sgList.length := by omega
    refine ⟨sgList[sgList.length - 1], List.getElem?_eq_getElem hl, ?_⟩
    show out[sgList.length - 1]? = _
    rw [hk _ hl]
    have : sgList.length - 1 + 1 = sgList.length := by omega
    simp [this]

/-- Instance of C1: three segments in a table of 512 entries. -/
theorem prepare_dma_single_EOT_witness :
    ∃ ch w1, ata_adapter_prepare_dma haikuConsts regFile channel0 sg3 true (world0 0) =
        some (status_t.B_OK, ch, w1) ∧
      (∀ k, k < sg3.length → ∃ e, ch.prdt[k]? = some e ∧ (e.EOT = true ↔ k = sg3.length - 1)) ∧
      (∃! k, k < sg3.length ∧ (ch.prdt[k]?).map prd_entry.EOT = some true) ∧
      (∃ last, sg3[sg3.length - 1]? = some last ∧
        ch.prdt[sg3.length - 1]? = some (prdOf last true)) :=
  prepare_dma_single_EOT haikuConsts regFile channel0 sg3 true (world0 0)
    (by decide) (by decide) (by show 512 ≤ (List.replicate 512 _).length; rw [List.length_replicate]) (by decide)

end AtaAdapter

namespace AtaAdapter

/-- C2.  The table is in list order: for a list of length `n` that fits the table,
`ata_adapter_prepare_dma` returns `B_OK`, entry `k < n` of the table is built from list
entry `k` (address field = low 32 bits of `sgList[k].address`, count field =
`sgList[k].size` truncated to 16 bits), and every entry at an index `≥ n` is unchanged. -/
theorem prepare_dma_list_order {σ : Type} (K : AtaConsts) (m : Machine σ)
    (channel : ata_adapter_channel_info) (sgList : List physical_entry) (writeToDevice : Bool)
    (w : World σ)
    (h2 : sgList.length ≤ K.ATA_ADAPTER_MAX_SG_COUNT)
    (hK : K.ATA_ADAPTER_MAX_SG_COUNT ≤ channel.prdt.length)
    (hint : K.ATA_ADAPTER_MAX_SG_COUNT < 2 ^ 31) :
    ∃ ch w1, ata_adapter_prepare_dma K m channel sgList writeToDevice w =
        some (status_t.B_OK, ch, w1) ∧
      (∀ k (hk : k < sgList.length), ∃ e, ch.prdt[k]? = some e ∧
        e.address = sgList[k].address % 2 ^ 32 ∧ e.count = sgList[k].size % 2 ^ 16) ∧
      (∀ k, sgList.length ≤ k → ch.prdt[k]? = channel.prdt[k]?) ∧
      ch.prdt.length = channel.prdt.length := by
  obtain ⟨out, hout, hlen, hget⟩ := prd_build_spec sgList channel.prdt (by omega) (by omega)
  obtain ⟨w1, hw1⟩ := prepare_dma_of_prd_build K m channel sgList writeToDevice w out hout
  refine ⟨_, w1, hw1, ?_, ?_, hlen⟩
  · intro k hk
    refine ⟨prdOf sgList[k] (decide (k + 1 = sgList.length)), ?_, rfl, rfl⟩
    show out[k]? = _
    rw [hget k, if_pos hk]
    simp [List.getElem?_eq_getElem hk]
  · intro k hk
    show out[k]? = _
    rw [hget k, if_neg (by omega)]

/-- Instance of C2: three segments in a table of 512 entries. -/
theorem prepare_dma_list_order_witness :
    ∃ ch w1, ata_adapter_prepare_dma haikuConsts regFile channel0 sg3 false (world0 0) =
        some (status_t.B_OK, ch, w1) ∧
      (∀ k (hk : k < sg3.length), ∃ e, ch.prdt[k]? = some e ∧
        e.address = sg3[k].address % 2 ^ 32 ∧ e.count = sg3[k].size % 2 ^ 16) ∧
      (∀ k, sg3.length ≤ k → ch.prdt[k]? = channel0.prdt[k]?) ∧
      ch.prdt.length = channel0.prdt.length :=
  prepare_dma_list_order haikuConsts regFile channel0 sg3 false (world0 0)
    (by decide) (by show 512 ≤ (List.replicate 512 _).length; rw [List.length_replicate]) (by decide)

/-- C3 fails for a segment of size 0: all sizes of `sgZero` are `≤ 65536`, the entry
written for its segment has count field 0, and the segment's size is not 65536. -/
theorem prepare_dma_count_zero_counterexample :
    ∃ ch w1 e, ata_adapter_prepare_dma haikuConsts regFile channel0 sgZero true (world0 0) =
        some (status_t.B_OK, ch, w1) ∧
      (∀ s ∈ sgZero, s.size ≤ 65536) ∧
      ch.prdt[0]? = some e ∧ sgZero[0]? = some { address := 0x1000, size := 0 } ∧
      ¬ (e.count = 0 ↔ (0 : Nat) = 65536) := by
  obtain ⟨out, hout, _, hget⟩ := prd_build_spec sgZero channel0.prdt
    (by show 1 ≤ (List.replicate 512 _).length; rw [List.length_replicate]; decide) (by decide)
  obtain ⟨w1, hw1⟩ :=
    prepare_dma_of_prd_build haikuConsts regFile channel0 sgZero true (world0 0) out hout
  refine ⟨_, w1, prdOf { address := 0x1000, size := 0 } true, hw1, by decide, ?_, rfl, by decide⟩
  show out[0]? = _
  rw [hget 0]
  rfl

/-- C3 as amended.  For a list that fits the table and whose segment sizes are all
between 1 and 65536, each entry written has count field 0 if and only if the size of
its segment is exactly 65536. -/
theorem prepare_dma_count_zero_iff {σ : Type} (K : AtaConsts) (m : Machine σ)
    (channel : ata_adapter_channel_info) (sgList : List physical_entry) (writeToDevice : Bool)
    (w : World σ)
    (hsize : ∀ s ∈ sgList, 1 ≤ s.size ∧ s.size ≤ 65536)
    (h2 : sgList.length ≤ K.ATA_ADAPTER_MAX_SG_COUNT)
    (hK : K.ATA_ADAPTER_MAX_SG_COUNT ≤ channel.prdt.length)
    (hint : K.ATA_ADAPTER_MAX_SG_COUNT < 2 ^ 31) :
    ∃ ch w1, ata_adapter_prepare_dma K m channel sgList writeToDevice w =
        some (status_t.B_OK, ch, w1) ∧
      ∀ k (hk : k < sgList.length), ∃ e, ch.prdt[k]? = some e ∧
        e.count = sgList[k].size % 2 ^ 16 ∧ (e.count = 0 ↔ sgList[k].size = 65536) := by
  obtain ⟨out, hout, _, hget⟩ := prd_build_spec sgList channel.prdt (by omega) (by omega)
  obtain ⟨w1, hw1⟩ := prepare_dma_of_prd_build K m channel sgList writeToDevice w out hout
  refine ⟨_, w1, hw1, ?_⟩
  intro k hk
  refine ⟨prdOf sgList[k] (decide (k + 1 = sgList.length)), ?_, rfl, ?_⟩
  · show out[k]? = _
    rw [hget k, if_pos hk]
    simp [List.getElem?_eq_getElem hk]
  · have hs := hsize sgList[k] (List.getElem_mem hk)
    show sgList[k].size % 2 ^ 16 = 0 ↔ sgList[k].size = 65536
    omega

/-- Instance of C3 as amended: sizes 512, 65536 and 4096. -/
theorem prepare_dma_count_zero_iff_witness :
    ∃ ch w1, ata_adapter_prepare_dma haikuConsts regFile channel0 sg3 true (world0 0) =
        some (status_t.B_OK, ch, w1) ∧
      ∀ k (hk : k < sg3.length), ∃ e, ch.prdt[k]? = some e ∧
        e.count = sg3[k].size % 2 ^ 16 ∧ (e.count = 0 ↔ sg3[k].size = 65536) :=
  prepare_dma_count_zero_iff haikuConsts regFile channel0 sg3 true (world0 0)
    (by decide) (by decide) (by show 512 ≤ (List.replicate 512 _).length; rw [List.length_replicate]) (by decide)

end AtaAdapter

namespace AtaAdapter

theorem Read8_some {σ : Type} {m : Machine σ} {offset v : Nat} {w w1 : World σ}
    (h : Read8 m offset w = some (v, w1)) :
    w1.trace = w.trace ++ [Event.read 1 offset v] ∧ v < 256 := by
  rw [Read8_eq] at h
  simp only [Option.some.injEq, Prod.mk.injEq] at h
  obtain ⟨hv, hw⟩ := h
  subst hw
  subst hv
  refine ⟨?_, ?_⟩
  · simp [ensureMapped_trace]
  · exact Nat.mod_lt _ (by norm_num)

theorem Write8_some {σ : Type} {m : Machine σ} {offset val : Nat} {w w1 : World σ}
    (h : Write8 m offset val w = some w1) :
    w1.trace = w.trace ++ [Event.write 1 offset (val % 256)] := by
  rw [Write8_eq] at h
  simp only [Option.some.injEq] at h
  subst h
  simp [ensureMapped_trace]

theorem Read8_total {σ : Type} (m : Machine σ) (offset : Nat) (w : World σ) :
    ∃ v w1, Read8 m offset w = some (v, w1) := ⟨_, _, Read8_eq m offset w⟩

theorem Write8_total {σ : Type} (m : Machine σ) (offset val : Nat) (w : World σ) :
    ∃ w1, Write8 m offset val w = some w1 := ⟨_, Write8_eq m offset val w⟩

/-- C4.  If the read of the bus-master status register at entry yields the byte `s`,
`ata_adapter_finish_dma` returns: `B_DEV_DATA_OVERRUN` iff the ACTIVE bit of `s` is set;
`B_ERROR` iff the ERROR bit is set and ACTIVE is clear; `B_OK` iff both are clear.  The
result is the specification's function of these two bits alone, whatever the machine,
the other registers and the channel are. -/
theorem finish_dma_result {σ : Type} (K : AtaConsts) (m : Machine σ)
    (channel : ata_adapter_channel_info) (w w0 : World σ) (s : Nat)
    (hs : Read8 m (channel.bus_master_base + K.ATA_BM_STATUS_REG) w = some (s, w0)) :
    ∃ res ch w1, ata_adapter_finish_dma K m channel w = some (res, ch, w1) ∧
      (res = status_t.B_DEV_DATA_OVERRUN ↔ s &&& K.ATA_BM_STATUS_ACTIVE ≠ 0) ∧
      (res = status_t.B_ERROR ↔
        (s &&& K.ATA_BM_STATUS_ERROR ≠ 0 ∧ s &&& K.ATA_BM_STATUS_ACTIVE = 0)) ∧
      (res = status_t.B_OK ↔
        (s &&& K.ATA_BM_STATUS_ACTIVE = 0 ∧ s &&& K.ATA_BM_STATUS_ERROR = 0)) ∧
      res = finishDmaSpec (decide (s &&& K.ATA_BM_STATUS_ACTIVE ≠ 0))
        (decide (s &&& K.ATA_BM_STATUS_ERROR ≠ 0)) := by
  obtain ⟨c, w1, h1⟩ := Read8_total m (channel.bus_master_base + K.ATA_BM_COMMAND_REG) w0
  obtain ⟨w2, h2⟩ := Write8_total m (channel.bus_master_base + K.ATA_BM_COMMAND_REG)
    (andNot c K.ATA_BM_COMMAND_START_STOP) w1
  obtain ⟨w3, h3⟩ := Write8_total m (channel.bus_master_base + K.ATA_BM_STATUS_REG)
    (s ||| K.ATA_BM_STATUS_ERROR) w2
  refine ⟨if (s &&& K.ATA_BM_STATUS_ACTIVE) ≠ 0 then status_t.B_DEV_DATA_OVERRUN
    else if (s &&& K.ATA_BM_STATUS_ERROR) ≠ 0 then status_t.B_ERROR
    else status_t.B_OK, { channel with dmaing := false }, w3, ?_, ?_⟩
  · simp [ata_adapter_finish_dma, hs, h1, h2, h3]
  · by_cases ha : s &&& K.ATA_BM_STATUS_ACTIVE = 0 <;>
      by_cases he : s &&& K.ATA_BM_STATUS_ERROR = 0 <;>
      simp [ha, he, finishDmaSpec]

end AtaAdapter

namespace AtaAdapter

/-- Instance of C4: status byte 3 (ACTIVE and ERROR both set) read at entry. -/
theorem finish_dma_result_witness :
    ∃ res ch w1, ata_adapter_finish_dma haikuConsts regFile channel0 (world0 3) =
        some (res, ch, w1) ∧
      (res = status_t.B_DEV_DATA_OVERRUN ↔ 3 &&& haikuConsts.ATA_BM_STATUS_ACTIVE ≠ 0) ∧
      (res = status_t.B_ERROR ↔
        (3 &&& haikuConsts.ATA_BM_STATUS_ERROR ≠ 0 ∧ 3 &&& haikuConsts.ATA_BM_STATUS_ACTIVE = 0)) ∧
      (res = status_t.B_OK ↔
        (3 &&& haikuConsts.ATA_BM_STATUS_ACTIVE = 0 ∧ 3 &&& haikuConsts.ATA_BM_STATUS_ERROR = 0)) ∧
      res = finishDmaSpec (decide (3 &&& haikuConsts.ATA_BM_STATUS_ACTIVE ≠ 0))
        (decide (3 &&& haikuConsts.ATA_BM_STATUS_ERROR ≠ 0)) :=
  finish_dma_result haikuConsts regFile channel0 (world0 3) _ 3 rfl

/-- C5.  If the bus-master status byte `s` read by `ata_adapter_inthand` has the
INTERRUPT bit clear, the handler returns `B_UNHANDLED_INTERRUPT` in the state reached
right after that read: the trace grows by that one read only (no write, no read of the
ATA status register, no call of the upper layer), whatever the channel (and its
`dmaing` flag) is. -/
theorem inthand_not_ours {σ : Type} (K : AtaConsts) (m : Machine σ)
    (channel : ata_adapter_channel_info) (w w0 : World σ) (s : Nat)
    (hs : Read8 m (channel.bus_master_base + K.ATA_BM_STATUS_REG) w = some (s, w0))
    (hclear : s &&& K.ATA_BM_STATUS_INTERRUPT = 0) :
    ata_adapter_inthand K m channel w = some (K.B_UNHANDLED_INTERRUPT, w0) ∧
      w0.trace = w.trace ++ [Event.read 1 (channel.bus_master_base + K.ATA_BM_STATUS_REG) s] := by
  refine ⟨?_, (Read8_some hs).1⟩
  simp [ata_adapter_inthand, hs, hclear]

/-- Instance of C5: status byte `0x03` (INTERRUPT clear) on a channel with `dmaing` set. -/
theorem inthand_not_ours_witness :
    ∃ w0, ata_adapter_inthand haikuConsts regFile { channel0 with dmaing := true } (world0 3) =
        some (haikuConsts.B_UNHANDLED_INTERRUPT, w0) ∧
      w0.trace = (world0 3).trace ++ [Event.read 1
        (({ channel0 with dmaing := true } : ata_adapter_channel_info).bus_master_base
          + haikuConsts.ATA_BM_STATUS_REG) 3] :=
  ⟨_, inthand_not_ours haikuConsts regFile { channel0 with dmaing := true } (world0 3) _ 3
    rfl (by decide)⟩

/-- C6.  Let the bus-master status byte `s` read by `ata_adapter_inthand` have the
INTERRUPT bit set, let `a` be the byte then read from `command_block_base + 7`, and let
`w2` be the state after the acknowledging write.  If `dmaing` is false the handler
returns `B_UNHANDLED_INTERRUPT` in `w2`, whose trace holds no call of the upper layer.
If `dmaing` is true the handler calls `interrupt_handler(ataChannel, a)` once, as the
last event, and returns that call's result unchanged. -/
theorem inthand_forward {σ : Type} (K : AtaConsts) (m : Machine σ)
    (channel : ata_adapter_channel_info) (w w0 w1 w2 : World σ) (s a : Nat)
    (hs : Read8 m (channel.bus_master_base + K.ATA_BM_STATUS_REG) w = some (s, w0))
    (hset : s &&& K.ATA_BM_STATUS_INTERRUPT ≠ 0)
    (ha : Read8 m (channel.command_block_base + 7) w0 = some (a, w1))
    (hw : Write8 m (channel.bus_master_base + K.ATA_BM_STATUS_REG)
      ((s &&& 0xf8) ||| K.ATA_BM_STATUS_INTERRUPT) w1 = some w2) :
    (∀ ch st, Event.interrupt_handler ch st ∉ w2.trace.drop w.trace.length) ∧
    (channel.dmaing = false →
      ata_adapter_inthand K m channel w = some (K.B_UNHANDLED_INTERRUPT, w2)) ∧
    (channel.dmaing = true →
      ∃ w3, ata_adapter_inthand K m channel w =
          some ((m.interrupt_handler w2.hw channel.ataChannel a).1, w3) ∧
        w3.hw = (m.interrupt_handler w2.hw channel.ataChannel a).2 ∧
        w3.trace = w2.trace ++ [Event.interrupt_handler channel.ataChannel a]) := by
  have t0 := (Read8_some hs).1
  have t1 := (Read8_some ha).1
  have t2 := Write8_some hw
  refine ⟨?_, ?_, ?_⟩
  · intro ch st
    rw [t2, t1, t0]
    simp
  · intro hd
    simp [ata_adapter_inthand, hs, hset, ha, hw, hd]
  · intro hd
    refine ⟨{ w2 with hw := (m.interrupt_handler w2.hw channel.ataChannel a).2,
                      trace := w2.trace ++ [Event.interrupt_handler channel.ataChannel a] },
      ?_, rfl, rfl⟩
    simp [ata_adapter_inthand, hs, hset, ha, hw, hd]

/-- Instance of C6: status byte 7 everywhere, `dmaing` set. -/
theorem inthand_forward_witness :
    ∃ w2 : World (Nat → Nat),
    (∀ ch st, Event.interrupt_handler ch st ∉ w2.trace.drop (world0 7).trace.length) ∧
    (({ channel0 with dmaing := true } : ata_adapter_channel_info).dmaing = false →
      ata_adapter_inthand haikuConsts regFile { channel0 with dmaing := true } (world0 7) =
        some (haikuConsts.B_UNHANDLED_INTERRUPT, w2)) ∧
    (({ channel0 with dmaing := true } : ata_adapter_channel_info).dmaing = true →
      ∃ w3, ata_adapter_inthand haikuConsts regFile { channel0 with dmaing := true } (world0 7) =
          some ((regFile.interrupt_handler w2.hw
            ({ channel0 with dmaing := true } : ata_adapter_channel_info).ataChannel 7).1, w3) ∧
        w3.hw = (regFile.interrupt_handler w2.hw
            ({ channel0 with dmaing := true } : ata_adapter_channel_info).ataChannel 7).2 ∧
        w3.trace = w2.trace ++ [Event.interrupt_handler
            ({ channel0 with dmaing := true } : ata_adapter_channel_info).ataChannel 7]) :=
  ⟨_, inthand_forward haikuConsts regFile { channel0 with dmaing := true } (world0 7) _ _ _ 7 7
    rfl (by decide) rfl rfl⟩

end AtaAdapter

namespace AtaAdapter

/-- C7.  In every run of `ata_adapter_inthand` the first event is the read of the
bus-master status register (value `s`), so the ATA status register is not read before
it.  If the INTERRUPT bit of `s` is set, the register accesses of the run are exactly,
in this order: that read, the read of the ATA status register at
`command_block_base + 7`, and the write of `(s & 0xf8) | INTERRUPT` to the bus-master
status register; this holds for both values of `dmaing`, the only further event being
the call of the upper layer when `dmaing` is true.  (INTERRUPT is a bit of a byte.) -/
theorem inthand_access_order {σ : Type} (K : AtaConsts) (m : Machine σ)
    (channel : ata_adapter_channel_info) (w : World σ)
    (hI : K.ATA_BM_STATUS_INTERRUPT < 256) :
    ∃ res w1 s rest, ata_adapter_inthand K m channel w = some (res, w1) ∧
      w1.trace = w.trace ++
        Event.read 1 (channel.bus_master_base + K.ATA_BM_STATUS_REG) s :: rest ∧
      (s &&& K.ATA_BM_STATUS_INTERRUPT ≠ 0 → ∃ a,
        rest = [Event.read 1 (channel.command_block_base + 7) a,
                Event.write 1 (channel.bus_master_base + K.ATA_BM_STATUS_REG)
                  ((s &&& 0xf8) ||| K.ATA_BM_STATUS_INTERRUPT)] ++
               (if channel.dmaing then [Event.interrupt_handler channel.ataChannel a] else []) ∧
        (w1.trace.drop w.trace.length).filter Event.isAccess =
          [Event.read 1 (channel.bus_master_base + K.ATA_BM_STATUS_REG) s,
           Event.read 1 (channel.command_block_base + 7) a,
           Event.write 1 (channel.bus_master_base + K.ATA_BM_STATUS_REG)
             ((s &&& 0xf8) ||| K.ATA_BM_STATUS_INTERRUPT)]) ∧
      (s &&& K.ATA_BM_STATUS_INTERRUPT = 0 → rest = []) := by
  obtain ⟨s, w0, hs⟩ := Read8_total m (channel.bus_master_base + K.ATA_BM_STATUS_REG) w
  have t0 := (Read8_some hs).1
  by_cases hset : s &&& K.ATA_BM_STATUS_INTERRUPT = 0
  · refine ⟨K.B_UNHANDLED_INTERRUPT, w0, s, [], ?_, t0, fun h => absurd hset h, fun _ => rfl⟩
    simp [ata_adapter_inthand, hs, hset]
  · obtain ⟨a, w1, ha⟩ := Read8_total m (channel.command_block_base + 7) w0
    obtain ⟨w2, hw⟩ := Write8_total m (channel.bus_master_base + K.ATA_BM_STATUS_REG)
      ((s &&& 0xf8) ||| K.ATA_BM_STATUS_INTERRUPT) w1
    have t1 := (Read8_some ha).1
    have t2 := Write8_some hw
    have hv : ((s &&& 0xf8) ||| K.ATA_BM_STATUS_INTERRUPT) % 256
        = (s &&& 0xf8) ||| K.ATA_BM_STATUS_INTERRUPT := by
      apply Nat.mod_eq_of_lt
      have h1 : s &&& 0xf8 < 2 ^ 8 := lt_of_le_of_lt Nat.and_le_right (by norm_num)
      have h2 : K.ATA_BM_STATUS_INTERRUPT < 2 ^ 8 := hI
      exact Nat.or_lt_two_pow h1 h2
    rw [hv] at t2
    cases hd : channel.dmaing
    · refine ⟨K.B_UNHANDLED_INTERRUPT, w2, s,
        [Event.read 1 (channel.command_block_base + 7) a,
         Event.write 1 (channel.bus_master_base + K.ATA_BM_STATUS_REG)
           ((s &&& 0xf8) ||| K.ATA_BM_STATUS_INTERRUPT)],
        ?_, ?_, fun _ => ⟨a, ?_, ?_⟩, fun h => absurd h hset⟩
      · simp [ata_adapter_inthand, hs, hset, ha, hw, hd]
      · rw [t2, t1, t0]; simp
      · simp
      · rw [t2, t1, t0]; simp [Event.isAccess]
    · refine ⟨(m.interrupt_handler w2.hw channel.ataChannel a).1,
        { w2 with hw := (m.interrupt_handler w2.hw channel.ataChannel a).2,
                  trace := w2.trace ++ [Event.interrupt_handler channel.ataChannel a] },
        s,
        [Event.read 1 (channel.command_block_base + 7) a,
         Event.write 1 (channel.bus_master_base + K.ATA_BM_STATUS_REG)
           ((s &&& 0xf8) ||| K.ATA_BM_STATUS_INTERRUPT),
         Event.interrupt_handler channel.ataChannel a],
        ?_, ?_, fun _ => ⟨a, ?_, ?_⟩, fun h => absurd h hset⟩
      · simp [ata_adapter_inthand, hs, hset, ha, hw, hd]
      · show w2.trace ++ [Event.interrupt_handler channel.ataChannel a] = _
        rw [t2, t1, t0]; simp
      · simp
      · show ((w2.trace ++ [Event.interrupt_handler channel.ataChannel a]).drop
          w.trace.length).filter Event.isAccess = _
        rw [t2, t1, t0]; simp [Event.isAccess]

/-- Instance of C7: status byte 7 everywhere, `dmaing` clear. -/
theorem inthand_access_order_witness :
    ∃ res w1 s rest, ata_adapter_inthand haikuConsts regFile channel0 (world0 7) =
        some (res, w1) ∧
      w1.trace = (world0 7).trace ++
        Event.read 1 (channel0.bus_master_base + haikuConsts.ATA_BM_STATUS_REG) s :: rest ∧
      (s &&& haikuConsts.ATA_BM_STATUS_INTERRUPT ≠ 0 → ∃ a,
        rest = [Event.read 1 (channel0.command_block_base + 7) a,
                Event.write 1 (channel0.bus_master_base + haikuConsts.ATA_BM_STATUS_REG)
                  ((s &&& 0xf8) ||| haikuConsts.ATA_BM_STATUS_INTERRUPT)] ++
               (if channel0.dmaing then [Event.interrupt_handler channel0.ataChannel a] else []) ∧
        (w1.trace.drop (world0 7).trace.length).filter Event.isAccess =
          [Event.read 1 (channel0.bus_master_base + haikuConsts.ATA_BM_STATUS_REG) s,
           Event.read 1 (channel0.command_block_base + 7) a,
           Event.write 1 (channel0.bus_master_base + haikuConsts.ATA_BM_STATUS_REG)
             ((s &&& 0xf8) ||| haikuConsts.ATA_BM_STATUS_INTERRUPT)]) ∧
      (s &&& haikuConsts.ATA_BM_STATUS_INTERRUPT = 0 → rest = []) :=
  inthand_access_order haikuConsts regFile channel0 (world0 7) (by decide)

end AtaAdapter

namespace AtaAdapter

theorem shift_and_ne_zero (i mask : Nat) : ((1 <<< i) &&& mask ≠ 0) ↔ mask.testBit i = true := by
  rw [Nat.one_shiftLeft, Nat.and_comm, Nat.and_two_pow]
  cases h : mask.testBit i <;> simp

theorem write_command_block_loop_spec {σ : Type} (m : Machine σ) (ioaddr : Nat)
    (tf : ata_task_file) (mask : Nat) (hbyte : ∀ j, j < 14 → tf.r j < 256) :
    ∀ (n i : Nat) (w : World σ), i + n ≤ 7 →
      ∃ w1, write_command_block_loop m ioaddr tf mask n i w = some w1 ∧
        w1.trace = w.trace ++ (List.range' i n).flatMap (commandBlockWrites ioaddr tf mask) := by
  intro n
  induction n with
  | zero => intro i w _; exact ⟨w, rfl, by simp⟩
  | succ n ih =>
    intro i w hi
    have hhi : tf.r (i + 7) % 256 = tf.r (i + 7) := Nat.mod_eq_of_lt (hbyte _ (by omega))
    have hlo : tf.r i % 256 = tf.r i := Nat.mod_eq_of_lt (hbyte _ (by omega))
    obtain ⟨wa, hwa⟩ := Write8_total m (ioaddr + 1 + i) (tf.r (i + 7)) w
    have ta := Write8_some hwa
    rw [hhi] at ta
    by_cases b7 : mask.testBit (i + 7) = true
    · obtain ⟨wb, hwb⟩ := Write8_total m (ioaddr + 1 + i) (tf.r i) wa
      have tb := Write8_some hwb
      rw [hlo] at tb
      by_cases b0 : mask.testBit i = true
      · obtain ⟨w1, h1, t1⟩ := ih (i + 1) wb (by omega)
        refine ⟨w1, ?_, ?_⟩
        · simp [write_command_block_loop, shift_and_ne_zero, b7, b0, hwa, hwb, h1]
        · rw [t1, tb, ta]
          simp [List.range'_succ, commandBlockWrites, b7, b0]
      · obtain ⟨w1, h1, t1⟩ := ih (i + 1) wa (by omega)
        refine ⟨w1, ?_, ?_⟩
        · simp [write_command_block_loop, shift_and_ne_zero, b7, b0, hwa, h1]
        · rw [t1, ta]
          simp [List.range'_succ, commandBlockWrites, b7, b0]
    · obtain ⟨wb, hwb⟩ := Write8_total m (ioaddr + 1 + i) (tf.r i) w
      have tb := Write8_some hwb
      rw [hlo] at tb
      by_cases b0 : mask.testBit i = true
      · obtain ⟨w1, h1, t1⟩ := ih (i + 1) wb (by omega)
        refine ⟨w1, ?_, ?_⟩
        · simp [write_command_block_loop, shift_and_ne_zero, b7, b0, hwb, h1]
        · rw [t1, tb]
          simp [List.range'_succ, commandBlockWrites, b7, b0]
      · obtain ⟨w1, h1, t1⟩ := ih (i + 1) w (by omega)
        refine ⟨w1, ?_, ?_⟩
        · simp [write_command_block_loop, shift_and_ne_zero, b7, b0, h1]
        · rw [t1]
          simp [List.range'_succ, commandBlockWrites, b7, b0]

/-- C8.  On a channel that is not lost, for every task file (of bytes) and every mask,
`ata_adapter_write_command_block_regs` returns `B_OK` and its register accesses are
exactly, for `i = 0..6` in increasing order: if mask bit `i + 7` is set an 8-bit write
of `r[i + 7]` to port `command_block_base + 1 + i`, then if mask bit `i` is set an
8-bit write of `r[i]` to the same port.  With mask bits {0, 7} it writes the high byte
and then the low byte to one port; with mask bit {0} alone only the low byte. -/
theorem write_command_block_regs_trace {σ : Type} (m : Machine σ)
    (channel : ata_adapter_channel_info) (tf : ata_task_file) (mask : Nat) (w : World σ)
    (hlost : channel.lost = 0) (hbyte : ∀ j, j < 14 → tf.r j < 256) :
    ∃ w1, ata_adapter_write_command_block_regs m channel tf mask w = some (status_t.B_OK, w1) ∧
      w1.trace = w.trace ++
        (List.range 7).flatMap (commandBlockWrites channel.command_block_base tf mask) ∧
      (mask = 0x81 → w1.trace = w.trace ++
        [Event.write 1 (channel.command_block_base + 1 + 0) (tf.r 7),
         Event.write 1 (channel.command_block_base + 1 + 0) (tf.r 0)]) ∧
      (mask = 0x01 → w1.trace = w.trace ++
        [Event.write 1 (channel.command_block_base + 1 + 0) (tf.r 0)]) := by
  obtain ⟨w1, h1, t1⟩ := write_command_block_loop_spec m channel.command_block_base tf mask
    hbyte 7 0 w (by omega)
  rw [← List.range_eq_range'] at t1
  refine ⟨w1, ?_, t1, ?_, ?_⟩
  · simp [ata_adapter_write_command_block_regs, hlost, h1]
  · intro hm
    rw [t1, hm]
    rfl
  · intro hm
    rw [t1, hm]
    rfl

/-- Instance of C8: mask bits {0, 7} on a channel that is not lost. -/
theorem write_command_block_regs_trace_witness :
    ∃ w1, ata_adapter_write_command_block_regs regFile channel0 tf0 0x81 (world0 0) =
        some (status_t.B_OK, w1) ∧
      w1.trace = (world0 0).trace ++
        (List.range 7).flatMap (commandBlockWrites channel0.command_block_base tf0 0x81) ∧
      ((0x81 : Nat) = 0x81 → w1.trace = (world0 0).trace ++
        [Event.write 1 (channel0.command_block_base + 1 + 0) (tf0.r 7),
         Event.write 1 (channel0.command_block_base + 1 + 0) (tf0.r 0)]) ∧
      ((0x81 : Nat) = 0x01 → w1.trace = (world0 0).trace ++
        [Event.write 1 (channel0.command_block_base + 1 + 0) (tf0.r 0)]) :=
  write_command_block_regs_trace regFile channel0 tf0 0x81 (world0 0) rfl
    (fun j hj => by simp only [tf0]; omega)

end AtaAdapter

namespace Plic

open AtaAdapter (andNot toInt32)

theorem toInt32_of_lt {n : Nat} (h : n < 2 ^ 31) : toInt32 n = (n : Int) := by
  have e : n % 2 ^ 32 = n := Nat.mod_eq_of_lt (by omega)
  unfold toInt32
  rw [e, if_pos h]

/-- C9 fails when the claim register reads `2 ^ 31`: the dispatcher is called with the
vector `-2147483648`, the conversion of that value to `int`, and never with `2 ^ 31`. -/
theorem HandleInterrupt_vector_counterexample :
    ∃ w1, HandleInterrupt 1 (claimDevice (2 ^ 31)) ctrl0 world0 = some (1, w1) ∧
      claimValue (claimDevice (2 ^ 31)) 1 world0 = 2 ^ 31 ∧
      w1.trace = [Event.readClaim 1 (2 ^ 31), Event.int_io_interrupt_handler (-2147483648) true,
        Event.writeClaim 1 (2 ^ 31)] ∧
      Event.int_io_interrupt_handler (2 ^ 31) true ∉ w1.trace :=
  ⟨_, rfl, by decide, by decide, by decide⟩

/-- C9 as amended.  `HandleInterrupt` reads the claim register of the current CPU's
context exactly once.  If the value `N` is 0 it returns `B_HANDLED_INTERRUPT` with no
further event (no dispatch, no register write).  If `N ≠ 0` it calls
`int_io_interrupt_handler` exactly once, with `levelTriggered = true` and the vector
`(int)N`, which is `N` itself whenever `N < 2 ^ 31`; it then writes `N` to the
claim/complete register of the same context and returns `B_HANDLED_INTERRUPT`. -/
theorem HandleInterrupt_claim_complete {σ : Type} (B_HANDLED_INTERRUPT : Int) (m : Machine σ)
    (ctrl : PlicInterruptController) (w : World σ) (context : Nat)
    (hctx : ctrl.fPlicContexts[m.smp_get_current_cpu w.hw]? = some context) :
    ∃ w1, HandleInterrupt B_HANDLED_INTERRUPT m ctrl w = some (B_HANDLED_INTERRUPT, w1) ∧
      (claimValue m context w = 0 →
        w1.trace = w.trace ++ [Event.readClaim context 0] ∧ w1.hw = (m.claim w.hw context).2) ∧
      (claimValue m context w ≠ 0 →
        w1.trace = w.trace ++
          [Event.readClaim context (claimValue m context w),
           Event.int_io_interrupt_handler (toInt32 (claimValue m context w)) true,
           Event.writeClaim context (claimValue m context w)] ∧
        w1.hw = m.complete (m.int_io_interrupt_handler (m.claim w.hw context).2
          (toInt32 (claimValue m context w)) true).2 context (claimValue m context w) ∧
        (claimValue m context w < 2 ^ 31 →
          toInt32 (claimValue m context w) = (claimValue m context w : Int))) := by
  have hlt : claimValue m context w < 4294967296 := Nat.mod_lt _ (by norm_num)
  by_cases h0 : claimValue m context w = 0
  · refine ⟨{ hw := (m.claim w.hw context).2,
              trace := w.trace ++ [Event.readClaim context (claimValue m context w)] }, ?_, ?_, ?_⟩
    · simp [HandleInterrupt, hctx, h0]
    · intro _; simp [h0]
    · intro h; exact absurd h0 h
  · refine ⟨{ hw := m.complete (m.int_io_interrupt_handler (m.claim w.hw context).2
                (toInt32 (claimValue m context w)) true).2 context (claimValue m context w),
              trace := w.trace ++
                [Event.readClaim context (claimValue m context w),
                 Event.int_io_interrupt_handler (toInt32 (claimValue m context w)) true,
                 Event.writeClaim context (claimValue m context w)] }, ?_, ?_, ?_⟩
    · simp [HandleInterrupt, hctx, h0, hlt, Nat.mod_eq_of_lt hlt]
    · intro h; exact absurd h h0
    · intro _
      exact ⟨rfl, rfl, fun h => toInt32_of_lt h⟩

/-- Instance of C9 as amended: the claim register reads 5 on CPU 0 (context 1). -/
theorem HandleInterrupt_claim_complete_witness :
    ∃ w1, HandleInterrupt 1 (claimDevice 5) ctrl0 world0 = some (1, w1) ∧
      (claimValue (claimDevice 5) 1 world0 = 0 →
        w1.trace = world0.trace ++ [Event.readClaim 1 0] ∧
          w1.hw = ((claimDevice 5).claim world0.hw 1).2) ∧
      (claimValue (claimDevice 5) 1 world0 ≠ 0 →
        w1.trace = world0.trace ++
          [Event.readClaim 1 (claimValue (claimDevice 5) 1 world0),
           Event.int_io_interrupt_handler (toInt32 (claimValue (claimDevice 5) 1 world0)) true,
           Event.writeClaim 1 (claimValue (claimDevice 5) 1 world0)] ∧
        w1.hw = (claimDevice 5).complete ((claimDevice 5).int_io_interrupt_handler
          ((claimDevice 5).claim world0.hw 1).2
          (toInt32 (claimValue (claimDevice 5) 1 world0)) true).2 1
          (claimValue (claimDevice 5) 1 world0) ∧
        (claimValue (claimDevice 5) 1 world0 < 2 ^ 31 →
          toInt32 (claimValue (claimDevice 5) 1 world0) = (claimValue (claimDevice 5) 1 world0 : Int))) :=
  HandleInterrupt_claim_complete 1 (claimDevice 5) ctrl0 world0 1 rfl

end Plic

namespace Plic

open AtaAdapter (andNot toInt32)

theorem testBit_or_bit (old b j : Nat) :
    (old ||| (1 <<< b)).testBit j = (old.testBit j || decide (b = j)) := by
  rw [Nat.testBit_or, Nat.one_shiftLeft, Nat.testBit_two_pow]

theorem testBit_andNot_bit (old b j : Nat) :
    (andNot old (1 <<< b)).testBit j = (old.testBit j && !decide (b = j)) := by
  unfold andNot
  rw [Nat.testBit_xor, Nat.testBit_and, Nat.one_shiftLeft, Nat.testBit_two_pow]
  cases old.testBit j <;> cases decide (b = j) <;> rfl

theorem updateEnable_eq (ctrl : PlicInterruptController) (n : Nat) (f : Nat → Nat → Nat)
    (regs : PlicRegs) (c : Nat) (row : List Nat)
    (hc : ctrl.fPlicContexts[0]? = some c) (hrow : regs.enable[c]? = some row)
    (hin : n / 32 < row.length) :
    updateEnable ctrl (n : Int) f regs =
      some { enable := regs.enable.set c (row.set (n / 32) (f row[n / 32] (n % 32))) } := by
  have h1 : Int.tdiv (n : Int) 32 = ((n / 32 : Nat) : Int) := by
    rw [Int.tdiv_eq_ediv (by omega) (by omega)]; omega
  have h2 : Int.tmod (n : Int) 32 = ((n % 32 : Nat) : Int) := by
    rw [Int.tmod_eq_emod (by omega) (by omega)]; omega
  have h3 : ¬ (((n / 32 : Nat) : Int) < 0 ∨ ((n % 32 : Nat) : Int) < 0) := by omega
  unfold updateEnable
  simp only [h1, h2, h3, if_false, hc, hrow, Int.toNat_ofNat, List.getElem?_eq_getElem hin]

theorem word_set (regs : PlicRegs) (c : Nat) (row1 : List Nat) (hcl : c < regs.enable.length)
    (r j : Nat) :
    PlicRegs.word { enable := regs.enable.set c row1 } r j =
      if r = c then row1[j]? else regs.word r j := by
  unfold PlicRegs.word
  by_cases h : r = c
  · subst h; simp [List.getElem?_set, hcl]
  · have h2 : ¬ c = r := fun e => h e.symm
    simp [List.getElem?_set, h, h2]

end Plic

namespace Plic

open AtaAdapter (andNot toInt32)

theorem onlyBitChanged_set (regs : PlicRegs) (c wi b : Nat) (row : List Nat) (v : Bool)
    (nv : Nat) (hrow : regs.enable[c]? = some row) (hin : wi < row.length)
    (hb : nv.testBit b = v) (hrest : ∀ j, j ≠ b → nv.testBit j = row[wi].testBit j) :
    OnlyBitChanged regs { enable := regs.enable.set c (row.set wi nv) } c wi b v := by
  have hcl : c < regs.enable.length := by
    rcases List.getElem?_eq_some_iff.mp hrow with ⟨h, _⟩
    exact h
  refine ⟨⟨row[wi], nv, ?_, ?_, hb, hrest⟩, ?_⟩
  · simp [PlicRegs.word, hrow, List.getElem?_eq_getElem hin]
  · rw [word_set regs c _ hcl]
    simp [List.getElem?_set, hin]
  · intro r j hne
    rw [word_set regs c _ hcl]
    by_cases h : r = c
    · subst h
      have hj : ¬ wi = j := fun e => hne ⟨rfl, e.symm⟩
      simp [List.getElem?_set, hj, PlicRegs.word, hrow]
    · simp [h]

/-- C10.  For every `irq ≥ 0` inside the enable bitmap (word `irq / 32` exists in the
targeted row, the row of context `fPlicContexts[0]`), `EnableIoInterrupt(irq)` sets bit
`irq % 32` of word `irq / 32` of that row and `DisableIoInterrupt(irq)` clears it, each
leaving every other bit of that word and every other word unchanged.  Hence Enable is
idempotent, and Disable after Enable leaves the bit clear and the rest of the bitmap as
it was before both. -/
theorem enable_disable_bit (ctrl : PlicInterruptController) (regs : PlicRegs) (irq : Int)
    (c : Nat) (row : List Nat) (hirq : 0 ≤ irq)
    (hc : ctrl.fPlicContexts[0]? = some c) (hrow : regs.enable[c]? = some row)
    (hin : irq.toNat / 32 < row.length) :
    ∃ en dis, EnableIoInterrupt ctrl irq regs = some en ∧
      DisableIoInterrupt ctrl irq regs = some dis ∧
      OnlyBitChanged regs en c (irq.toNat / 32) (irq.toNat % 32) true ∧
      OnlyBitChanged regs dis c (irq.toNat / 32) (irq.toNat % 32) false ∧
      EnableIoInterrupt ctrl irq en = some en ∧
      ∃ de, DisableIoInterrupt ctrl irq en = some de ∧
        OnlyBitChanged regs de c (irq.toNat / 32) (irq.toNat % 32) false := by
  obtain ⟨n, rfl⟩ := Int.eq_ofNat_of_zero_le hirq
  simp only [Int.toNat_ofNat] at hin ⊢
  have hcl : c < regs.enable.length := by
    rcases List.getElem?_eq_some_iff.mp hrow with ⟨h, _⟩
    exact h
  have hen := updateEnable_eq ctrl n (fun old bit => old ||| (1 <<< bit)) regs c row hc hrow hin
  have hdis := updateEnable_eq ctrl n (fun old bit => andNot old (1 <<< bit)) regs c row hc hrow hin
  -- the state after Enable, its row and its word
  have hrow1 : ({ enable := regs.enable.set c (row.set (n / 32) (row[n / 32] ||| 1 <<< (n % 32))) }
      : PlicRegs).enable[c]? = some (row.set (n / 32) (row[n / 32] ||| 1 <<< (n % 32))) := by
    simp [List.getElem?_set, hcl]
  have hin1 : n / 32 < (row.set (n / 32) (row[n / 32] ||| 1 <<< (n % 32))).length := by
    simpa using hin
  have hen2 := updateEnable_eq ctrl n (fun old bit => old ||| (1 <<< bit)) _ c _ hc hrow1 hin1
  have hde := updateEnable_eq ctrl n (fun old bit => andNot old (1 <<< bit)) _ c _ hc hrow1 hin1
  simp only [List.getElem_set_self, List.set_set] at hen2 hde
  have hor : (row[n / 32] ||| 1 <<< (n % 32)) ||| 1 <<< (n % 32) = row[n / 32] ||| 1 <<< (n % 32) := by
    rw [Nat.or_assoc, Nat.or_self]
  rw [hor] at hen2
  refine ⟨_, _, hen, hdis, ?_, ?_, hen2, _, hde, ?_⟩
  · apply onlyBitChanged_set regs c (n / 32) (n % 32) row true _ hrow hin
    · rw [testBit_or_bit]; simp
    · intro j hj
      rw [testBit_or_bit]
      have : ¬ n % 32 = j := fun e => hj e.symm
      simp [this]
  · apply onlyBitChanged_set regs c (n / 32) (n % 32) row false _ hrow hin
    · rw [testBit_andNot_bit]; simp
    · intro j hj
      rw [testBit_andNot_bit]
      have : ¬ n % 32 = j := fun e => hj e.symm
      simp [this]
  · apply onlyBitChanged_set regs c (n / 32) (n % 32) row false _ hrow hin
    · rw [testBit_andNot_bit]; simp
    · intro j hj
      rw [testBit_andNot_bit, testBit_or_bit]
      have : ¬ n % 32 = j := fun e => hj e.symm
      simp [this]

/-- Instance of C10: line 33 (word 1, bit 1) with CPU 0 on context 1. -/
theorem enable_disable_bit_witness :
    ∃ en dis, EnableIoInterrupt ctrl0 33 regs0 = some en ∧
      DisableIoInterrupt ctrl0 33 regs0 = some dis ∧
      OnlyBitChanged regs0 en 1 ((33 : Int).toNat / 32) ((33 : Int).toNat % 32) true ∧
      OnlyBitChanged regs0 dis 1 ((33 : Int).toNat / 32) ((33 : Int).toNat % 32) false ∧
      EnableIoInterrupt ctrl0 33 en = some en ∧
      ∃ de, DisableIoInterrupt ctrl0 33 en = some de ∧
        OnlyBitChanged regs0 de 1 ((33 : Int).toNat / 32) ((33 : Int).toNat % 32) false :=
  enable_disable_bit ctrl0 regs0 33 1 [5, 0] (by decide) rfl rfl (by decide)

end Plic

namespace AtaAdapter

theorem Read32_some {σ : Type} {m : Machine σ} {offset v : Nat} {w w1 : World σ}
    (h : Read32 m offset w = some (v, w1)) :
    w1.trace = w.trace ++ [Event.read 4 offset v] ∧ v < 2 ^ 32 := by
  rw [Read32_eq] at h
  simp only [Option.some.injEq, Prod.mk.injEq] at h
  obtain ⟨hv, hw⟩ := h
  subst hw
  subst hv
  refine ⟨?_, ?_⟩
  · simp [ensureMapped_trace]
  · exact Nat.mod_lt _ (by norm_num)

theorem Write32_some {σ : Type} {m : Machine σ} {offset val : Nat} {w w1 : World σ}
    (h : Write32 m offset val w = some w1) :
    w1.trace = w.trace ++ [Event.write 4 offset (val % 4294967296)] := by
  rw [Write32_eq] at h
  simp only [Option.some.injEq] at h
  subst h
  simp [ensureMapped_trace]

theorem Read32_total {σ : Type} (m : Machine σ) (offset : Nat) (w : World σ) :
    ∃ v w1, Read32 m offset w = some (v, w1) := ⟨_, _, Read32_eq m offset w⟩

theorem Write32_total {σ : Type} (m : Machine σ) (offset val : Nat) (w : World σ) :
    ∃ w1, Write32 m offset val w = some w1 := ⟨_, Write32_eq m offset val w⟩

theorem testBit_andNot (a m j : Nat) : (andNot a m).testBit j = (a.testBit j && !m.testBit j) := by
  unfold andNot
  rw [Nat.testBit_xor, Nat.testBit_and]
  cases a.testBit j <;> cases m.testBit j <;> rfl

theorem andNot_le (a m : Nat) : andNot a m ≤ a := by
  apply Nat.le_of_testBit
  intro i hi
  rw [testBit_andNot] at hi
  simp only [Bool.and_eq_true] at hi
  exact hi.1

/-- The value `ata_adapter_prepare_dma` writes to the PRDT address register. -/
theorem prdt_address_value_lt (old phys : Nat) :
    (old &&& 3) ||| (B_HOST_TO_LENDIAN_INT32 phys &&& 0xfffffffc) < 2 ^ 32 := by
  apply Nat.or_lt_two_pow
  · exact lt_of_le_of_lt Nat.and_le_right (by norm_num)
  · exact lt_of_le_of_lt Nat.and_le_right (by norm_num)

theorem prepare_dma_trace {σ : Type} (K : AtaConsts) (m : Machine σ)
    (channel : ata_adapter_channel_info) (sgList : List physical_entry) (writeToDevice : Bool)
    (w : World σ) (t : List prd_entry)
    (h : prd_build sgList sgList.length channel.prdt = some t) :
    ∃ old s c w1, ata_adapter_prepare_dma K m channel sgList writeToDevice w =
        some (status_t.B_OK, { channel with prdt := t }, w1) ∧
      old < 2 ^ 32 ∧ s < 256 ∧ c < 256 ∧
      w1.trace = w.trace ++
        [Event.read 4 (channel.bus_master_base + K.ATA_BM_PRDT_ADDRESS) old,
         Event.write 4 (channel.bus_master_base + K.ATA_BM_PRDT_ADDRESS)
           ((old &&& 3) ||| (B_HOST_TO_LENDIAN_INT32 channel.prdt_phys &&& 0xfffffffc)),
         Event.read 1 (channel.bus_master_base + K.ATA_BM_STATUS_REG) s,
         Event.write 1 (channel.bus_master_base + K.ATA_BM_STATUS_REG)
           ((s ||| K.ATA_BM_STATUS_INTERRUPT ||| K.ATA_BM_STATUS_ERROR) % 256),
         Event.read 1 (channel.bus_master_base + K.ATA_BM_COMMAND_REG) c,
         Event.write 1 (channel.bus_master_base + K.ATA_BM_COMMAND_REG)
           ((if writeToDevice then andNot c K.ATA_BM_COMMAND_READ_FROM_DEVICE
             else (c ||| K.ATA_BM_COMMAND_READ_FROM_DEVICE) % 256) % 256)] := by
  obtain ⟨old, wa, ha⟩ := Read32_total m (channel.bus_master_base + K.ATA_BM_PRDT_ADDRESS) w
  obtain ⟨wb, hb⟩ := Write32_total m (channel.bus_master_base + K.ATA_BM_PRDT_ADDRESS)
    ((old &&& 3) ||| (B_HOST_TO_LENDIAN_INT32 channel.prdt_phys &&& 0xfffffffc)) wa
  obtain ⟨s, wc, hc⟩ := Read8_total m (channel.bus_master_base + K.ATA_BM_STATUS_REG) wb
  obtain ⟨wd, hd⟩ := Write8_total m (channel.bus_master_base + K.ATA_BM_STATUS_REG)
    ((s ||| K.ATA_BM_STATUS_INTERRUPT ||| K.ATA_BM_STATUS_ERROR) % 256) wc
  obtain ⟨c, we, he⟩ := Read8_total m (channel.bus_master_base + K.ATA_BM_COMMAND_REG) wd
  obtain ⟨wf, hf⟩ := Write8_total m (channel.bus_master_base + K.ATA_BM_COMMAND_REG)
    (if writeToDevice then andNot c K.ATA_BM_COMMAND_READ_FROM_DEVICE
      else (c ||| K.ATA_BM_COMMAND_READ_FROM_DEVICE) % 256) we
  have ta := Read32_some ha
  have tb := Write32_some hb
  have tc := Read8_some hc
  have td := Write8_some hd
  have te := Read8_some he
  have tf := Write8_some hf
  have hlt : (old &&& 3) ||| (B_HOST_TO_LENDIAN_INT32 channel.prdt_phys &&& 4294967292)
      < 4294967296 := prdt_address_value_lt old channel.prdt_phys
  refine ⟨old, s, c, wf, ?_, ta.2, tc.2, te.2, ?_⟩
  · simp [ata_adapter_prepare_dma, h, ha, hb, hc, hd, he, hf]
  · rw [tf, te.1, td, tc.1, tb, ta.1]
    simp [Nat.mod_eq_of_lt hlt]

/-- C12.  On a channel whose `lost` flag is set, `ata_adapter_write_command_block_regs`,
`ata_adapter_read_command_block_regs`, `ata_adapter_write_device_control`,
`ata_adapter_write_pio` and `ata_adapter_read_pio` each return `B_ERROR` in the
unchanged world (same trace and hardware state: no register read or write), and the
task file / data buffer handed back to the caller is the one passed in. -/
theorem lost_channel_register_ops {σ : Type} (m : Machine σ)
    (channel : ata_adapter_channel_info) (tf : ata_task_file) (mask val : Nat)
    (data : List Nat) (count : Int) (force_16bit : Bool) (w : World σ)
    (hlost : channel.lost ≠ 0) :
    ata_adapter_write_command_block_regs m channel tf mask w = some (status_t.B_ERROR, w) ∧
    ata_adapter_read_command_block_regs m channel tf mask w = some (status_t.B_ERROR, tf, w) ∧
    ata_adapter_write_device_control m channel val w = some (status_t.B_ERROR, w) ∧
    ata_adapter_write_pio m channel data count force_16bit w = some (status_t.B_ERROR, w) ∧
    ata_adapter_read_pio m channel data count force_16bit w =
      some (status_t.B_ERROR, data, w) := by
  refine ⟨?_, ?_, ?_, ?_, ?_⟩
  · simp [ata_adapter_write_command_block_regs, hlost]
  · simp [ata_adapter_read_command_block_regs, hlost]
  · simp [ata_adapter_write_device_control, hlost]
  · simp [ata_adapter_write_pio, hlost]
  · simp [ata_adapter_read_pio, hlost]

/-- Instance of C12: the lost channel `lostChannel`. -/
theorem lost_channel_register_ops_witness :
    ata_adapter_write_command_block_regs regFile lostChannel tf0 0x81 (world0 0) =
      some (status_t.B_ERROR, world0 0) ∧
    ata_adapter_read_command_block_regs regFile lostChannel tf0 0x81 (world0 0) =
      some (status_t.B_ERROR, tf0, world0 0) ∧
    ata_adapter_write_device_control regFile lostChannel 0x0a (world0 0) =
      some (status_t.B_ERROR, world0 0) ∧
    ata_adapter_write_pio regFile lostChannel data4 4 false (world0 0) =
      some (status_t.B_ERROR, world0 0) ∧
    ata_adapter_read_pio regFile lostChannel data4 4 false (world0 0) =
      some (status_t.B_ERROR, data4, world0 0) :=
  lost_channel_register_ops regFile lostChannel tf0 0x81 0x0a data4 4 false (world0 0)
    (by decide)

end AtaAdapter

namespace AtaAdapter

/-- C13, the code at a lost channel.  On `lostChannel` (`lost = 1`) the three DMA
functions do not return `B_ERROR`: `ata_adapter_start_dma` and `ata_adapter_finish_dma`
return `B_OK` after reading and writing the bus-master command and status registers,
and `ata_adapter_prepare_dma` returns `B_OK` after six bus-master register accesses. -/
theorem dma_on_lost_channel :
    lostChannel.lost ≠ 0 ∧
    (∃ ch w1, ata_adapter_start_dma haikuConsts regFile lostChannel (world0 0) =
        some (status_t.B_OK, ch, w1) ∧
      w1.trace = [Event.read 1 0x3000 0, Event.write 1 0x3000 1]) ∧
    (∃ ch w1, ata_adapter_finish_dma haikuConsts regFile lostChannel (world0 0) =
        some (status_t.B_OK, ch, w1) ∧
      w1.trace = [Event.read 1 0x3002 0, Event.read 1 0x3000 0, Event.write 1 0x3000 0,
        Event.write 1 0x3002 2]) ∧
    (∃ ch w1 old s c v1 v2 v3,
      ata_adapter_prepare_dma haikuConsts regFile lostChannel sg3 true (world0 0) =
        some (status_t.B_OK, ch, w1) ∧
      w1.trace = [Event.read 4 0x3004 old, Event.write 4 0x3004 v1, Event.read 1 0x3002 s,
        Event.write 1 0x3002 v2, Event.read 1 0x3000 c, Event.write 1 0x3000 v3]) := by
  refine ⟨by decide, ⟨_, _, rfl, rfl⟩, ⟨_, _, rfl, rfl⟩, ?_⟩
  obtain ⟨out, hout, _, _⟩ := prd_build_spec sg3 lostChannel.prdt
    (by show 3 ≤ (List.replicate 512 _).length; rw [List.length_replicate]; decide) (by decide)
  obtain ⟨old, s, c, w1, h1, _, _, _, ht⟩ :=
    prepare_dma_trace haikuConsts regFile lostChannel sg3 true (world0 0) out hout
  exact ⟨_, w1, old, s, c, _, _, _, h1, ht⟩

end AtaAdapter

namespace AtaAdapter

theorem or_one_ne_zero (x : Nat) : x ||| 1 ≠ 0 := by
  have h : (x ||| 1).testBit 0 = true := by rw [Nat.testBit_or]; simp
  intro h0
  rw [h0] at h
  simp at h

theorem or_one_or_one (x : Nat) : (x ||| 1) ||| 1 = x ||| 1 := by
  rw [Nat.or_assoc, Nat.or_self]

theorem run_lost {σ : Type} (K : AtaConsts) (m : Machine σ) (op : AdapterOp)
    (s s1 : ata_adapter_channel_info × World σ) (h : op.run K m s = some s1) :
    (op ≠ AdapterOp.channel_removed → s1.1.lost = s.1.lost) ∧
    (op = AdapterOp.channel_removed → s1.1.lost = s.1.lost ||| 1) := by
  obtain ⟨c, w⟩ := s
  cases op <;>
    simp only [AdapterOp.run, AtaAdapter.set_channel, ata_adapter_prepare_dma, ata_adapter_start_dma,
      ata_adapter_finish_dma, ata_adapter_channel_removed, Option.map_eq_some', Option.bind_eq_some,
      Option.some.injEq, Option.map_some'] at h
  case set_channel a => subst h; exact ⟨fun _ => rfl, fun e => by cases e⟩
  case write_command_block_regs tf mask =>
    obtain ⟨_, _, rfl⟩ := h; exact ⟨fun _ => rfl, fun e => by cases e⟩
  case read_command_block_regs tf mask =>
    obtain ⟨_, _, rfl⟩ := h; exact ⟨fun _ => rfl, fun e => by cases e⟩
  case get_altstatus => obtain ⟨_, _, rfl⟩ := h; exact ⟨fun _ => rfl, fun e => by cases e⟩
  case write_device_control val =>
    obtain ⟨_, _, rfl⟩ := h; exact ⟨fun _ => rfl, fun e => by cases e⟩
  case write_pio data count f =>
    obtain ⟨_, _, rfl⟩ := h; exact ⟨fun _ => rfl, fun e => by cases e⟩
  case read_pio data count f =>
    obtain ⟨_, _, rfl⟩ := h; exact ⟨fun _ => rfl, fun e => by cases e⟩
  case prepare_dma sgList wr =>
    obtain ⟨_, ⟨_, _, _, _, _, _, _, _, _, _, _, _, _, _, rfl⟩, rfl⟩ := h
    exact ⟨fun _ => rfl, fun e => by cases e⟩
  case start_dma =>
    obtain ⟨_, ⟨_, _, _, _, rfl⟩, rfl⟩ := h
    exact ⟨fun _ => rfl, fun e => by cases e⟩
  case finish_dma =>
    obtain ⟨_, ⟨_, _, _, _, _, _, _, _, rfl⟩, rfl⟩ := h
    exact ⟨fun _ => rfl, fun e => by cases e⟩
  case inthand => obtain ⟨_, _, rfl⟩ := h; exact ⟨fun _ => rfl, fun e => by cases e⟩
  case channel_removed => subst h; exact ⟨fun e => absurd rfl e, fun _ => rfl⟩

theorem runOps_lost {σ : Type} (K : AtaConsts) (m : Machine σ) :
    ∀ (ops : List AdapterOp) (s s1 : ata_adapter_channel_info × World σ),
      runOps K m ops s = some s1 →
      (s1.1.lost = s.1.lost ∨ s1.1.lost = s.1.lost ||| 1) ∧ (s.1.lost ≠ 0 → s1.1.lost ≠ 0) := by
  intro ops
  induction ops with
  | nil =>
    intro s s1 h
    simp only [runOps, Option.some.injEq] at h
    subst h
    exact ⟨Or.inl rfl, fun h => h⟩
  | cons op ops ih =>
    intro s s1 h
    simp only [runOps, Option.bind_eq_some] at h
    obtain ⟨s2, h2, h3⟩ := h
    obtain ⟨ih1, ih2⟩ := ih s2 s1 h3
    obtain ⟨hne, heq⟩ := run_lost K m op s s2 h2
    by_cases hop : op = AdapterOp.channel_removed
    · have e := heq hop
      refine ⟨Or.inr ?_, fun _ => ih2 (by rw [e]; exact or_one_ne_zero _)⟩
      rcases ih1 with h | h
      · rw [h, e]
      · rw [h, e, or_one_or_one]
    · have e := hne hop
      rw [e] at ih1 ih2
      exact ⟨ih1, ih2⟩

/-- C14.  The `lost` flag is one-way.  `ata_adapter_channel_removed` and
`ata_adapter_controller_removed` leave `lost` set whatever it was before, a second call
changes nothing (idempotent), and on a NULL argument they do nothing.  No other
operation of the adapter interface on an initialised channel (set_channel,
command-block write/read, alt-status, device control, PIO write/read, prepare/start/
finish DMA, interrupt handler) changes `lost`.  Hence after every sequence `ops` of
these operations, a flag that was set is still set. -/
theorem lost_flag_one_way {σ : Type} (K : AtaConsts) (m : Machine σ) (ops : List AdapterOp)
    (c c1 : ata_adapter_channel_info) (w w1 : World σ) (ctl : ata_adapter_controller_info)
    (hrun : runOps K m ops (c, w) = some (c1, w1)) :
    (∃ cr, ata_adapter_channel_removed (some c) = some cr ∧ cr.lost ≠ 0 ∧
      ata_adapter_channel_removed (some cr) = some cr) ∧
    ata_adapter_channel_removed none = none ∧
    (∃ cr, ata_adapter_controller_removed (some ctl) = some cr ∧ cr.lost ≠ 0 ∧
      ata_adapter_controller_removed (some cr) = some cr) ∧
    ata_adapter_controller_removed none = none ∧
    (∀ (op : AdapterOp) (s s1 : ata_adapter_channel_info × World σ),
      op ≠ AdapterOp.channel_removed → op.run K m s = some s1 → s1.1.lost = s.1.lost) ∧
    (c.lost ≠ 0 → c1.lost ≠ 0) := by
  refine ⟨⟨_, rfl, or_one_ne_zero _, ?_⟩, rfl, ⟨_, rfl, or_one_ne_zero _, ?_⟩, rfl, ?_, ?_⟩
  · simp [ata_adapter_channel_removed, or_one_or_one]
  · simp [ata_adapter_controller_removed, or_one_or_one]
  · intro op s s1 hne h
    exact (run_lost K m op s s1 h).1 hne
  · exact (runOps_lost K m ops (c, w) (c1, w1) hrun).2

end AtaAdapter

namespace AtaAdapter

/-- Instance of C14: `demoOps` run on the lost channel `lostChannel`. -/
theorem lost_flag_one_way_witness :
    ∃ c1 w1, runOps haikuConsts regFile demoOps (lostChannel, world0 0) = some (c1, w1) ∧
      (lostChannel.lost ≠ 0 → c1.lost ≠ 0) :=
  ⟨_, _, rfl,
    (lost_flag_one_way haikuConsts regFile demoOps lostChannel _ (world0 0) _
      { bus_master_base := 0x3000, lost := 0 } rfl).2.2.2.2.2⟩

theorem testBit_fffffffc (j : Nat) :
    (4294967292 : Nat).testBit j = (decide (2 ≤ j) && decide (j < 32)) := by
  have e : (4294967292 : Nat) = (2 ^ 30 - 1) <<< 2 := by decide
  rw [e, Nat.testBit_shiftLeft, Nat.testBit_two_pow_sub_one]
  by_cases h1 : 2 ≤ j <;> by_cases h2 : j < 32 <;> simp [h1, h2] <;> omega

theorem testBit_three (j : Nat) : (3 : Nat).testBit j = decide (j < 2) := by
  have e : (3 : Nat) = 2 ^ 2 - 1 := by decide
  rw [e, Nat.testBit_two_pow_sub_one]

/-- C19.  For a list that fits the table, `ata_adapter_prepare_dma` first reads the
bus-master PRDT-address register (value `old`) and next writes to it the value
`(old & 3) | (prdt_phys & ~3)` (with `prdt_phys` cast to 32 bits): bits 0 and 1 of the
written value are those of `old`, and bits 2..31 are those of the PRDT's physical
address. -/
theorem prepare_dma_prdt_address {σ : Type} (K : AtaConsts) (m : Machine σ)
    (channel : ata_adapter_channel_info) (sgList : List physical_entry) (writeToDevice : Bool)
    (w : World σ)
    (h2 : sgList.length ≤ K.ATA_ADAPTER_MAX_SG_COUNT)
    (hK : K.ATA_ADAPTER_MAX_SG_COUNT ≤ channel.prdt.length)
    (hint : K.ATA_ADAPTER_MAX_SG_COUNT < 2 ^ 31) :
    ∃ ch w1 old v rest, ata_adapter_prepare_dma K m channel sgList writeToDevice w =
        some (status_t.B_OK, ch, w1) ∧
      w1.trace = w.trace ++
        Event.read 4 (channel.bus_master_base + K.ATA_BM_PRDT_ADDRESS) old ::
        Event.write 4 (channel.bus_master_base + K.ATA_BM_PRDT_ADDRESS) v :: rest ∧
      v = (old &&& 3) ||| ((channel.prdt_phys % 2 ^ 32) &&& 0xfffffffc) ∧
      v < 2 ^ 32 ∧
      (∀ j, j < 2 → v.testBit j = old.testBit j) ∧
      (∀ j, 2 ≤ j → j < 32 → v.testBit j = channel.prdt_phys.testBit j) := by
  obtain ⟨out, hout, _, _⟩ := prd_build_spec sgList channel.prdt (by omega) (by omega)
  obtain ⟨old, s, c, w1, h1, _, _, _, ht⟩ :=
    prepare_dma_trace K m channel sgList writeToDevice w out hout
  refine ⟨_, w1, old, _,
    [Event.read 1 (channel.bus_master_base + K.ATA_BM_STATUS_REG) s,
     Event.write 1 (channel.bus_master_base + K.ATA_BM_STATUS_REG)
       ((s ||| K.ATA_BM_STATUS_INTERRUPT ||| K.ATA_BM_STATUS_ERROR) % 256),
     Event.read 1 (channel.bus_master_base + K.ATA_BM_COMMAND_REG) c,
     Event.write 1 (channel.bus_master_base + K.ATA_BM_COMMAND_REG)
       ((if writeToDevice then andNot c K.ATA_BM_COMMAND_READ_FROM_DEVICE
         else (c ||| K.ATA_BM_COMMAND_READ_FROM_DEVICE) % 256) % 256)],
    h1, ?_, rfl, prdt_address_value_lt old channel.prdt_phys, ?_, ?_⟩
  · rw [ht]; rfl
  · intro j hj
    rw [Nat.testBit_or, Nat.testBit_and, Nat.testBit_and, testBit_three, testBit_fffffffc]
    have : ¬ 2 ≤ j := by omega
    simp [hj, this]
  · intro j hj1 hj2
    rw [Nat.testBit_or, Nat.testBit_and, Nat.testBit_and, testBit_three, testBit_fffffffc,
      Nat.testBit_mod_two_pow]
    have : ¬ j < 2 := by omega
    simp [hj1, hj2, this]

/-- Instance of C19: three segments in a table of 512 entries. -/
theorem prepare_dma_prdt_address_witness :
    ∃ ch w1 old v rest, ata_adapter_prepare_dma haikuConsts regFile channel0 sg3 true (world0 0) =
        some (status_t.B_OK, ch, w1) ∧
      w1.trace = (world0 0).trace ++
        Event.read 4 (channel0.bus_master_base + haikuConsts.ATA_BM_PRDT_ADDRESS) old ::
        Event.write 4 (channel0.bus_master_base + haikuConsts.ATA_BM_PRDT_ADDRESS) v :: rest ∧
      v = (old &&& 3) ||| ((channel0.prdt_phys % 2 ^ 32) &&& 0xfffffffc) ∧
      v < 2 ^ 32 ∧
      (∀ j, j < 2 → v.testBit j = old.testBit j) ∧
      (∀ j, 2 ≤ j → j < 32 → v.testBit j = channel0.prdt_phys.testBit j) :=
  prepare_dma_prdt_address haikuConsts regFile channel0 sg3 true (world0 0)
    (by decide) (by show 512 ≤ (List.replicate 512 _).length; rw [List.length_replicate])
    (by decide)

/-- C20.  For a list that fits the table, the last two events of
`ata_adapter_prepare_dma` are the read of the bus-master command register (value `c`)
and the write of `v` to it, where the READ_FROM_DEVICE bit of `v` is clear if and only
if `writeToDevice` is true and every other bit of `v`, START_STOP included, is the bit of
`c`; the function returns `B_OK`.  (READ_FROM_DEVICE is a nonzero mask within a byte.) -/
theorem prepare_dma_direction {σ : Type} (K : AtaConsts) (m : Machine σ)
    (channel : ata_adapter_channel_info) (sgList : List physical_entry) (writeToDevice : Bool)
    (w : World σ)
    (h2 : sgList.length ≤ K.ATA_ADAPTER_MAX_SG_COUNT)
    (hK : K.ATA_ADAPTER_MAX_SG_COUNT ≤ channel.prdt.length)
    (hint : K.ATA_ADAPTER_MAX_SG_COUNT < 2 ^ 31)
    (hR0 : K.ATA_BM_COMMAND_READ_FROM_DEVICE ≠ 0)
    (hR : K.ATA_BM_COMMAND_READ_FROM_DEVICE < 256) :
    ∃ ch w1 before c v, ata_adapter_prepare_dma K m channel sgList writeToDevice w =
        some (status_t.B_OK, ch, w1) ∧
      w1.trace = before ++
        [Event.read 1 (channel.bus_master_base + K.ATA_BM_COMMAND_REG) c,
         Event.write 1 (channel.bus_master_base + K.ATA_BM_COMMAND_REG) v] ∧
      (v &&& K.ATA_BM_COMMAND_READ_FROM_DEVICE = 0 ↔ writeToDevice = true) ∧
      (∀ j, K.ATA_BM_COMMAND_READ_FROM_DEVICE.testBit j = false → v.testBit j = c.testBit j) ∧
      (K.ATA_BM_COMMAND_START_STOP &&& K.ATA_BM_COMMAND_READ_FROM_DEVICE = 0 →
        v &&& K.ATA_BM_COMMAND_START_STOP = c &&& K.ATA_BM_COMMAND_START_STOP) := by
  obtain ⟨out, hout, _, _⟩ := prd_build_spec sgList channel.prdt (by omega) (by omega)
  obtain ⟨old, s, c, w1, h1, _, _, hc, ht⟩ :=
    prepare_dma_trace K m channel sgList writeToDevice w out hout
  have hor : c ||| K.ATA_BM_COMMAND_READ_FROM_DEVICE < 256 :=
    Nat.or_lt_two_pow (n := 8) hc hR
  have hand : andNot c K.ATA_BM_COMMAND_READ_FROM_DEVICE < 256 :=
    lt_of_le_of_lt (andNot_le _ _) hc
  have hv : (if writeToDevice then andNot c K.ATA_BM_COMMAND_READ_FROM_DEVICE
        else (c ||| K.ATA_BM_COMMAND_READ_FROM_DEVICE) % 256) % 256
      = if writeToDevice then andNot c K.ATA_BM_COMMAND_READ_FROM_DEVICE
        else c ||| K.ATA_BM_COMMAND_READ_FROM_DEVICE := by
    cases writeToDevice
    · simp [Nat.mod_eq_of_lt hor]
    · simp [Nat.mod_eq_of_lt hand]
  rw [hv] at ht
  have hbits : ∀ j, K.ATA_BM_COMMAND_READ_FROM_DEVICE.testBit j = false →
      (if writeToDevice then andNot c K.ATA_BM_COMMAND_READ_FROM_DEVICE
        else c ||| K.ATA_BM_COMMAND_READ_FROM_DEVICE).testBit j = c.testBit j := by
    intro j hj
    cases writeToDevice
    · simp [Nat.testBit_or, hj]
    · simp [testBit_andNot, hj]
  refine ⟨_, w1,
    w.trace ++ [Event.read 4 (channel.bus_master_base + K.ATA_BM_PRDT_ADDRESS) old,
      Event.write 4 (channel.bus_master_base + K.ATA_BM_PRDT_ADDRESS)
        ((old &&& 3) ||| (B_HOST_TO_LENDIAN_INT32 channel.prdt_phys &&& 0xfffffffc)),
      Event.read 1 (channel.bus_master_base + K.ATA_BM_STATUS_REG) s,
      Event.write 1 (channel.bus_master_base + K.ATA_BM_STATUS_REG)
        ((s ||| K.ATA_BM_STATUS_INTERRUPT ||| K.ATA_BM_STATUS_ERROR) % 256)],
    c, _, h1, ?_, ?_, hbits, ?_⟩
  · rw [ht]; simp
  · cases writeToDevice
    · have e : (c ||| K.ATA_BM_COMMAND_READ_FROM_DEVICE) &&& K.ATA_BM_COMMAND_READ_FROM_DEVICE
          = K.ATA_BM_COMMAND_READ_FROM_DEVICE := by
        apply Nat.eq_of_testBit_eq
        intro j
        rw [Nat.testBit_and, Nat.testBit_or]
        cases c.testBit j <;> cases K.ATA_BM_COMMAND_READ_FROM_DEVICE.testBit j <;> rfl
      simp [e, hR0]
    · have e : andNot c K.ATA_BM_COMMAND_READ_FROM_DEVICE &&& K.ATA_BM_COMMAND_READ_FROM_DEVICE
          = 0 := by
        apply Nat.eq_of_testBit_eq
        intro j
        rw [Nat.testBit_and, testBit_andNot, Nat.zero_testBit]
        cases c.testBit j <;> cases K.ATA_BM_COMMAND_READ_FROM_DEVICE.testBit j <;> rfl
      simp [e]
  · intro hdisj
    apply Nat.eq_of_testBit_eq
    intro j
    rw [Nat.testBit_and, Nat.testBit_and]
    cases hs : K.ATA_BM_COMMAND_START_STOP.testBit j
    · simp
    · have hr : K.ATA_BM_COMMAND_READ_FROM_DEVICE.testBit j = false := by
        have h0 : (K.ATA_BM_COMMAND_START_STOP &&& K.ATA_BM_COMMAND_READ_FROM_DEVICE).testBit j
            = false := by rw [hdisj, Nat.zero_testBit]
        rw [Nat.testBit_and, hs] at h0
        simpa using h0
      rw [hbits j hr]

/-- Instance of C20: a read from the device (`writeToDevice` false). -/
theorem prepare_dma_direction_witness :
    ∃ ch w1 before c v,
      ata_adapter_prepare_dma haikuConsts regFile channel0 sg3 false (world0 0) =
        some (status_t.B_OK, ch, w1) ∧
      w1.trace = before ++
        [Event.read 1 (channel0.bus_master_base + haikuConsts.ATA_BM_COMMAND_REG) c,
         Event.write 1 (channel0.bus_master_base + haikuConsts.ATA_BM_COMMAND_REG) v] ∧
      (v &&& haikuConsts.ATA_BM_COMMAND_READ_FROM_DEVICE = 0 ↔ false = true) ∧
      (∀ j, haikuConsts.ATA_BM_COMMAND_READ_FROM_DEVICE.testBit j = false →
        v.testBit j = c.testBit j) ∧
      (haikuConsts.ATA_BM_COMMAND_START_STOP &&& haikuConsts.ATA_BM_COMMAND_READ_FROM_DEVICE = 0 →
        v &&& haikuConsts.ATA_BM_COMMAND_START_STOP = c &&& haikuConsts.ATA_BM_COMMAND_START_STOP) :=
  prepare_dma_direction haikuConsts regFile channel0 sg3 false (world0 0)
    (by decide) (by show 512 ≤ (List.replicate 512 _).length; rw [List.length_replicate])
    (by decide) (by decide) (by decide)

end AtaAdapter

namespace AtaAdapter

theorem setupPciCommand_spec {σ : Type} (P : PciConsts) (pl : Platform σ)
    (d : DetectWorld σ) :
    ∃ before, (setupPciCommand P pl d).devlog = d.devlog ++ before ∧
      (∀ info, DevEvent.register_node info ∉ before) ∧
      (setupPciCommand P pl d).w.trace = d.w.trace ∧
      (setupPciCommand P pl d).w.sMappedRegs = d.w.sMappedRegs := by
  unfold setupPciCommand
  simp only
  split
  · refine ⟨[DevEvent.read_pci_config P.PCI_command 2 (pl.read_pci_config d.w.hw P.PCI_command 2).1,
      DevEvent.write_pci_config P.PCI_command 2
        (pcicmdNew P ((pl.read_pci_config d.w.hw P.PCI_command 2).1 % 2 ^ 16))], ?_, ?_, rfl, rfl⟩
    · simp [write_pci_config, read_pci_config]
    · simp
  · refine ⟨[DevEvent.read_pci_config P.PCI_command 2 (pl.read_pci_config d.w.hw P.PCI_command 2).1],
      ?_, ?_, rfl, rfl⟩
    · simp [read_pci_config]
    · simp

theorem detectSimplex_spec {σ : Type} (K : AtaConsts) (P : PciConsts) (m : Machine σ)
    (pl : Platform σ) (controller_can_dma : Bool) (bus_master_base channel_index : Nat)
    (supports_compatibility_mode : Bool) (d : DetectWorld σ) :
    ∃ can d1 before, detectSimplex K P m pl controller_can_dma bus_master_base channel_index
        supports_compatibility_mode d = some (can, d1) ∧
      d1.devlog = d.devlog ++ before ∧ (∀ info, DevEvent.register_node info ∉ before) ∧
      (supports_compatibility_mode = false → can = controller_can_dma ∧ d1 = d) := by
  cases supports_compatibility_mode
  · exact ⟨controller_can_dma, d, [], by simp [detectSimplex], by simp, by simp, fun _ => ⟨rfl, rfl⟩⟩
  · obtain ⟨s, w1, hs⟩ := Read8_total m (bus_master_base + K.ATA_BM_STATUS_REG) d.w
    by_cases hsx : s &&& K.ATA_BM_STATUS_SIMPLEX_DMA ≠ 0 ∧ channel_index ≠ 0
    · by_cases hv : (pl.read_pci_config w1.hw P.PCI_vendor_id 2).1 % 2 ^ 16 ≠ 0x8086
      · refine ⟨false, (read_pci_config pl P.PCI_vendor_id 2 { d with w := w1 }).2,
          [DevEvent.read_pci_config P.PCI_vendor_id 2
            (pl.read_pci_config w1.hw P.PCI_vendor_id 2).1], ?_, ?_, by simp, by simp⟩
        · simp only [detectSimplex, hs, if_true, Option.some_bind, hsx, read_pci_config]
          rw [if_pos hv]
          simpa using hsx
        · simp [read_pci_config]
      · refine ⟨controller_can_dma, (read_pci_config pl P.PCI_vendor_id 2 { d with w := w1 }).2,
          [DevEvent.read_pci_config P.PCI_vendor_id 2
            (pl.read_pci_config w1.hw P.PCI_vendor_id 2).1], ?_, ?_, by simp, by simp⟩
        · simp only [detectSimplex, hs, if_true, Option.some_bind, hsx, read_pci_config]
          rw [if_neg hv]
          simpa using hsx
        · simp [read_pci_config]
    · refine ⟨controller_can_dma, { d with w := w1 }, [], ?_, by simp, by simp, by simp⟩
      simp only [detectSimplex, hs, if_true, Option.some_bind, hsx, if_false]

end AtaAdapter

namespace AtaAdapter

theorem detect_channel_of_resolve {σ : Type} (K : AtaConsts) (P : PciConsts) (m : Machine σ)
    (pl : Platform σ) (controller_can_dma : Bool)
    (command_block_base control_block_base bus_master_base intnum channel_index : Nat)
    (supports_compatibility_mode : Bool) (d d3 : DetectWorld σ) (tgt : Nat × Nat × Nat)
    (can : Bool)
    (hres : resolveChannel P supports_compatibility_mode
      ((pl.read_pci_config d.w.hw P.PCI_class_api 1).1 % 2 ^ 8)
      command_block_base control_block_base intnum channel_index = some tgt)
    (hsim : detectSimplex K P m pl controller_can_dma bus_master_base channel_index
      supports_compatibility_mode
      (setupPciCommand P pl (read_pci_config pl P.PCI_class_api 1 d).2) = some (can, d3)) :
    ata_adapter_detect_channel K P m pl controller_can_dma command_block_base
        control_block_base bus_master_base intnum channel_index supports_compatibility_mode d =
      some ((register_node pl (NodeInfo.channel
          { command_block_base := tgt.1, control_block_base := tgt.2.1, can_dma := can,
            intnum := tgt.2.2, channel_index := channel_index,
            resources := [(tgt.1, 8), (tgt.2.1, 1)] }) d3).1.1,
        (register_node pl (NodeInfo.channel
          { command_block_base := tgt.1, control_block_base := tgt.2.1, can_dma := can,
            intnum := tgt.2.2, channel_index := channel_index,
            resources := [(tgt.1, 8), (tgt.2.1, 1)] }) d3).1.2,
        (register_node pl (NodeInfo.channel
          { command_block_base := tgt.1, control_block_base := tgt.2.1, can_dma := can,
            intnum := tgt.2.2, channel_index := channel_index,
            resources := [(tgt.1, 8), (tgt.2.1, 1)] }) d3).2) := by
  obtain ⟨t1, t2, t3⟩ := tgt
  have hres1 : resolveChannel P supports_compatibility_mode
      ((read_pci_config pl P.PCI_class_api 1 d).1 % 2 ^ 8)
      command_block_base control_block_base intnum channel_index = some (t1, t2, t3) := hres
  unfold ata_adapter_detect_channel
  simp only [hres1, hsim, Option.map_some', ata_adapter_publish_channel]

theorem detect_channel_publishes {σ : Type} (K : AtaConsts) (P : PciConsts) (m : Machine σ)
    (pl : Platform σ) (controller_can_dma : Bool)
    (command_block_base control_block_base bus_master_base intnum channel_index : Nat)
    (supports_compatibility_mode : Bool) (d : DetectWorld σ) (tgt : Nat × Nat × Nat)
    (hres : resolveChannel P supports_compatibility_mode
      ((pl.read_pci_config d.w.hw P.PCI_class_api 1).1 % 2 ^ 8)
      command_block_base control_block_base intnum channel_index = some tgt) :
    ∃ can, PublishesChannel
      (ata_adapter_detect_channel K P m pl controller_can_dma command_block_base
        control_block_base bus_master_base intnum channel_index supports_compatibility_mode d) d
      { command_block_base := tgt.1, control_block_base := tgt.2.1, can_dma := can,
        intnum := tgt.2.2, channel_index := channel_index,
        resources := [(tgt.1, 8), (tgt.2.1, 1)] } ∧
      (supports_compatibility_mode = false → can = controller_can_dma) := by
  obtain ⟨b1, hb1, hn1, -, -⟩ :=
    setupPciCommand_spec P pl (read_pci_config pl P.PCI_class_api 1 d).2
  obtain ⟨can, d3, b2, hsim, hb2, hn2, hcan⟩ := detectSimplex_spec K P m pl controller_can_dma
    bus_master_base channel_index supports_compatibility_mode
    (setupPciCommand P pl (read_pci_config pl P.PCI_class_api 1 d).2)
  refine ⟨can, ⟨_, _, _,
    [DevEvent.read_pci_config P.PCI_class_api 1 (pl.read_pci_config d.w.hw P.PCI_class_api 1).1]
      ++ b1 ++ b2,
    detect_channel_of_resolve K P m pl controller_can_dma command_block_base control_block_base
      bus_master_base intnum channel_index supports_compatibility_mode d d3 tgt can hres hsim,
    ?_, ?_⟩, fun h => (hcan h).1⟩
  · show d3.devlog ++ _ = _
    rw [hb2, hb1]
    simp only [read_pci_config, List.append_assoc]
  · intro info hmem
    simp only [List.mem_append, List.mem_singleton] at hmem
    rcases hmem with (h | h) | h
    · cases h
    · exact hn1 info h
    · exact hn2 info h

theorem detect_channel_error {σ : Type} (K : AtaConsts) (P : PciConsts)
    (m : Machine σ) (pl : Platform σ) (controller_can_dma : Bool)
    (command_block_base control_block_base bus_master_base intnum channel_index : Nat)
    (supports_compatibility_mode : Bool) (d : DetectWorld σ)
    (hmode : supports_compatibility_mode = false ∨
      (channel_index = 0 ∧
        ((pl.read_pci_config d.w.hw P.PCI_class_api 1).1 % 2 ^ 8) &&& P.PCI_ide_primary_native ≠ 0) ∨
      (channel_index = 1 ∧
        ((pl.read_pci_config d.w.hw P.PCI_class_api 1).1 % 2 ^ 8) &&& P.PCI_ide_secondary_native ≠ 0) ∨
      (channel_index ≠ 0 ∧ channel_index ≠ 1))
    (hbad : command_block_base = 0 ∨ control_block_base = 0 ∨ intnum = 0 ∨ intnum = 0xff) :
    ∃ d1, ata_adapter_detect_channel K P m pl controller_can_dma command_block_base
        control_block_base bus_master_base intnum channel_index supports_compatibility_mode d =
        some (status_t.B_ERROR, none, d1) ∧
      d1.devlog = d.devlog ++ [DevEvent.read_pci_config P.PCI_class_api 1
        (pl.read_pci_config d.w.hw P.PCI_class_api 1).1] ∧
      d1.w.trace = d.w.trace := by
  have hres : resolveChannel P supports_compatibility_mode
      ((read_pci_config pl P.PCI_class_api 1 d).1 % 2 ^ 8)
      command_block_base control_block_base intnum channel_index = none := by
    unfold resolveChannel
    have h1 : ¬ (supports_compatibility_mode = true ∧ channel_index = 0 ∧
        ((read_pci_config pl P.PCI_class_api 1 d).1 % 2 ^ 8) &&& P.PCI_ide_primary_native = 0) := by
      rintro ⟨hs, hi, ha⟩
      rcases hmode with h | ⟨_, h⟩ | ⟨h, _⟩ | ⟨h, _⟩
      · rw [hs] at h; cases h
      · exact h ha
      · omega
      · exact h hi
    have h2 : ¬ (supports_compatibility_mode = true ∧ channel_index = 1 ∧
        ((read_pci_config pl P.PCI_class_api 1 d).1 % 2 ^ 8) &&& P.PCI_ide_secondary_native = 0) := by
      rintro ⟨hs, hi, ha⟩
      rcases hmode with h | ⟨h, _⟩ | ⟨_, h⟩ | ⟨_, h⟩
      · rw [hs] at h; cases h
      · omega
      · exact h ha
      · exact h hi
    rw [if_neg h1, if_neg h2]
    by_cases h3 : command_block_base = 0 ∨ control_block_base = 0
    · rw [if_pos h3]
    · rw [if_neg h3]
      have h4 : intnum = 0 ∨ intnum = 0xff := by
        rcases hbad with h | h | h | h
        · exact absurd (Or.inl h) h3
        · exact absurd (Or.inr h) h3
        · exact Or.inl h
        · exact Or.inr h
      rw [if_pos h4]
  refine ⟨(read_pci_config pl P.PCI_class_api 1 d).2, ?_, rfl, rfl⟩
  unfold ata_adapter_detect_channel
  simp only [hres]

/-- C16.  Let `api` be the API byte `ata_adapter_detect_channel` reads.  If the channel
is not resolved to compatibility mode (`supports_compatibility_mode` is false, or the
channel's native-mode bit is set in `api`, or the index is neither 0 nor 1) and
`command_block_base == 0`, `control_block_base == 0`, `intnum == 0` or
`intnum == 0xff`, the function returns `B_ERROR` without storing a node; its only
event is the read of the API byte: `register_node` is not called, nothing is written
to PCI configuration space, and no register is accessed. -/
theorem detect_channel_unconfigured {σ : Type} (K : AtaConsts) (P : PciConsts)
    (m : Machine σ) (pl : Platform σ) (controller_can_dma : Bool)
    (command_block_base control_block_base bus_master_base intnum channel_index : Nat)
    (supports_compatibility_mode : Bool) (d : DetectWorld σ)
    (hmode : supports_compatibility_mode = false ∨
      (channel_index = 0 ∧
        ((pl.read_pci_config d.w.hw P.PCI_class_api 1).1 % 2 ^ 8) &&& P.PCI_ide_primary_native ≠ 0) ∨
      (channel_index = 1 ∧
        ((pl.read_pci_config d.w.hw P.PCI_class_api 1).1 % 2 ^ 8) &&& P.PCI_ide_secondary_native ≠ 0) ∨
      (channel_index ≠ 0 ∧ channel_index ≠ 1))
    (hbad : command_block_base = 0 ∨ control_block_base = 0 ∨ intnum = 0 ∨ intnum = 0xff) :
    ∃ d1, ata_adapter_detect_channel K P m pl controller_can_dma command_block_base
        control_block_base bus_master_base intnum channel_index supports_compatibility_mode d =
        some (status_t.B_ERROR, none, d1) ∧
      d1.devlog = d.devlog ++ [DevEvent.read_pci_config P.PCI_class_api 1
        (pl.read_pci_config d.w.hw P.PCI_class_api 1).1] ∧
      d1.w.trace = d.w.trace :=
  detect_channel_error K P m pl controller_can_dma command_block_base control_block_base
    bus_master_base intnum channel_index supports_compatibility_mode d hmode hbad

/-- Instance of C16: the secondary channel of a native-mode controller with command
and control base 0. -/
theorem detect_channel_unconfigured_witness :
    ∃ d1, ata_adapter_detect_channel haikuConsts haikuPci regFile (pciDevice 0x1106 0x05 0x07)
        true 0 0 0x3000 4 1 true (detect0 0) = some (status_t.B_ERROR, none, d1) ∧
      d1.devlog = (detect0 0).devlog ++ [DevEvent.read_pci_config haikuPci.PCI_class_api 1
        ((pciDevice 0x1106 0x05 0x07).read_pci_config (detect0 0).w.hw haikuPci.PCI_class_api 1).1] ∧
      d1.w.trace = (detect0 0).w.trace :=
  detect_channel_unconfigured haikuConsts haikuPci regFile (pciDevice 0x1106 0x05 0x07)
    true 0 0 0x3000 4 1 true (detect0 0) (by decide) (by decide)

end AtaAdapter

namespace AtaAdapter

/-- C17.  Let `api` be the API byte `ata_adapter_detect_channel` reads.  With
`supports_compatibility_mode`, channel 0 and the primary-native bit of `api` clear, the
published (command base, control base, IRQ) is (0x1f0, 0x3f6, 14) whatever was passed
in; with channel 1 and the secondary-native bit clear it is (0x170, 0x376, 15); in
every other case that passes the configuration check, the published command base and
IRQ are the inputs and the control base is the input plus 2 in 16-bit arithmetic.  In
each case the I/O resources are 8 ports at the published command base and 1 port at
the published control base, and that node is the only one registered. -/
theorem detect_channel_addresses {σ : Type} (K : AtaConsts) (P : PciConsts)
    (m : Machine σ) (pl : Platform σ) (controller_can_dma : Bool)
    (command_block_base control_block_base bus_master_base intnum channel_index : Nat)
    (supports_compatibility_mode : Bool) (d : DetectWorld σ) :
    (supports_compatibility_mode = true ∧ channel_index = 0 ∧
        ((pl.read_pci_config d.w.hw P.PCI_class_api 1).1 % 2 ^ 8) &&& P.PCI_ide_primary_native = 0 →
      ∃ can, PublishesChannel
        (ata_adapter_detect_channel K P m pl controller_can_dma command_block_base
          control_block_base bus_master_base intnum channel_index supports_compatibility_mode d) d
        { command_block_base := 0x1f0, control_block_base := 0x3f6, can_dma := can,
          intnum := 14, channel_index := 0, resources := [(0x1f0, 8), (0x3f6, 1)] }) ∧
    (supports_compatibility_mode = true ∧ channel_index = 1 ∧
        ((pl.read_pci_config d.w.hw P.PCI_class_api 1).1 % 2 ^ 8) &&& P.PCI_ide_secondary_native = 0 →
      ∃ can, PublishesChannel
        (ata_adapter_detect_channel K P m pl controller_can_dma command_block_base
          control_block_base bus_master_base intnum channel_index supports_compatibility_mode d) d
        { command_block_base := 0x170, control_block_base := 0x376, can_dma := can,
          intnum := 15, channel_index := 1, resources := [(0x170, 8), (0x376, 1)] }) ∧
    (¬ (supports_compatibility_mode = true ∧ channel_index = 0 ∧
        ((pl.read_pci_config d.w.hw P.PCI_class_api 1).1 % 2 ^ 8) &&& P.PCI_ide_primary_native = 0) ∧
      ¬ (supports_compatibility_mode = true ∧ channel_index = 1 ∧
        ((pl.read_pci_config d.w.hw P.PCI_class_api 1).1 % 2 ^ 8) &&& P.PCI_ide_secondary_native = 0) ∧
      command_block_base ≠ 0 ∧ control_block_base ≠ 0 ∧ intnum ≠ 0 ∧ intnum ≠ 0xff →
      ∃ can, PublishesChannel
        (ata_adapter_detect_channel K P m pl controller_can_dma command_block_base
          control_block_base bus_master_base intnum channel_index supports_compatibility_mode d) d
        { command_block_base := command_block_base,
          control_block_base := (control_block_base + 2) % 2 ^ 16, can_dma := can,
          intnum := intnum, channel_index := channel_index,
          resources := [(command_block_base, 8), ((control_block_base + 2) % 2 ^ 16, 1)] }) := by
  refine ⟨?_, ?_, ?_⟩
  · rintro ⟨hs, hi, ha⟩
    have hres : resolveChannel P supports_compatibility_mode
        ((pl.read_pci_config d.w.hw P.PCI_class_api 1).1 % 2 ^ 8)
        command_block_base control_block_base intnum channel_index = some (0x1f0, 0x3f6, 14) := by
      unfold resolveChannel
      rw [if_pos ⟨hs, hi, ha⟩]
    obtain ⟨can, hp, _⟩ := detect_channel_publishes K P m pl controller_can_dma
      command_block_base control_block_base bus_master_base intnum channel_index
      supports_compatibility_mode d _ hres
    subst hi
    exact ⟨can, hp⟩
  · rintro ⟨hs, hi, ha⟩
    have hres : resolveChannel P supports_compatibility_mode
        ((pl.read_pci_config d.w.hw P.PCI_class_api 1).1 % 2 ^ 8)
        command_block_base control_block_base intnum channel_index = some (0x170, 0x376, 15) := by
      unfold resolveChannel
      have h1 : ¬ (supports_compatibility_mode = true ∧ channel_index = 0 ∧
          ((pl.read_pci_config d.w.hw P.PCI_class_api 1).1 % 2 ^ 8) &&& P.PCI_ide_primary_native = 0) := by
        rintro ⟨_, h0, _⟩; omega
      rw [if_neg h1, if_pos ⟨hs, hi, ha⟩]
    obtain ⟨can, hp, _⟩ := detect_channel_publishes K P m pl controller_can_dma
      command_block_base control_block_base bus_master_base intnum channel_index
      supports_compatibility_mode d _ hres
    subst hi
    exact ⟨can, hp⟩
  · rintro ⟨h1, h2, hcb, hctl, hi0, hiff⟩
    have hres : resolveChannel P supports_compatibility_mode
        ((pl.read_pci_config d.w.hw P.PCI_class_api 1).1 % 2 ^ 8)
        command_block_base control_block_base intnum channel_index
        = some (command_block_base, (control_block_base + 2) % 2 ^ 16, intnum) := by
      unfold resolveChannel
      rw [if_neg h1, if_neg h2, if_neg (by rintro (h | h); exact hcb h; exact hctl h),
        if_neg (by rintro (h | h); exact hi0 h; exact hiff h)]
    obtain ⟨can, hp, _⟩ := detect_channel_publishes K P m pl controller_can_dma
      command_block_base control_block_base bus_master_base intnum channel_index
      supports_compatibility_mode d _ hres
    exact ⟨can, hp⟩

/-- Instance of C17: channel 0 in native mode at command base 0x1000, control base
0x2000, IRQ 4. -/
theorem detect_channel_addresses_witness :
    ∃ can, PublishesChannel
      (ata_adapter_detect_channel haikuConsts haikuPci regFile (pciDevice 0x1106 0x05 0x07)
        true 0x1000 0x2000 0x3000 4 0 true (detect0 0)) (detect0 0)
      { command_block_base := 0x1000, control_block_base := (0x2000 + 2) % 2 ^ 16,
        can_dma := can, intnum := 4, channel_index := 0,
        resources := [(0x1000, 8), ((0x2000 + 2) % 2 ^ 16, 1)] } :=
  (detect_channel_addresses haikuConsts haikuPci regFile (pciDevice 0x1106 0x05 0x07)
    true 0x1000 0x2000 0x3000 4 0 true (detect0 0)).2.2
    ⟨by decide, by decide, by decide, by decide, by decide, by decide⟩

/-- C15 fails without `supports_compatibility_mode`: the primary channel's bus-master
status reads `0x80` (simplex bit set), the vendor id is `0x1106`, not `0x8086`, and the
call publishes the secondary channel with `controller_can_dma` true; yet the published
can-DMA attribute is true. -/
theorem detect_channel_simplex_counterexample :
    (∃ w1, Read8 regFile (0x3000 + haikuConsts.ATA_BM_STATUS_REG) (detect0 0x80).w =
      some (0x80, w1)) ∧
    0x80 &&& haikuConsts.ATA_BM_STATUS_SIMPLEX_DMA ≠ 0 ∧
    ((pciDevice 0x1106 0x05 0x07).read_pci_config (detect0 0x80).w.hw
      haikuPci.PCI_vendor_id 2).1 ≠ 0x8086 ∧
    PublishesChannel
      (ata_adapter_detect_channel haikuConsts haikuPci regFile (pciDevice 0x1106 0x05 0x07)
        true 0x1000 0x2000 0x3000 4 1 false (detect0 0x80)) (detect0 0x80)
      { command_block_base := 0x1000, control_block_base := 0x2002, can_dma := true,
        intnum := 4, channel_index := 1, resources := [(0x1000, 8), (0x2002, 1)] } := by
  refine ⟨⟨_, rfl⟩, by decide, by decide, ?_⟩
  obtain ⟨can, hp, hcan⟩ := detect_channel_publishes haikuConsts haikuPci regFile
    (pciDevice 0x1106 0x05 0x07) true 0x1000 0x2000 0x3000 4 1 false (detect0 0x80)
    (0x1000, 0x2002, 4) (by decide)
  rw [hcan rfl] at hp
  exact hp

end AtaAdapter

namespace AtaAdapter

/-- C15 as amended.  Let a call of `ata_adapter_detect_channel` with
`supports_compatibility_mode` true publish the secondary channel (index 1) with
`controller_can_dma` true, and let the bus-master status byte `s` it reads from the
primary channel have the simplex bit set.  Then the published can-DMA attribute is
false when the PCI vendor id it reads is not `0x8086` and true when it is `0x8086`. -/
theorem detect_channel_simplex {σ : Type} (K : AtaConsts) (P : PciConsts)
    (m : Machine σ) (pl : Platform σ)
    (command_block_base control_block_base bus_master_base intnum : Nat)
    (d : DetectWorld σ) (tgt : Nat × Nat × Nat) (s : Nat) (w1 : World σ)
    (hres : resolveChannel P true ((pl.read_pci_config d.w.hw P.PCI_class_api 1).1 % 2 ^ 8)
      command_block_base control_block_base intnum 1 = some tgt)
    (hs : Read8 m (bus_master_base + K.ATA_BM_STATUS_REG)
      (setupPciCommand P pl (read_pci_config pl P.PCI_class_api 1 d).2).w = some (s, w1))
    (hsx : s &&& K.ATA_BM_STATUS_SIMPLEX_DMA ≠ 0) :
    PublishesChannel
      (ata_adapter_detect_channel K P m pl true command_block_base control_block_base
        bus_master_base intnum 1 true d) d
      { command_block_base := tgt.1, control_block_base := tgt.2.1,
        can_dma := decide ((pl.read_pci_config w1.hw P.PCI_vendor_id 2).1 % 2 ^ 16 = 0x8086),
        intnum := tgt.2.2, channel_index := 1,
        resources := [(tgt.1, 8), (tgt.2.1, 1)] } := by
  obtain ⟨b1, hb1, hn1, -, -⟩ :=
    setupPciCommand_spec P pl (read_pci_config pl P.PCI_class_api 1 d).2
  have hgen : ∀ d2 : DetectWorld σ,
      Read8 m (bus_master_base + K.ATA_BM_STATUS_REG) d2.w = some (s, w1) →
      detectSimplex K P m pl true bus_master_base 1 true d2 =
        some (decide ((pl.read_pci_config w1.hw P.PCI_vendor_id 2).1 % 2 ^ 16 = 0x8086),
          (read_pci_config pl P.PCI_vendor_id 2 { d2 with w := w1 }).2) := by
    intro d2 h2
    simp only [detectSimplex, h2, if_true, Option.some_bind]
    rw [if_pos ⟨hsx, by decide⟩]
    by_cases hv : (pl.read_pci_config w1.hw P.PCI_vendor_id 2).1 % 65536 = 32902
    · simp [hv, read_pci_config]
    · simp [hv, read_pci_config]
  have hsim := hgen _ hs
  refine ⟨_, _, _,
    [DevEvent.read_pci_config P.PCI_class_api 1 (pl.read_pci_config d.w.hw P.PCI_class_api 1).1]
      ++ b1 ++ [DevEvent.read_pci_config P.PCI_vendor_id 2
        (pl.read_pci_config w1.hw P.PCI_vendor_id 2).1],
    detect_channel_of_resolve K P m pl true command_block_base control_block_base
      bus_master_base intnum 1 true d _ tgt _ hres hsim, ?_, ?_⟩
  · show ((setupPciCommand P pl (read_pci_config pl P.PCI_class_api 1 d).2).devlog ++ _) ++ _ = _
    rw [hb1]
    simp only [read_pci_config, List.append_assoc]
  · intro info hmem
    simp only [List.mem_append, List.mem_singleton] at hmem
    rcases hmem with (h | h) | h
    · cases h
    · exact hn1 info h
    · cases h

/-- Instance of C15 as amended: simplex bit set, vendor `0x1106`, native-mode
secondary channel. -/
theorem detect_channel_simplex_witness :
    ∃ w1 : World (Nat → Nat), PublishesChannel
      (ata_adapter_detect_channel haikuConsts haikuPci regFile (pciDevice 0x1106 0x05 0x07)
        true 0x1000 0x2000 0x3000 4 1 true (detect0 0x80)) (detect0 0x80)
      { command_block_base := ((0x1000, 0x2002, 4) : Nat × Nat × Nat).1,
        control_block_base := ((0x1000, 0x2002, 4) : Nat × Nat × Nat).2.1,
        can_dma := decide (((pciDevice 0x1106 0x05 0x07).read_pci_config w1.hw
          haikuPci.PCI_vendor_id 2).1 % 2 ^ 16 = 0x8086),
        intnum := ((0x1000, 0x2002, 4) : Nat × Nat × Nat).2.2, channel_index := 1,
        resources := [(((0x1000, 0x2002, 4) : Nat × Nat × Nat).1, 8),
          (((0x1000, 0x2002, 4) : Nat × Nat × Nat).2.1, 1)] } :=
  ⟨_, detect_channel_simplex haikuConsts haikuPci regFile (pciDevice 0x1106 0x05 0x07)
    0x1000 0x2000 0x3000 4 (detect0 0x80) (0x1000, 0x2002, 4) 0x80 _
    (by decide) rfl (by decide)⟩

end AtaAdapter

namespace AtaAdapter

theorem filter_isRegister_nil (l : List DevEvent)
    (h : ∀ info, DevEvent.register_node info ∉ l) : l.filter DevEvent.isRegister = [] := by
  rw [List.filter_eq_nil_iff]
  intro e he
  cases e with
  | read_pci_config a b c => simp [DevEvent.isRegister]
  | write_pci_config a b c => simp [DevEvent.isRegister]
  | register_node info => exact absurd he (h info)

theorem resolveChannel_primary (P : PciConsts) (supports_compatibility_mode : Bool)
    (api : Nat) :
    ∃ tgt, resolveChannel P supports_compatibility_mode api 0x1000 0x2000 4 0 = some tgt := by
  unfold resolveChannel
  split_ifs <;> simp_all

/-- C18 fails in compatibility mode: with `supports_compatibility_mode` true and an API
byte 0 (both native bits clear), controller registration succeeds and the probe
returns `B_OK`, but the channel 1 call does not fail: the nodes registered are the
controller, channel 0 at (0x1f0, 0x3f6, 14) and channel 1 at (0x170, 0x376, 15). -/
theorem probe_controller_counterexample :
    ∃ dfin, ata_adapter_probe_controller haikuConsts haikuPci regFile (pciDevice 0x1106 0x00 0x07)
        true 1 0xffff 0x10000 true (detect0 0) = some (status_t.B_OK, dfin) ∧
      dfin.devlog.filter DevEvent.isRegister =
        [DevEvent.register_node (NodeInfo.controller
          { bus_master_base := 0x3000, can_dma := true, dma_alignment := 1,
            dma_boundary := 0xffff, max_sg_block_size := 0x10000, max_sg_count := 512,
            resources := [(0x3000, 16)] }),
         DevEvent.register_node (NodeInfo.channel
          { command_block_base := 0x1f0, control_block_base := 0x3f6, can_dma := true,
            intnum := 14, channel_index := 0, resources := [(0x1f0, 8), (0x3f6, 1)] }),
         DevEvent.register_node (NodeInfo.channel
          { command_block_base := 0x170, control_block_base := 0x376, can_dma := true,
            intnum := 15, channel_index := 1, resources := [(0x170, 8), (0x376, 1)] })] :=
  ⟨_, rfl, rfl⟩

/-- C18 as amended.  Let controller registration succeed (`register_node` returns
`B_OK` and a node), let `d2` be the world after the first `ata_adapter_detect_channel`
call, and let channel 1 not be resolved to compatibility mode
(`supports_compatibility_mode` false, or the secondary-native bit set in the API byte
the second call reads).  Then `ata_adapter_probe_controller` registers the controller
node with bus-master base 0x3000 first; its first channel call is for index 0 with
command 0x1000 / control 0x2000 / IRQ 4 and publishes a node of channel 0; its second
call is for index 1 with command and control base 0 and returns `B_ERROR` after only
reading the API byte; the nodes registered are exactly the controller and channel 0;
and the probe returns `B_OK`. -/
theorem probe_controller_native {σ : Type} (K : AtaConsts) (P : PciConsts)
    (m : Machine σ) (pl : Platform σ) (can_dma : Bool)
    (dma_alignment dma_boundary max_sg_block_size : Nat)
    (supports_compatibility_mode : Bool) (d d2 : DetectWorld σ)
    (n : Nat) (st0 : status_t) (n0 : Option Nat)
    (hreg : (pl.register_node d.w.hw (NodeInfo.controller
      { bus_master_base := 0x3000, can_dma := can_dma, dma_alignment := dma_alignment,
        dma_boundary := dma_boundary, max_sg_block_size := max_sg_block_size,
        max_sg_count := K.ATA_ADAPTER_MAX_SG_COUNT, resources := [(0x3000, 16)] })).1
      = (status_t.B_OK, some n))
    (hc0 : ata_adapter_detect_channel K P m pl can_dma 0x1000 0x2000 0x3000 4 0
      supports_compatibility_mode
      (register_node pl (NodeInfo.controller
        { bus_master_base := 0x3000, can_dma := can_dma, dma_alignment := dma_alignment,
          dma_boundary := dma_boundary, max_sg_block_size := max_sg_block_size,
          max_sg_count := K.ATA_ADAPTER_MAX_SG_COUNT, resources := [(0x3000, 16)] }) d).2
      = some (st0, n0, d2))
    (hnative : supports_compatibility_mode = false ∨
      ((pl.read_pci_config d2.w.hw P.PCI_class_api 1).1 % 2 ^ 8) &&& P.PCI_ide_secondary_native ≠ 0) :
    ∃ dfin node0, ata_adapter_probe_controller K P m pl can_dma dma_alignment dma_boundary
        max_sg_block_size supports_compatibility_mode d = some (status_t.B_OK, dfin) ∧
      node0.channel_index = 0 ∧
      PublishesChannel (some (st0, n0, d2))
        (register_node pl (NodeInfo.controller
          { bus_master_base := 0x3000, can_dma := can_dma, dma_alignment := dma_alignment,
            dma_boundary := dma_boundary, max_sg_block_size := max_sg_block_size,
            max_sg_count := K.ATA_ADAPTER_MAX_SG_COUNT, resources := [(0x3000, 16)] }) d).2
        node0 ∧
      ata_adapter_detect_channel K P m pl can_dma 0 0 0x3000 4 1
        supports_compatibility_mode d2 = some (status_t.B_ERROR, none, dfin) ∧
      dfin.devlog = d2.devlog ++ [DevEvent.read_pci_config P.PCI_class_api 1
        (pl.read_pci_config d2.w.hw P.PCI_class_api 1).1] ∧
      dfin.devlog.filter DevEvent.isRegister = d.devlog.filter DevEvent.isRegister ++
        [DevEvent.register_node (NodeInfo.controller
          { bus_master_base := 0x3000, can_dma := can_dma, dma_alignment := dma_alignment,
            dma_boundary := dma_boundary, max_sg_block_size := max_sg_block_size,
            max_sg_count := K.ATA_ADAPTER_MAX_SG_COUNT, resources := [(0x3000, 16)] }),
         DevEvent.register_node (NodeInfo.channel node0)] := by
  obtain ⟨tgt, hres⟩ := resolveChannel_primary P supports_compatibility_mode
    ((pl.read_pci_config (register_node pl (NodeInfo.controller
      { bus_master_base := 0x3000, can_dma := can_dma, dma_alignment := dma_alignment,
        dma_boundary := dma_boundary, max_sg_block_size := max_sg_block_size,
        max_sg_count := K.ATA_ADAPTER_MAX_SG_COUNT, resources := [(0x3000, 16)] }) d).2.w.hw
      P.PCI_class_api 1).1 % 2 ^ 8)
  obtain ⟨can, hpub, -⟩ := detect_channel_publishes K P m pl can_dma 0x1000 0x2000 0x3000 4 0
    supports_compatibility_mode _ tgt hres
  rw [hc0] at hpub
  obtain ⟨dfin, herr, hlog, -⟩ := detect_channel_error K P m pl can_dma 0 0 0x3000 4 1
    supports_compatibility_mode d2
    (by rcases hnative with h | h
        · exact Or.inl h
        · exact Or.inr (Or.inr (Or.inl ⟨rfl, h⟩)))
    (Or.inl rfl)
  refine ⟨dfin, _, ?_, rfl, hpub, herr, hlog, ?_⟩
  · have hreg1 : (register_node pl (NodeInfo.controller
        { bus_master_base := 0x3000, can_dma := can_dma, dma_alignment := dma_alignment,
          dma_boundary := dma_boundary, max_sg_block_size := max_sg_block_size,
          max_sg_count := K.ATA_ADAPTER_MAX_SG_COUNT, resources := [(0x3000, 16)] }) d).1
        = (status_t.B_OK, some n) := hreg
    simp [ata_adapter_probe_controller, ata_adapter_detect_controller,
      ata_adapter_publish_controller, hreg1, hc0, herr]
  · obtain ⟨st, node, dmid, before, heq, hdev, hfree⟩ := hpub
    simp only [Option.some.injEq, Prod.mk.injEq] at heq
    obtain ⟨-, -, rfl⟩ := heq
    rw [hlog, hdev]
    simp [register_node, List.filter_append, filter_isRegister_nil before hfree,
      DevEvent.isRegister]

end AtaAdapter

namespace AtaAdapter

/-- Instance of C18 as amended: a controller without compatibility mode. -/
theorem probe_controller_native_witness :
    ∃ (d2 : DetectWorld (Nat → Nat)) (st0 : status_t) (n0 : Option Nat),
    ∃ dfin node0, ata_adapter_probe_controller haikuConsts haikuPci regFile
        (pciDevice 0x1106 0x05 0x07) true 1 0xffff 0x10000 false (detect0 0)
        = some (status_t.B_OK, dfin) ∧
      node0.channel_index = 0 ∧
      PublishesChannel (some (st0, n0, d2))
        (register_node (pciDevice 0x1106 0x05 0x07) (NodeInfo.controller
          { bus_master_base := 0x3000, can_dma := true, dma_alignment := 1,
            dma_boundary := 0xffff, max_sg_block_size := 0x10000,
            max_sg_count := haikuConsts.ATA_ADAPTER_MAX_SG_COUNT,
            resources := [(0x3000, 16)] }) (detect0 0)).2
        node0 ∧
      ata_adapter_detect_channel haikuConsts haikuPci regFile (pciDevice 0x1106 0x05 0x07)
        true 0 0 0x3000 4 1 false d2 = some (status_t.B_ERROR, none, dfin) ∧
      dfin.devlog = d2.devlog ++ [DevEvent.read_pci_config haikuPci.PCI_class_api 1
        ((pciDevice 0x1106 0x05 0x07).read_pci_config d2.w.hw haikuPci.PCI_class_api 1).1] ∧
      dfin.devlog.filter DevEvent.isRegister =
        (detect0 0).devlog.filter DevEvent.isRegister ++
        [DevEvent.register_node (NodeInfo.controller
          { bus_master_base := 0x3000, can_dma := true, dma_alignment := 1,
            dma_boundary := 0xffff, max_sg_block_size := 0x10000,
            max_sg_count := haikuConsts.ATA_ADAPTER_MAX_SG_COUNT,
            resources := [(0x3000, 16)] }),
         DevEvent.register_node (NodeInfo.channel node0)] :=
  ⟨_, _, _, probe_controller_native haikuConsts haikuPci regFile (pciDevice 0x1106 0x05 0x07)
    true 1 0xffff 0x10000 false (detect0 0) _ 1 _ _ rfl rfl (Or.inl rfl)⟩

end AtaAdapter

namespace Plic

open AtaAdapter (andNot toInt32)

theorem findCpu_ge (hartId : Nat) : ∀ (l : List Nat) (k : Nat), k ≤ findCpu hartId l k := by
  intro l
  induction l with
  | nil => intro k; exact Nat.le_refl k
  | cons h rest ih =>
    intro k
    unfold findCpu
    split
    · exact Nat.le_refl k
    · exact Nat.le_trans (Nat.le_succ k) (ih (k + 1))

theorem getElem?_zero_of_pos (tbl : List Nat) (h : 0 < tbl.length) :
    tbl[0]? = some (tbl[0]?.getD 0) := by
  cases tbl with
  | nil => simp at h
  | cons a t => simp

theorem lastExternContext_cons (sExternInt hart0 : Nat) (e : interrupt_entry)
    (rest : List interrupt_entry) (k : Nat) :
    lastExternContext sExternInt hart0 (e :: rest) k =
      match lastExternContext sExternInt hart0 rest (k + 1) with
      | some i => some i
      | none => if e.cause = sExternInt ∧ e.hartId = some hart0 then some k else none := by
  rw [lastExternContext]

theorem initContexts_head (sExternInt hart0 : Nat) (others : List Nat) :
    ∀ (entries : List interrupt_entry) (k : Nat) (tbl out : List Nat), 0 < tbl.length →
      initContexts sExternInt (hart0 :: others) entries k tbl = some out →
      out[0]? = some ((lastExternContext sExternInt hart0 entries k).getD (tbl[0]?.getD 0)) := by
  intro entries
  induction entries with
  | nil =>
    intro k tbl out hpos h
    simp only [initContexts, Option.some.injEq] at h
    subst h
    simpa [lastExternContext] using getElem?_zero_of_pos tbl hpos
  | cons e rest ih =>
    intro k tbl out hpos h
    unfold initContexts at h
    cases hh : e.hartId with
    | none => rw [hh] at h; simp at h
    | some hart =>
      rw [hh] at h
      simp only at h
      by_cases hc : e.cause = sExternInt
      · rw [if_pos hc] at h
        by_cases h0 : hart0 = hart
        · have hcpu : findCpu hart (hart0 :: others) 0 = 0 := by
            unfold findCpu; rw [if_pos h0]
          rw [hcpu] at h
          rw [if_pos (by simp), if_pos hpos] at h
          have := ih (k + 1) (tbl.set 0 k) out (by simpa using hpos) h
          rw [this]
          have hset : (tbl.set 0 k)[0]? = some k := by
            simp [List.getElem?_set, hpos]
          rw [lastExternContext_cons]
          cases hl : lastExternContext sExternInt hart0 rest (k + 1) with
          | some i => simp
          | none => simp [hset, hc, hh, h0]
        · have hcpu : 1 ≤ findCpu hart (hart0 :: others) 0 := by
            unfold findCpu; rw [if_neg h0]; exact findCpu_ge hart others 1
          have hspec : lastExternContext sExternInt hart0 (e :: rest) k =
              lastExternContext sExternInt hart0 rest (k + 1) := by
            have hne : ¬ (e.cause = sExternInt ∧ e.hartId = some hart0) := by
              rintro ⟨_, h2⟩
              rw [hh] at h2
              exact h0 (Option.some.inj h2).symm
            rw [lastExternContext_cons]
            cases lastExternContext sExternInt hart0 rest (k + 1) with
            | some i => rfl
            | none => simp [hne]
          rw [hspec]
          by_cases h1 : findCpu hart (hart0 :: others) 0 < (hart0 :: others).length
          · rw [if_pos h1] at h
            by_cases h2 : findCpu hart (hart0 :: others) 0 < tbl.length
            · rw [if_pos h2] at h
              have := ih (k + 1) _ out (by simpa using hpos) h
              rw [this]
              have hset : (tbl.set (findCpu hart (hart0 :: others) 0) k)[0]? = tbl[0]? := by
                rw [List.getElem?_set]
                rw [if_neg (by omega)]
              rw [hset]
            · rw [if_neg h2] at h; simp at h
          · rw [if_neg h1] at h
            exact ih (k + 1) tbl out hpos h
      · rw [if_neg hc] at h
        have hspec : lastExternContext sExternInt hart0 (e :: rest) k =
            lastExternContext sExternInt hart0 rest (k + 1) := by
          have hne : ¬ (e.cause = sExternInt ∧ e.hartId = some hart0) := fun h2 => hc h2.1
          rw [lastExternContext_cons]
          cases lastExternContext sExternInt hart0 rest (k + 1) with
          | some i => rfl
          | none => simp [hne]
        rw [hspec]
        exact ih (k + 1) tbl out hpos h

theorem updateEnable_rows (ctrl : PlicInterruptController) (irq : Int) (f : Nat → Nat → Nat)
    (regs out : PlicRegs) (h : updateEnable ctrl irq f regs = some out) :
    ∃ c, ctrl.fPlicContexts[0]? = some c ∧
      (∀ r, r ≠ c → out.enable[r]? = regs.enable[r]?) ∧
      out.enable.length = regs.enable.length := by
  unfold updateEnable at h
  simp only at h
  split at h
  · simp at h
  · split at h
    · simp at h
    · rename_i c hc
      split at h
      · simp at h
      · split at h
        · simp at h
        · simp only [Option.some.injEq] at h
          subst h
          refine ⟨c, hc, ?_, by simp⟩
          intro r hr
          have : ¬ c = r := fun e => hr e.symm
          simp [List.getElem?_set, this]

/-- C11 fails on a single-hart board whose context 0 is the machine-mode and context 1
the supervisor-mode external interrupt: `InitDriver` records context 1 for CPU 0, and
`EnableIoInterrupt` / `DisableIoInterrupt` change the enable row of context 1 while the
row of context 0 stays as it was. -/
theorem enable_context_counterexample :
    InitDriver_contexts 9 8 [0] entries0 = some ctrl1.fPlicContexts ∧
    EnableIoInterrupt ctrl1 3 regs0 = some { enable := [[0, 0], [13, 0], [0, 0], [0, 0]] } ∧
    DisableIoInterrupt ctrl1 2 regs0 = some { enable := [[0, 0], [1, 0], [0, 0], [0, 0]] } ∧
    regs0.enable = [[0, 0], [5, 0], [0, 0], [0, 0]] := by
  decide

/-- C11 as amended.  For every context table `InitDriver` can build (at least one CPU,
`SMP_MAX_CPUS > 0`), `EnableIoInterrupt` and `DisableIoInterrupt` operate against the
PLIC context recorded for CPU 0, `fPlicContexts[0]`: that is the index of the last
tuple whose cause is the external interrupt and whose hart is CPU 0's, or 0 if there
is none.  No enable row of any other context is changed. -/
theorem enable_uses_cpu0_context (sExternInt SMP_MAX_CPUS hart0 : Nat) (others : List Nat)
    (entries : List interrupt_entry) (ctrl : PlicInterruptController) (irq : Int)
    (regs out : PlicRegs)
    (hmax : 0 < SMP_MAX_CPUS)
    (hinit : InitDriver_contexts sExternInt SMP_MAX_CPUS (hart0 :: others) entries
      = some ctrl.fPlicContexts)
    (hout : EnableIoInterrupt ctrl irq regs = some out ∨
      DisableIoInterrupt ctrl irq regs = some out) :
    ∃ c, ctrl.fPlicContexts[0]? = some c ∧
      c = (lastExternContext sExternInt hart0 entries 0).getD 0 ∧
      (∀ r, r ≠ c → out.enable[r]? = regs.enable[r]?) ∧
      out.enable.length = regs.enable.length := by
  have hhead := initContexts_head sExternInt hart0 others entries 0
    (List.replicate SMP_MAX_CPUS 0) ctrl.fPlicContexts (by simpa using hmax) hinit
  have h0 : (List.replicate SMP_MAX_CPUS 0)[0]?.getD 0 = 0 := by
    cases SMP_MAX_CPUS with
    | zero => simp
    | succ n => simp [List.replicate_succ]
  rw [h0] at hhead
  have hrows : ∃ c, ctrl.fPlicContexts[0]? = some c ∧
      (∀ r, r ≠ c → out.enable[r]? = regs.enable[r]?) ∧
      out.enable.length = regs.enable.length := by
    rcases hout with h | h
    · exact updateEnable_rows ctrl irq _ regs out h
    · exact updateEnable_rows ctrl irq _ regs out h
  obtain ⟨c, hc, hr, hl⟩ := hrows
  refine ⟨c, hc, ?_, hr, hl⟩
  rw [hhead] at hc
  exact (Option.some.inj hc).symm

/-- Instance of C11 as amended: the table of `ctrl1`, line 3 enabled. -/
theorem enable_uses_cpu0_context_witness :
    ∃ c, ctrl1.fPlicContexts[0]? = some c ∧
      c = (lastExternContext 9 0 entries0 0).getD 0 ∧
      (∀ r, r ≠ c → ({ enable := [[0, 0], [13, 0], [0, 0], [0, 0]] } : PlicRegs).enable[r]?
        = regs0.enable[r]?) ∧
      ({ enable := [[0, 0], [13, 0], [0, 0], [0, 0]] } : PlicRegs).enable.length
        = regs0.enable.length :=
  enable_uses_cpu0_context 9 8 0 [] entries0 ctrl1 3 regs0 _ (by decide) (by decide)
    (Or.inl (by decide))

end Plic

namespace AtaAdapter

theorem lastWritten_append_write (offset size v : Nat) (t : List Event) :
    lastWritten offset (t ++ [Event.write size offset v]) = some v := by
  induction t with
  | nil => simp [lastWritten]
  | cons e rest ih => simp [lastWritten, ih]

theorem lastWritten_append_write_ne (offset size o v : Nat) (t : List Event) (h : o ≠ offset) :
    lastWritten offset (t ++ [Event.write size o v]) = lastWritten offset t := by
  induction t with
  | nil => simp [lastWritten, h]
  | cons e rest ih => simp [lastWritten, ih]

theorem lastWritten_append_read (offset size o v : Nat) (t : List Event) :
    lastWritten offset (t ++ [Event.read size o v]) = lastWritten offset t := by
  induction t with
  | nil => simp [lastWritten]
  | cons e rest ih => simp [lastWritten, ih]

theorem or_and_self_right (c s : Nat) : (c ||| s) &&& s = s := by
  apply Nat.eq_of_testBit_eq
  intro j
  rw [Nat.testBit_and, Nat.testBit_or]
  cases c.testBit j <;> cases s.testBit j <;> rfl

theorem andNot_and_self (c s : Nat) : andNot c s &&& s = 0 := by
  apply Nat.eq_of_testBit_eq
  intro j
  rw [Nat.testBit_and, testBit_andNot, Nat.zero_testBit]
  cases c.testBit j <;> cases s.testBit j <;> rfl

/-- C21.  With `START_STOP` a non-zero mask below 256 and the command register distinct
from the status register: `ata_adapter_start_dma` reads the byte `c` from the
bus-master command register, writes `c | START_STOP` to it and sets `dmaing` to true;
`ata_adapter_finish_dma` reads `c`, writes `c & ~START_STOP` and sets `dmaing` to false.
In both, the bits outside `START_STOP` are written back as read, and afterwards `dmaing`
is true exactly if the value last written to the command register has the `START_STOP`
bit set. -/
theorem dmaing_mirrors_start_stop {σ : Type} (K : AtaConsts) (m : Machine σ)
    (channel : ata_adapter_channel_info) (w : World σ)
    (h0 : K.ATA_BM_COMMAND_START_STOP ≠ 0) (h8 : K.ATA_BM_COMMAND_START_STOP < 256)
    (hne : K.ATA_BM_STATUS_REG ≠ K.ATA_BM_COMMAND_REG) :
    (∃ c ch w1, ata_adapter_start_dma K m channel w = some (status_t.B_OK, ch, w1) ∧
      w1.trace = w.trace ++
        [Event.read 1 (channel.bus_master_base + K.ATA_BM_COMMAND_REG) c,
         Event.write 1 (channel.bus_master_base + K.ATA_BM_COMMAND_REG)
           (c ||| K.ATA_BM_COMMAND_START_STOP)] ∧
      ch.dmaing = true ∧
      (∀ j, K.ATA_BM_COMMAND_START_STOP.testBit j = false →
        (c ||| K.ATA_BM_COMMAND_START_STOP).testBit j = c.testBit j) ∧
      ∃ v, lastWritten (channel.bus_master_base + K.ATA_BM_COMMAND_REG) w1.trace = some v ∧
        ch.dmaing = decide (v &&& K.ATA_BM_COMMAND_START_STOP ≠ 0)) ∧
    (∃ s c st ch w1, ata_adapter_finish_dma K m channel w = some (st, ch, w1) ∧
      w1.trace = w.trace ++
        [Event.read 1 (channel.bus_master_base + K.ATA_BM_STATUS_REG) s,
         Event.read 1 (channel.bus_master_base + K.ATA_BM_COMMAND_REG) c,
         Event.write 1 (channel.bus_master_base + K.ATA_BM_COMMAND_REG)
           (andNot c K.ATA_BM_COMMAND_START_STOP),
         Event.write 1 (channel.bus_master_base + K.ATA_BM_STATUS_REG)
           ((s ||| K.ATA_BM_STATUS_ERROR) % 256)] ∧
      ch.dmaing = false ∧
      (∀ j, K.ATA_BM_COMMAND_START_STOP.testBit j = false →
        (andNot c K.ATA_BM_COMMAND_START_STOP).testBit j = c.testBit j) ∧
      ∃ v, lastWritten (channel.bus_master_base + K.ATA_BM_COMMAND_REG) w1.trace = some v ∧
        ch.dmaing = decide (v &&& K.ATA_BM_COMMAND_START_STOP ≠ 0)) := by
  constructor
  · obtain ⟨c, wa, hr⟩ := Read8_total m (channel.bus_master_base + K.ATA_BM_COMMAND_REG) w
    obtain ⟨hta, hc⟩ := Read8_some hr
    have hlt : c ||| K.ATA_BM_COMMAND_START_STOP < 256 :=
      Nat.or_lt_two_pow (show c < 2 ^ 8 from hc) (show _ < 2 ^ 8 from h8)
    obtain ⟨wb, hwr⟩ := Write8_total m (channel.bus_master_base + K.ATA_BM_COMMAND_REG)
      ((c ||| K.ATA_BM_COMMAND_START_STOP) % 256) wa
    have htb := Write8_some hwr
    rw [Nat.mod_mod, Nat.mod_eq_of_lt hlt] at htb
    refine ⟨c, { channel with dmaing := true }, wb, ?_, ?_, rfl, ?_, ?_⟩
    · simp [ata_adapter_start_dma, hr, hwr]
    · rw [htb, hta]; simp
    · intro j hj
      rw [Nat.testBit_or, hj, Bool.or_false]
    · refine ⟨c ||| K.ATA_BM_COMMAND_START_STOP, ?_, ?_⟩
      · rw [htb, lastWritten_append_write]
      · rw [or_and_self_right]
        simp [h0]
  · obtain ⟨s, wa, hrs⟩ := Read8_total m (channel.bus_master_base + K.ATA_BM_STATUS_REG) w
    obtain ⟨hta, _⟩ := Read8_some hrs
    obtain ⟨c, wb, hrc⟩ := Read8_total m (channel.bus_master_base + K.ATA_BM_COMMAND_REG) wa
    obtain ⟨htb, hc⟩ := Read8_some hrc
    have hlt : andNot c K.ATA_BM_COMMAND_START_STOP < 256 :=
      lt_of_le_of_lt (andNot_le _ _) hc
    obtain ⟨wc, hwc⟩ := Write8_total m (channel.bus_master_base + K.ATA_BM_COMMAND_REG)
      (andNot c K.ATA_BM_COMMAND_START_STOP) wb
    have htc := Write8_some hwc
    rw [Nat.mod_eq_of_lt hlt] at htc
    obtain ⟨wd, hwd⟩ := Write8_total m (channel.bus_master_base + K.ATA_BM_STATUS_REG)
      (s ||| K.ATA_BM_STATUS_ERROR) wc
    have htd := Write8_some hwd
    have hport : channel.bus_master_base + K.ATA_BM_STATUS_REG ≠
        channel.bus_master_base + K.ATA_BM_COMMAND_REG := by omega
    refine ⟨s, c, if (s &&& K.ATA_BM_STATUS_ACTIVE) ≠ 0 then status_t.B_DEV_DATA_OVERRUN
      else if (s &&& K.ATA_BM_STATUS_ERROR) ≠ 0 then status_t.B_ERROR
      else status_t.B_OK, { channel with dmaing := false }, wd, ?_, ?_, rfl, ?_, ?_⟩
    · simp [ata_adapter_finish_dma, hrs, hrc, hwc, hwd]
    · rw [htd, htc, htb, hta]; simp
    · intro j hj
      rw [testBit_andNot, hj]; simp
    · refine ⟨andNot c K.ATA_BM_COMMAND_START_STOP, ?_, ?_⟩
      · rw [htd, lastWritten_append_write_ne _ _ _ _ _ hport, htc, lastWritten_append_write]
      · rw [andNot_and_self]
        simp

/-- Instance of C21: `channel0` with the Haiku constants on the register file. -/
theorem dmaing_mirrors_start_stop_witness :
    (∃ c ch w1, ata_adapter_start_dma haikuConsts regFile channel0 (world0 0) =
        some (status_t.B_OK, ch, w1) ∧
      w1.trace = (world0 0).trace ++
        [Event.read 1 (channel0.bus_master_base + haikuConsts.ATA_BM_COMMAND_REG) c,
         Event.write 1 (channel0.bus_master_base + haikuConsts.ATA_BM_COMMAND_REG)
           (c ||| haikuConsts.ATA_BM_COMMAND_START_STOP)] ∧
      ch.dmaing = true ∧
      (∀ j, haikuConsts.ATA_BM_COMMAND_START_STOP.testBit j = false →
        (c ||| haikuConsts.ATA_BM_COMMAND_START_STOP).testBit j = c.testBit j) ∧
      ∃ v, lastWritten (channel0.bus_master_base + haikuConsts.ATA_BM_COMMAND_REG) w1.trace =
          some v ∧
        ch.dmaing = decide (v &&& haikuConsts.ATA_BM_COMMAND_START_STOP ≠ 0)) ∧
    (∃ s c st ch w1, ata_adapter_finish_dma haikuConsts regFile channel0 (world0 0) =
        some (st, ch, w1) ∧
      w1.trace = (world0 0).trace ++
        [Event.read 1 (channel0.bus_master_base + haikuConsts.ATA_BM_STATUS_REG) s,
         Event.read 1 (channel0.bus_master_base + haikuConsts.ATA_BM_COMMAND_REG) c,
         Event.write 1 (channel0.bus_master_base + haikuConsts.ATA_BM_COMMAND_REG)
           (andNot c haikuConsts.ATA_BM_COMMAND_START_STOP),
         Event.write 1 (channel0.bus_master_base + haikuConsts.ATA_BM_STATUS_REG)
           ((s ||| haikuConsts.ATA_BM_STATUS_ERROR) % 256)] ∧
      ch.dmaing = false ∧
      (∀ j, haikuConsts.ATA_BM_COMMAND_START_STOP.testBit j = false →
        (andNot c haikuConsts.ATA_BM_COMMAND_START_STOP).testBit j = c.testBit j) ∧
      ∃ v, lastWritten (channel0.bus_master_base + haikuConsts.ATA_BM_COMMAND_REG) w1.trace =
          some v ∧
        ch.dmaing = decide (v &&& haikuConsts.ATA_BM_COMMAND_START_STOP ≠ 0)) :=
  dmaing_mirrors_start_stop haikuConsts regFile channel0 (world0 0)
    (by decide) (by decide) (by decide)

end AtaAdapter

namespace AtaAdapter

theorem Write16_eq {σ : Type} (m : Machine σ) (offset val : Nat) (w : World σ) :
    Write16 m offset val w =
      some { ensureMapped m w with
          hw := m.store (ensureMapped m w).hw 2 (mmioAddress (ensureMapped m w).sMappedRegs offset) (val % 2 ^ 16),
          trace := (ensureMapped m w).trace ++ [Event.write 2 offset (val % 2 ^ 16)] } := by
  have h : val % 4294967296 % 65536 = val % 65536 := by omega
  simp [Write16, MmioOp, h]

theorem Read16_eq {σ : Type} (m : Machine σ) (offset : Nat) (w : World σ) :
    Read16 m offset w =
      some ((m.load (ensureMapped m w).hw 2 (mmioAddress (ensureMapped m w).sMappedRegs offset)).1 % 2 ^ 16,
        { ensureMapped m w with
          hw := (m.load (ensureMapped m w).hw 2 (mmioAddress (ensureMapped m w).sMappedRegs offset)).2,
          trace := (ensureMapped m w).trace ++ [Event.read 2 offset
            ((m.load (ensureMapped m w).hw 2 (mmioAddress (ensureMapped m w).sMappedRegs offset)).1 % 2 ^ 16)] }) := by
  simp [Read16, MmioOp]

theorem Write16_some {σ : Type} {m : Machine σ} {offset val : Nat} {w w1 : World σ}
    (h : Write16 m offset val w = some w1) :
    w1.trace = w.trace ++ [Event.write 2 offset (val % 65536)] := by
  rw [Write16_eq] at h
  simp only [Option.some.injEq] at h
  subst h
  simp [ensureMapped_trace]

theorem Read16_some {σ : Type} {m : Machine σ} {offset v : Nat} {w w1 : World σ}
    (h : Read16 m offset w = some (v, w1)) :
    w1.trace = w.trace ++ [Event.read 2 offset v] ∧ v < 65536 := by
  rw [Read16_eq] at h
  simp only [Option.some.injEq, Prod.mk.injEq] at h
  obtain ⟨hv, hw⟩ := h
  subst hw
  subst hv
  refine ⟨?_, ?_⟩
  · simp [ensureMapped_trace]
  · exact Nat.mod_lt _ (by norm_num)

theorem Read16_total {σ : Type} (m : Machine σ) (offset : Nat) (w : World σ) :
    ∃ v w1, Read16 m offset w = some (v, w1) := ⟨_, _, Read16_eq m offset w⟩

theorem Write16_total {σ : Type} (m : Machine σ) (offset val : Nat) (w : World σ) :
    ∃ w1, Write16 m offset val w = some w1 := ⟨_, Write16_eq m offset val w⟩

theorem write_pio_loop16_spec {σ : Type} (m : Machine σ) (ioaddr : Nat) :
    ∀ (n : Nat) (data : List Nat) (w : World σ), n ≤ data.length →
      ∃ w1, write_pio_loop16 m ioaddr n data w = some w1 ∧
        w1.trace = w.trace ++ (data.take n).map (fun d => Event.write 2 ioaddr (d % 65536)) := by
  intro n
  induction n with
  | zero => intro data w _; exact ⟨w, by simp [write_pio_loop16]⟩
  | succ n ih =>
    intro data w hlen
    cases data with
    | nil => simp at hlen
    | cons d rest =>
      obtain ⟨wa, hwa⟩ := Write16_total m ioaddr d w
      have hta := Write16_some hwa
      obtain ⟨w1, hw1, ht1⟩ := ih rest wa (by simpa using hlen)
      refine ⟨w1, ?_, ?_⟩
      · simp [write_pio_loop16, hwa, hw1]
      · rw [ht1, hta]; simp

theorem read_pio_loop16_spec {σ : Type} (m : Machine σ) (ioaddr : Nat) :
    ∀ (n : Nat) (data : List Nat) (w : World σ), n ≤ data.length →
      ∃ vals w1, read_pio_loop16 m ioaddr n data w = some (vals ++ data.drop n, w1) ∧
        vals.length = n ∧
        w1.trace = w.trace ++ vals.map (fun v => Event.read 2 ioaddr v) := by
  intro n
  induction n with
  | zero => intro data w _; exact ⟨[], w, by simp [read_pio_loop16]⟩
  | succ n ih =>
    intro data w hlen
    cases data with
    | nil => simp at hlen
    | cons d rest =>
      obtain ⟨v, wa, hra⟩ := Read16_total m ioaddr w
      obtain ⟨hta, _⟩ := Read16_some hra
      obtain ⟨vals, w1, hw1, hl, ht1⟩ := ih rest wa (by simpa using hlen)
      refine ⟨v :: vals, w1, ?_, by simp [hl], ?_⟩
      · simp [read_pio_loop16, hra, hw1]
      · rw [ht1, hta]; simp

/-- C22.  On a channel that is not lost, with a buffer of at least `max(count, 0)` words
(`count.toNat`), for both values of `force_16bit`: `ata_adapter_write_pio` returns
`B_OK` after exactly `max(count, 0)` accesses, the 16-bit writes of `data[0]`,
`data[1]`, ... in order to the port `command_block_base`; `ata_adapter_read_pio`
returns `B_OK` after exactly `max(count, 0)` accesses, 16-bit reads of that port, whose
values are stored to `data[0]`, `data[1]`, ... in order, the rest of the buffer being
unchanged; and both are the plain 16-bit loop whatever `force_16bit` is. -/
theorem pio_always_16bit {σ : Type} (m : Machine σ) (channel : ata_adapter_channel_info)
    (data : List Nat) (count : Int) (force_16bit : Bool) (w : World σ)
    (hlost : channel.lost = 0) (hbuf : (max count 0).toNat ≤ data.length) :
    (∃ w1, ata_adapter_write_pio m channel data count force_16bit w =
        some (status_t.B_OK, w1) ∧
      w1.trace = w.trace ++ (data.take (max count 0).toNat).map
        (fun d => Event.write 2 channel.command_block_base (d % 2 ^ 16))) ∧
    (∃ vals w1, ata_adapter_read_pio m channel data count force_16bit w =
        some (status_t.B_OK, vals ++ data.drop (max count 0).toNat, w1) ∧
      vals.length = (max count 0).toNat ∧
      w1.trace = w.trace ++ vals.map (fun v => Event.read 2 channel.command_block_base v)) ∧
    ata_adapter_write_pio m channel data count force_16bit w =
      (write_pio_loop16 m channel.command_block_base (max count 0).toNat data w).map
        (fun w1 => (status_t.B_OK, w1)) ∧
    ata_adapter_read_pio m channel data count force_16bit w =
      (read_pio_loop16 m channel.command_block_base (max count 0).toNat data w).map
        (fun p => (status_t.B_OK, p.1, p.2)) := by
  have hmax : (max count 0).toNat = count.toNat := by
    rcases le_total count 0 with h | h
    · rw [max_eq_right h]; simp [Int.toNat_of_nonpos h]
    · rw [max_eq_left h]
  rw [hmax] at hbuf ⊢
  obtain ⟨w1, hw1, ht1⟩ := write_pio_loop16_spec m channel.command_block_base count.toNat data w hbuf
  obtain ⟨vals, w2, hw2, hl2, ht2⟩ :=
    read_pio_loop16_spec m channel.command_block_base count.toNat data w hbuf
  have hwr : ata_adapter_write_pio m channel data count force_16bit w =
      (write_pio_loop16 m channel.command_block_base count.toNat data w).map
        (fun w1 => (status_t.B_OK, w1)) := by
    simp [ata_adapter_write_pio, hlost]
  have hrd : ata_adapter_read_pio m channel data count force_16bit w =
      (read_pio_loop16 m channel.command_block_base count.toNat data w).map
        (fun p => (status_t.B_OK, p.1, p.2)) := by
    simp [ata_adapter_read_pio, hlost]
  refine ⟨⟨w1, ?_, ?_⟩, ⟨vals, w2, ?_, hl2, ht2⟩, hwr, hrd⟩
  · rw [hwr, hw1]; rfl
  · simpa using ht1
  · rw [hrd, hw2]; rfl

/-- Instance of C22: an even count with `force_16bit` false, where the mask test alone
would choose the 32-bit loop. -/
theorem pio_always_16bit_witness :
    (∃ w1, ata_adapter_write_pio regFile channel0 data4 4 false (world0 0) =
        some (status_t.B_OK, w1) ∧
      w1.trace = (world0 0).trace ++ (data4.take (max (4 : Int) 0).toNat).map
        (fun d => Event.write 2 channel0.command_block_base (d % 2 ^ 16))) ∧
    (∃ vals w1, ata_adapter_read_pio regFile channel0 data4 4 false (world0 0) =
        some (status_t.B_OK, vals ++ data4.drop (max (4 : Int) 0).toNat, w1) ∧
      vals.length = (max (4 : Int) 0).toNat ∧
      w1.trace = (world0 0).trace ++
        vals.map (fun v => Event.read 2 channel0.command_block_base v)) ∧
    ata_adapter_write_pio regFile channel0 data4 4 false (world0 0) =
      (write_pio_loop16 regFile channel0.command_block_base (max (4 : Int) 0).toNat data4
        (world0 0)).map (fun w1 => (status_t.B_OK, w1)) ∧
    ata_adapter_read_pio regFile channel0 data4 4 false (world0 0) =
      (read_pio_loop16 regFile channel0.command_block_base (max (4 : Int) 0).toNat data4
        (world0 0)).map (fun p => (status_t.B_OK, p.1, p.2)) :=
  pio_always_16bit regFile channel0 data4 4 false (world0 0) rfl (by decide)

end AtaAdapter

namespace AtaAdapter

theorem ensureMapped_logged_log {σ : Type} (m : Machine σ) (w : World (σ × List Access)) :
    (ensureMapped (logged m) w).hw.2 = w.hw.2 := by
  unfold ensureMapped; split <;> rfl

theorem mmioAddress_eq (base offset : Nat) (h1 : 0x1000 ≤ base + offset)
    (h2 : base + offset < 2 ^ 64 + 0x1000) : mmioAddress base offset = base + offset - 0x1000 := by
  unfold mmioAddress
  omega

/-- C23 fails as stated: with the window mapped at `0x10000`, `Read8(0x1000)` makes its
one access at address `0x10000`, the start of the window, not at `0x10000 + 0x1000`. -/
theorem mmio_address_counterexample :
    ∃ v w1, Read8 recorder 0x1000 recorder0 = some (v, w1) ∧ w1.sMappedRegs = 0x10000 ∧
      w1.hw.2 = [⟨false, 1, 0x10000⟩] ∧
      w1.hw.2 ≠ [⟨false, 1, w1.sMappedRegs + 0x1000⟩] :=
  ⟨_, _, rfl, rfl, rfl, by decide⟩

/-- C23 as amended.  For every environment, offset and value, each of `Read8`, `Read16`,
`Read32`, `Write8`, `Write16`, `Write32` returns after exactly one access, of its width
(1, 2, 4 bytes), at the address `base + offset - 0x1000` (`mmioAddress`: 64-bit pointer
arithmetic), where `base` is the start of the mapped register window (`sMappedRegs`
after the lazy mapping); the window stays mapped at `base`. -/
theorem mmio_access_address {σ : Type} (m : Machine σ) (offset val : Nat)
    (w : World (σ × List Access)) :
    (∃ v w1, Read8 (logged m) offset w = some (v, w1) ∧
      w1.sMappedRegs = (ensureMapped (logged m) w).sMappedRegs ∧
      w1.hw.2 = w.hw.2 ++
        [⟨false, 1, mmioAddress (ensureMapped (logged m) w).sMappedRegs offset⟩]) ∧
    (∃ v w1, Read16 (logged m) offset w = some (v, w1) ∧
      w1.sMappedRegs = (ensureMapped (logged m) w).sMappedRegs ∧
      w1.hw.2 = w.hw.2 ++
        [⟨false, 2, mmioAddress (ensureMapped (logged m) w).sMappedRegs offset⟩]) ∧
    (∃ v w1, Read32 (logged m) offset w = some (v, w1) ∧
      w1.sMappedRegs = (ensureMapped (logged m) w).sMappedRegs ∧
      w1.hw.2 = w.hw.2 ++
        [⟨false, 4, mmioAddress (ensureMapped (logged m) w).sMappedRegs offset⟩]) ∧
    (∃ w1, Write8 (logged m) offset val w = some w1 ∧
      w1.sMappedRegs = (ensureMapped (logged m) w).sMappedRegs ∧
      w1.hw.2 = w.hw.2 ++
        [⟨true, 1, mmioAddress (ensureMapped (logged m) w).sMappedRegs offset⟩]) ∧
    (∃ w1, Write16 (logged m) offset val w = some w1 ∧
      w1.sMappedRegs = (ensureMapped (logged m) w).sMappedRegs ∧
      w1.hw.2 = w.hw.2 ++
        [⟨true, 2, mmioAddress (ensureMapped (logged m) w).sMappedRegs offset⟩]) ∧
    (∃ w1, Write32 (logged m) offset val w = some w1 ∧
      w1.sMappedRegs = (ensureMapped (logged m) w).sMappedRegs ∧
      w1.hw.2 = w.hw.2 ++
        [⟨true, 4, mmioAddress (ensureMapped (logged m) w).sMappedRegs offset⟩]) ∧
    (0x1000 ≤ (ensureMapped (logged m) w).sMappedRegs + offset →
      (ensureMapped (logged m) w).sMappedRegs + offset < 2 ^ 64 + 0x1000 →
      mmioAddress (ensureMapped (logged m) w).sMappedRegs offset =
        (ensureMapped (logged m) w).sMappedRegs + offset - 0x1000) := by
  have hlog := ensureMapped_logged_log m w
  refine ⟨⟨_, _, Read8_eq _ _ _, rfl, ?_⟩, ⟨_, _, Read16_eq _ _ _, rfl, ?_⟩,
    ⟨_, _, Read32_eq _ _ _, rfl, ?_⟩, ⟨_, Write8_eq _ _ _ _, rfl, ?_⟩,
    ⟨_, Write16_eq _ _ _ _, rfl, ?_⟩, ⟨_, Write32_eq _ _ _ _, rfl, ?_⟩,
    mmioAddress_eq _ _⟩ <;>
  simp [logged, ← hlog]

/-- Instance of C23 as amended: port `0x3004` on the logging environment, window at
`0x10000`. -/
theorem mmio_access_address_witness :
    mmioAddress (ensureMapped (logged regFile) { hw := (fun _ => 0, []), sMappedRegs := 0x10000, trace := [] }).sMappedRegs 0x3004 =
      0x10000 + 0x3004 - 0x1000 :=
  (mmio_access_address regFile 0x3004 7
    { hw := (fun _ => 0, []), sMappedRegs := 0x10000, trace := [] }).2.2.2.2.2.2
    (by decide) (by decide)

theorem MmioOpOutcome_panicked {σ : Type} (m : Machine σ) (offset val size : Nat)
    (isWrite : Bool) (w : World σ) (h1 : size ≠ 1) (h2 : size ≠ 2) (h4 : size ≠ 4) :
    MmioOpOutcome m offset val size isWrite w = MmioOutcome.panicked (ensureMapped m w) := by
  unfold MmioOpOutcome
  cases isWrite
  · simp only [Bool.not_false, if_true]
  · simp only [Bool.not_true, Bool.false_eq_true, if_false]

theorem MmioOp_none {σ : Type} (m : Machine σ) (offset val size : Nat)
    (isWrite : Bool) (w : World σ) (h1 : size ≠ 1) (h2 : size ≠ 2) (h4 : size ≠ 4) :
    MmioOp m offset val size isWrite w = none := by
  unfold MmioOp
  cases isWrite
  · simp only [Bool.not_false, if_true]
  · simp only [Bool.not_true, Bool.false_eq_true, if_false]

theorem MmioOp_eq_outcome {σ : Type} (m : Machine σ) (offset val size : Nat) (isWrite : Bool)
    (w : World σ) :
    MmioOp m offset val size isWrite w = (MmioOpOutcome m offset val size isWrite w).toOption := by
  by_cases h1 : size = 1
  · subst h1; cases isWrite <;> rfl
  by_cases h2 : size = 2
  · subst h2; cases isWrite <;> rfl
  by_cases h4 : size = 4
  · subst h4; cases isWrite <;> rfl
  rw [MmioOp_none m offset val size isWrite w h1 h2 h4,
    MmioOpOutcome_panicked m offset val size isWrite w h1 h2 h4]
  rfl

/-- C24.  `MmioOp` called with a size other than 1, 2 and 4 ends in `panic`, for a read
and for a write, having made no access to the device (the access log and the trace are
as before the call; only the lazy mapping may have happened); with size 1, 2 or 4 it
returns, and so does each of the six wrappers, for every offset and value. -/
theorem MmioOp_illegal_size {σ : Type} (m : Machine σ) (offset val : Nat) (isWrite : Bool)
    (w : World (σ × List Access)) :
    (∀ size, size ≠ 1 → size ≠ 2 → size ≠ 4 →
      MmioOpOutcome (logged m) offset val size isWrite w =
        MmioOutcome.panicked (ensureMapped (logged m) w) ∧
      (ensureMapped (logged m) w).hw.2 = w.hw.2 ∧
      (ensureMapped (logged m) w).trace = w.trace ∧
      MmioOp (logged m) offset val size isWrite w = none) ∧
    (∀ size, size = 1 ∨ size = 2 ∨ size = 4 →
      ∃ v w1, MmioOpOutcome (logged m) offset val size isWrite w = MmioOutcome.returned v w1) ∧
    Read8 (logged m) offset w ≠ none ∧ Read16 (logged m) offset w ≠ none ∧
    Read32 (logged m) offset w ≠ none ∧ Write8 (logged m) offset val w ≠ none ∧
    Write16 (logged m) offset val w ≠ none ∧ Write32 (logged m) offset val w ≠ none := by
  refine ⟨?_, ?_, ?_, ?_, ?_, ?_, ?_, ?_⟩
  · intro size h1 h2 h4
    exact ⟨MmioOpOutcome_panicked _ offset val size isWrite w h1 h2 h4,
      ensureMapped_logged_log m w, ensureMapped_trace _ w,
      MmioOp_none _ offset val size isWrite w h1 h2 h4⟩
  · intro size hs
    rcases hs with h | h | h <;> subst h <;> cases isWrite <;> exact ⟨_, _, rfl⟩
  · rw [Read8_eq]; simp
  · rw [Read16_eq]; simp
  · rw [Read32_eq]; simp
  · rw [Write8_eq]; simp
  · rw [Write16_eq]; simp
  · rw [Write32_eq]; simp

/-- Instance of C24: a read of size 3 on the logging environment panics with an empty
access log. -/
theorem MmioOp_illegal_size_witness :
    MmioOpOutcome recorder 0x1000 0 3 false recorder0 =
        MmioOutcome.panicked (ensureMapped recorder recorder0) ∧
      (ensureMapped recorder recorder0).hw.2 = recorder0.hw.2 ∧
      (ensureMapped recorder recorder0).trace = recorder0.trace ∧
      MmioOp recorder 0x1000 0 3 false recorder0 = none :=
  (MmioOp_illegal_size _ 0x1000 0 false recorder0).1 3 (by decide) (by decide) (by decide)

end AtaAdapter

namespace Plic

open AtaAdapter (andNot toInt32)

/-- C25 fails for `fIrqCount = 0xffffffff`: line 1 satisfies `1 ≤ irq ≤ fIrqCount`, and
`GetVector` returns `B_BAD_INDEX` and leaves `vector` (here 77) unchanged, because
`fIrqCount + 1` is 0 in `uint32`. -/
theorem GetVector_counterexample :
    (1 ≤ 1 ∧ 1 ≤ ctrlMax.fIrqCount) ∧
      GetVector ctrlMax 1 77 = (status_t.B_BAD_INDEX, 77) := by
  decide

/-- C25 as amended.  For every `fIrqCount` below `0xffffffff` and every `irq`:
`GetVector` returns `B_OK` exactly when `1 ≤ irq ≤ fIrqCount`, and then sets `vector` to
`irq`; otherwise it returns `B_BAD_INDEX` and leaves `vector` unchanged. -/
theorem GetVector_spec (ctrl : PlicInterruptController) (irq : Nat) (vector : Int)
    (hn : ctrl.fIrqCount < 2 ^ 32 - 1) :
    ((GetVector ctrl irq vector).1 = status_t.B_OK ↔ (1 ≤ irq ∧ irq ≤ ctrl.fIrqCount)) ∧
    (1 ≤ irq ∧ irq ≤ ctrl.fIrqCount →
      GetVector ctrl irq vector = (status_t.B_OK, (irq : Int))) ∧
    (¬ (1 ≤ irq ∧ irq ≤ ctrl.fIrqCount) →
      GetVector ctrl irq vector = (status_t.B_BAD_INDEX, vector)) := by
  have hb : (ctrl.fIrqCount + 1) % 2 ^ 32 = ctrl.fIrqCount + 1 := by omega
  have hok : 1 ≤ irq ∧ irq ≤ ctrl.fIrqCount →
      GetVector ctrl irq vector = (status_t.B_OK, (irq : Int)) := by
    intro h
    have h64 : irq % 2 ^ 64 = irq := by omega
    have h63 : irq < 2 ^ 63 := by omega
    unfold GetVector toInt64
    rw [hb, if_neg (by omega), h64, if_pos h63]
  have hbad : ¬ (1 ≤ irq ∧ irq ≤ ctrl.fIrqCount) →
      GetVector ctrl irq vector = (status_t.B_BAD_INDEX, vector) := by
    intro h
    unfold GetVector
    rw [hb, if_pos (by omega)]
  refine ⟨⟨fun h => ?_, fun h => by rw [hok h]⟩, hok, hbad⟩
  by_contra hc
  rw [hbad hc] at h
  cases h

/-- Instance of C25 as amended: ten lines, `irq = 10`. -/
theorem GetVector_spec_witness :
    ((GetVector ctrl0 10 77).1 = status_t.B_OK ↔ (1 ≤ 10 ∧ 10 ≤ ctrl0.fIrqCount)) ∧
    (1 ≤ 10 ∧ 10 ≤ ctrl0.fIrqCount →
      GetVector ctrl0 10 77 = (status_t.B_OK, ((10 : Nat) : Int))) ∧
    (¬ (1 ≤ 10 ∧ 10 ≤ ctrl0.fIrqCount) →
      GetVector ctrl0 10 77 = (status_t.B_BAD_INDEX, 77)) :=
  GetVector_spec ctrl0 10 77 (by decide)

theorem thresholdLoop_some (ctx : List Nat) :
    ∀ (n cpu : Nat) (t t1 : List InitEvent), thresholdLoop ctx n cpu t = some t1 →
      (∀ c, cpu ≤ c → c < cpu + n →
        ∃ x, ctx[c]? = some x ∧ InitEvent.writePriorityThreshold x 0 ∈ t1) ∧
      (∀ e ∈ t, e ∈ t1) ∧
      (∀ irq v, InitEvent.writePriority irq v ∈ t1 → InitEvent.writePriority irq v ∈ t) := by
  intro n
  induction n with
  | zero =>
    intro cpu t t1 h
    simp only [thresholdLoop, Option.some.injEq] at h
    subst h
    exact ⟨fun c h1 h2 => by omega, fun e he => he, fun _ _ h => h⟩
  | succ n ih =>
    intro cpu t t1 h
    unfold thresholdLoop at h
    cases hx : ctx[cpu]? with
    | none => rw [hx] at h; simp at h
    | some x =>
      rw [hx] at h
      simp only at h
      obtain ⟨h1, h2, h3⟩ := ih (cpu + 1) _ t1 h
      refine ⟨fun c hc1 hc2 => ?_, fun e he => h2 e (by simp [he]), fun irq v hv => ?_⟩
      · rcases Nat.eq_or_lt_of_le hc1 with heq | hlt
        · subst heq
          exact ⟨x, hx, h2 _ (by simp)⟩
        · exact h1 c (by omega) (by omega)
      · have := h3 irq v hv
        simpa using this

theorem priorityLoop_mem :
    ∀ (n irq : Nat) (t : List InitEvent) (i v : Nat),
      InitEvent.writePriority i v ∈ priorityLoop n irq t ↔
        (InitEvent.writePriority i v ∈ t ∨ (irq ≤ i ∧ i < irq + n ∧ v = 1)) := by
  intro n
  induction n with
  | zero =>
    intro irq t i v
    simp only [priorityLoop]
    constructor
    · exact fun h => Or.inl h
    · rintro (h | h)
      · exact h
      · omega
  | succ n ih =>
    intro irq t i v
    unfold priorityLoop
    rw [ih]
    simp only [List.mem_append, List.mem_singleton, InitEvent.writePriority.injEq]
    constructor
    · rintro ((h | ⟨h1, h2⟩) | ⟨h1, h2, h3⟩)
      · exact Or.inl h
      · exact Or.inr ⟨by omega, by omega, h2⟩
      · exact Or.inr ⟨by omega, by omega, h3⟩
    · rintro (h | ⟨h1, h2, h3⟩)
      · exact Or.inl (Or.inl h)
      · rcases Nat.eq_or_lt_of_le h1 with heq | hlt
        · exact Or.inl (Or.inr ⟨heq.symm, h3⟩)
        · exact Or.inr ⟨by omega, by omega, h3⟩

theorem priorityLoop_threshold :
    ∀ (n irq : Nat) (t : List InitEvent) (e : InitEvent), e ∈ t → e ∈ priorityLoop n irq t := by
  intro n
  induction n with
  | zero => intro irq t e h; exact h
  | succ n ih =>
    intro irq t e h
    unfold priorityLoop
    exact ih _ _ _ (by simp [h])

theorem InitDriver_some (sExternInt SMP_MAX_CPUS : Nat) (env : InitEnv)
    (driver : PlicInterruptController) (trace : List InitEvent)
    (h : InitDriver sExternInt SMP_MAX_CPUS env = some (driver, trace)) :
    ∃ prop reg t2, env.ndev = some prop ∧ env.get_reg = some reg ∧
      driver.fIrqCount = prop.1 % 2 ^ 32 ∧
      thresholdLoop driver.fPlicContexts env.gCPU.length 0
        [InitEvent.map_physical_memory reg.1 reg.2,
          InitEvent.reserve_io_interrupt_vectors
            (toInt64 ((driver.fIrqCount + 1) % 2 ^ 32)) 0,
          InitEvent.install_io_interrupt_handler 0] = some t2 ∧
      trace = priorityLoop ((driver.fIrqCount + 1) % 2 ^ 32 - 1) 1 t2 := by
  by_cases ha : env.allocated = false
  · simp [InitDriver, ha] at h
  cases hbus : env.bus with
  | none => simp [InitDriver, ha, hbus] at h
  | some bus =>
    by_cases hfdt : bus = "fdt"
    swap
    · simp [InitDriver, ha, hbus, hfdt] at h
    by_cases hgd : env.get_driver = false
    · simp [InitDriver, ha, hbus, hfdt, hgd] at h
    cases hndev : env.ndev with
    | none => simp [InitDriver, ha, hbus, hfdt, hgd, hndev] at h
    | some prop =>
      by_cases hlen : prop.2 = 4
      swap
      · simp [InitDriver, ha, hbus, hfdt, hgd, hndev, hlen] at h
      cases hctx : InitDriver_contexts sExternInt SMP_MAX_CPUS env.gCPU env.interrupts with
      | none => simp [InitDriver, ha, hbus, hfdt, hgd, hndev, hlen, hctx] at h
      | some ctx =>
        cases hreg : env.get_reg with
        | none => simp [InitDriver, ha, hbus, hfdt, hgd, hndev, hlen, hctx, hreg] at h
        | some reg =>
          by_cases harea : env.regsAreaIsSet = false
          · simp [InitDriver, ha, hbus, hfdt, hgd, hndev, hlen, hctx, hreg, harea] at h
          simp [InitDriver, ha, hbus, hfdt, hgd, hndev, hlen, hctx, hreg, harea] at h
          obtain ⟨t2, ht2, hdrv, htr⟩ := h
          subst hdrv
          subst htr
          refine ⟨prop, reg, t2, rfl, rfl, rfl, ?_, ?_⟩
          · simpa using ht2
          · simp

/-- C26 fails for `IrqCount = 0xffffffff`: on the board `envMax` `InitDriver` succeeds
with that count, and `priority[1]` is not written, because the bound `fIrqCount + 1` of
the loop is 0 in `uint32`. -/
theorem InitDriver_max_count_counterexample :
    ∃ driver trace, InitDriver 9 8 envMax = some (driver, trace) ∧
      driver.fIrqCount = 0xffffffff ∧ (1 ≤ 1 ∧ 1 ≤ driver.fIrqCount) ∧
      InitEvent.writePriority 1 1 ∉ trace :=
  ⟨_, _, rfl, rfl, by decide, by decide⟩

/-- C26 as amended.  After an `InitDriver` that returned `B_OK` with `IrqCount = n` below
`0xffffffff` on `cpuCount` CPUs: for every CPU index below `cpuCount` the priority
threshold of that CPU's context has been written to 0; `priority[irq]` has been written
to 1 for every `1 ≤ irq ≤ n`; and these are the only writes to `priority`, so
`priority[0]` is never written. -/
theorem InitDriver_priorities (sExternInt SMP_MAX_CPUS : Nat) (env : InitEnv)
    (driver : PlicInterruptController) (trace : List InitEvent)
    (h : InitDriver sExternInt SMP_MAX_CPUS env = some (driver, trace))
    (hn : driver.fIrqCount < 2 ^ 32 - 1) :
    (∀ cpu, cpu < env.gCPU.length →
      ∃ c, driver.fPlicContexts[cpu]? = some c ∧
        InitEvent.writePriorityThreshold c 0 ∈ trace) ∧
    (∀ irq, 1 ≤ irq → irq ≤ driver.fIrqCount → InitEvent.writePriority irq 1 ∈ trace) ∧
    (∀ irq v, InitEvent.writePriority irq v ∈ trace →
      1 ≤ irq ∧ irq ≤ driver.fIrqCount ∧ v = 1) ∧
    (∀ v, InitEvent.writePriority 0 v ∉ trace) := by
  obtain ⟨prop, reg, t2, _, _, _, ht2, htr⟩ := InitDriver_some sExternInt SMP_MAX_CPUS env driver trace h
  obtain ⟨h1, _, h3⟩ := thresholdLoop_some _ _ _ _ _ ht2
  have hb : (driver.fIrqCount + 1) % 2 ^ 32 - 1 = driver.fIrqCount := by omega
  rw [hb] at htr
  have hno : ∀ irq v, InitEvent.writePriority irq v ∉ t2 := by
    intro irq v hv
    have := h3 irq v hv
    simp at this
  have hall : ∀ irq v, InitEvent.writePriority irq v ∈ trace →
      1 ≤ irq ∧ irq ≤ driver.fIrqCount ∧ v = 1 := by
    intro irq v hv
    rw [htr, priorityLoop_mem] at hv
    rcases hv with hv | ⟨a, b, c⟩
    · exact absurd hv (hno irq v)
    · exact ⟨a, by omega, c⟩
  refine ⟨fun cpu hcpu => ?_, fun irq h1 h2 => ?_, hall, fun v hv => ?_⟩
  · obtain ⟨c, hc, hmem⟩ := h1 cpu (Nat.zero_le _) (by omega)
    exact ⟨c, hc, by rw [htr]; exact priorityLoop_threshold _ _ _ _ hmem⟩
  · rw [htr, priorityLoop_mem]
    exact Or.inr ⟨h1, by omega, rfl⟩
  · have := (hall 0 v hv).1
    omega

/-- Instance of C26 as amended: the board `env0` with two CPUs and three lines. -/
theorem InitDriver_priorities_witness :
    InitDriver 9 8 env0 = some (driver0, initTrace0) ∧
    (∀ cpu, cpu < env0.gCPU.length →
      ∃ c, driver0.fPlicContexts[cpu]? = some c ∧
        InitEvent.writePriorityThreshold c 0 ∈ initTrace0) ∧
    (∀ irq, 1 ≤ irq → irq ≤ driver0.fIrqCount → InitEvent.writePriority irq 1 ∈ initTrace0) ∧
    (∀ irq v, InitEvent.writePriority irq v ∈ initTrace0 →
      1 ≤ irq ∧ irq ≤ driver0.fIrqCount ∧ v = 1) ∧
    (∀ v, InitEvent.writePriority 0 v ∉ initTrace0) :=
  ⟨rfl, InitDriver_priorities 9 8 env0 driver0 initTrace0 rfl (by decide)⟩

end Plic

namespace AtaAdapter

theorem prd_fill_step (sgList : List physical_entry) (i k : Nat) (prdt : List prd_entry)
    (hk : k < sgList.length) (hp : k < prdt.length) :
    prd_fill sgList (i + 1) k prdt =
      prd_fill sgList i (k + 1) (prdt.set k (prdOf sgList[k] (decide (i = 0)))) := by
  simp [prd_fill, List.getElem?_eq_getElem hk, List.getElem?_eq_getElem hp, prdOf,
    B_HOST_TO_LENDIAN_INT32, B_HOST_TO_LENDIAN_INT16]

theorem prd_build_eq_fill (sgList : List physical_entry) (prdt : List prd_entry)
    (h1 : 1 ≤ sgList.length) (hint : sgList.length ≤ 2 ^ 31) :
    prd_build sgList sgList.length prdt = prd_fill sgList sgList.length 0 prdt := by
  have hi : toInt32 ((sgList.length + (2 ^ 64 - 1)) % 2 ^ 64) = ((sgList.length - 1 : Nat) : Int) := by
    have e1 : (sgList.length + (2 ^ 64 - 1)) % 2 ^ 64 = sgList.length - 1 := by omega
    have e2 : (sgList.length - 1) % 2 ^ 32 = sgList.length - 1 := by omega
    have e3 : sgList.length - 1 < 2 ^ 31 := by omega
    rw [e1]; unfold toInt32; rw [e2, if_pos e3]
  have hn : sgList.length - 1 + 1 = sgList.length := by omega
  unfold prd_build
  simp only [hi]
  rw [if_pos (Int.ofNat_nonneg _), Int.toNat_ofNat, hn]

/-- C27 fails as stated: for the two segments of `sg2` the first table entry written,
entry 0, is built from the first segment (address `0x1000`), not from the last one
(address `0x3000`), and the entry that receives EOT, entry 1, is built from the last
segment, not from the first one. -/
theorem prepare_dma_reverse_counterexample :
    ∃ ch w1, ata_adapter_prepare_dma haikuConsts regFile channel0 sg2 true (world0 0) =
        some (status_t.B_OK, ch, w1) ∧
      sg2[0]? = some { address := 0x1000, size := 512 } ∧
      sg2[sg2.length - 1]? = some { address := 0x3000, size := 4096 } ∧
      prd_build sg2 sg2.length channel0.prdt =
        prd_fill sg2 1 1 (channel0.prdt.set 0 (prdOf { address := 0x1000, size := 512 } false)) ∧
      ch.prdt[0]? = some { address := 0x1000, count := 512, EOT := false } ∧
      ch.prdt[1]? = some { address := 0x3000, count := 4096, EOT := true } ∧
      (∀ eot, ch.prdt[0]? ≠ some (prdOf { address := 0x3000, size := 4096 } eot)) ∧
      (∀ eot, ch.prdt[1]? ≠ some (prdOf { address := 0x1000, size := 512 } eot)) := by
  have hlen : (1 : Nat) < channel0.prdt.length := by
    show 1 < (List.replicate 512 _).length
    rw [List.length_replicate]; decide
  obtain ⟨out, hout, _, hget⟩ := prd_build_spec sg2 channel0.prdt (by
    show 2 ≤ (List.replicate 512 _).length
    rw [List.length_replicate]; decide) (by decide)
  obtain ⟨w1, hw1⟩ :=
    prepare_dma_of_prd_build haikuConsts regFile channel0 sg2 true (world0 0) out hout
  have h0 : out[0]? = some { address := 0x1000, count := 512, EOT := false } := by
    rw [hget 0]; rfl
  have h1 : out[1]? = some { address := 0x3000, count := 4096, EOT := true } := by
    rw [hget 1]; rfl
  refine ⟨_, w1, hw1, rfl, rfl, ?_, h0, h1, ?_, ?_⟩
  · rw [prd_build_eq_fill sg2 _ (by decide) (by decide)]
    exact prd_fill_step sg2 1 0 channel0.prdt (by decide) (by omega)
  · intro eot
    show out[0]? ≠ _
    rw [h0]
    cases eot <;> decide
  · intro eot
    show out[1]? ≠ _
    rw [h1]
    cases eot <;> decide

/-- C27 as amended.  `ata_adapter_prepare_dma` fills the table from the first
scatter-gather entry to the last: for a list of `n ≥ 2` segments that fits the table,
the loop is `n` iterations from table entry 0, each iteration stores into the next table
entry the entry built from the next list entry (EOT set in the last iteration only), so
the first entry written, entry 0, is built from `sgList[0]`, and the entry that receives
EOT, entry `n - 1`, the last one processed, is built from `sgList[n - 1]`. -/
theorem prepare_dma_fill_order {σ : Type} (K : AtaConsts) (m : Machine σ)
    (channel : ata_adapter_channel_info) (sgList : List physical_entry) (writeToDevice : Bool)
    (w : World σ)
    (hn : 2 ≤ sgList.length) (h2 : sgList.length ≤ K.ATA_ADAPTER_MAX_SG_COUNT)
    (hK : K.ATA_ADAPTER_MAX_SG_COUNT ≤ channel.prdt.length)
    (hint : K.ATA_ADAPTER_MAX_SG_COUNT < 2 ^ 31) :
    ∃ ch w1 first last, ata_adapter_prepare_dma K m channel sgList writeToDevice w =
        some (status_t.B_OK, ch, w1) ∧
      sgList[0]? = some first ∧ sgList[sgList.length - 1]? = some last ∧
      prd_build sgList sgList.length channel.prdt =
        prd_fill sgList sgList.length 0 channel.prdt ∧
      (∀ (i k : Nat) (prdt : List prd_entry) (hk : k < sgList.length), k < prdt.length →
        prd_fill sgList (i + 1) k prdt =
          prd_fill sgList i (k + 1) (prdt.set k (prdOf sgList[k] (decide (i = 0))))) ∧
      ch.prdt[0]? = some (prdOf first false) ∧
      ch.prdt[sgList.length - 1]? = some (prdOf last true) ∧
      (∀ k e, k < sgList.length → ch.prdt[k]? = some e →
        (e.EOT = true ↔ k = sgList.length - 1)) := by
  obtain ⟨out, hout, _, hget⟩ := prd_build_spec sgList channel.prdt (by omega) (by omega)
  obtain ⟨w1, hw1⟩ := prepare_dma_of_prd_build K m channel sgList writeToDevice w out hout
  have hk : ∀ k (hlt : k < sgList.length),
      out[k]? = some (prdOf sgList[k] (decide (k + 1 = sgList.length))) := by
    intro k hk
    rw [hget k, if_pos hk]
    simp [List.getElem?_eq_getElem hk]
  have h0 : 0 < sgList.length := by omega
  have hl : sgList.length - 1 < sgList.length := by omega
  refine ⟨_, w1, sgList[0], sgList[sgList.length - 1], hw1, List.getElem?_eq_getElem h0,
    List.getElem?_eq_getElem hl, prd_build_eq_fill sgList _ (by omega) (by omega),
    fun i k prdt hk hp => prd_fill_step sgList i k prdt hk hp, ?_, ?_, ?_⟩
  · show out[0]? = _
    rw [hk 0 h0]
    have : ¬ (0 + 1 = sgList.length) := by omega
    simp [this]
  · show out[sgList.length - 1]? = _
    rw [hk _ hl]
    have : sgList.length - 1 + 1 = sgList.length := by omega
    simp [this]
  · intro k e hlt he
    have he2 : out[k]? = some e := he
    rw [hk k hlt] at he2
    simp only [Option.some.injEq] at he2
    subst he2
    simp only [prdOf, decide_eq_true_eq]
    omega

/-- Instance of C27 as amended: three segments in a table of 512 entries. -/
theorem prepare_dma_fill_order_witness :
    ∃ ch w1 first last, ata_adapter_prepare_dma haikuConsts regFile channel0 sg3 true (world0 0) =
        some (status_t.B_OK, ch, w1) ∧
      sg3[0]? = some first ∧ sg3[sg3.length - 1]? = some last ∧
      prd_build sg3 sg3.length channel0.prdt = prd_fill sg3 sg3.length 0 channel0.prdt ∧
      (∀ (i k : Nat) (prdt : List prd_entry) (hk : k < sg3.length), k < prdt.length →
        prd_fill sg3 (i + 1) k prdt =
          prd_fill sg3 i (k + 1) (prdt.set k (prdOf sg3[k] (decide (i = 0))))) ∧
      ch.prdt[0]? = some (prdOf first false) ∧
      ch.prdt[sg3.length - 1]? = some (prdOf last true) ∧
      (∀ k e, k < sg3.length → ch.prdt[k]? = some e → (e.EOT = true ↔ k = sg3.length - 1)) :=
  prepare_dma_fill_order haikuConsts regFile channel0 sg3 true (world0 0)
    (by decide) (by decide)
    (by show 512 ≤ (List.replicate 512 _).length; rw [List.length_replicate]) (by decide)

end AtaAdapter

namespace KernelInt

open AtaAdapter (status_t)

theorem mem_vectorRange (count startVector v : Int) :
    v ∈ vectorRange count startVector ↔ (startVector ≤ v ∧ v < startVector + count) := by
  unfold vectorRange
  simp only [List.mem_map, List.mem_range]
  constructor
  · rintro ⟨i, hi, rfl⟩
    omega
  · intro h
    exact ⟨(v - startVector).toNat, by omega, by omega⟩

theorem reserve_ok_iff (count startVector : Int) (type : interrupt_type) (source : Nat)
    (r : Registry) :
    (reserve_io_interrupt_vectors count startVector type source r).1 = status_t.B_OK ↔
      ∀ v, startVector ≤ v → v < startVector + count → r.reserved v = none := by
  unfold reserve_io_interrupt_vectors
  split
  · rename_i h
    rw [List.any_eq_true] at h
    obtain ⟨v, hv, hs⟩ := h
    rw [mem_vectorRange] at hv
    constructor
    · intro hc; cases hc
    · intro hall
      rw [hall v hv.1 hv.2] at hs
      cases hs
  · rename_i h
    constructor
    · intro _ v h1 h2
      cases hr : r.reserved v with
      | none => rfl
      | some x =>
        exfalso
        apply h
        rw [List.any_eq_true]
        exact ⟨v, (mem_vectorRange _ _ _).2 ⟨h1, h2⟩, by rw [hr]; rfl⟩
    · intro _; rfl

/-- C28.  On the registry as the specification describes it: for every range
(`count`, `startVector`) and every registry, after `reserve_io_interrupt_vectors` of the
range followed by `free_io_interrupt_vectors` of the same range, reserving the identical
range again succeeds; and if the first reservation succeeded, the free gives back the
registry as it was before it. -/
theorem reserve_free_round_trip (count startVector : Int) (type type2 : interrupt_type)
    (source source2 : Nat) (r : Registry) :
    (reserve_io_interrupt_vectors count startVector type2 source2
      (free_io_interrupt_vectors count startVector
        (reserve_io_interrupt_vectors count startVector type source r).2)).1 = status_t.B_OK ∧
    ((reserve_io_interrupt_vectors count startVector type source r).1 = status_t.B_OK →
      ∀ v, (free_io_interrupt_vectors count startVector
        (reserve_io_interrupt_vectors count startVector type source r).2).reserved v =
          r.reserved v) := by
  constructor
  · rw [reserve_ok_iff]
    intro v h1 h2
    simp [free_io_interrupt_vectors, h1, h2]
  · intro hok v
    have hfree := (reserve_ok_iff _ _ _ _ _).1 hok
    by_cases hv : startVector ≤ v ∧ v < startVector + count
    · simp [free_io_interrupt_vectors, hv, hfree v hv.1 hv.2]
    · have hr : (reserve_io_interrupt_vectors count startVector type source r).2.reserved v =
          r.reserved v := by
        unfold reserve_io_interrupt_vectors
        split
        · rfl
        · simp [hv]
      simp only [free_io_interrupt_vectors, hv, if_false]
      exact hr

/-- Instance of C28: after the vectors 5, 6, 7 are reserved and freed, they can be
reserved again, while a second reservation without the free fails. -/
theorem reserve_free_round_trip_witness :
    (reserve_io_interrupt_vectors 3 5 interrupt_type.INTERRUPT_TYPE_IRQ 1 emptyRegistry).1 =
        status_t.B_OK ∧
    (reserve_io_interrupt_vectors 3 5 interrupt_type.INTERRUPT_TYPE_IRQ 2
      (reserve_io_interrupt_vectors 3 5 interrupt_type.INTERRUPT_TYPE_IRQ 1
        emptyRegistry).2).1 = status_t.B_ERROR ∧
    (reserve_io_interrupt_vectors 3 5 interrupt_type.INTERRUPT_TYPE_IRQ 2
      (free_io_interrupt_vectors 3 5
        (reserve_io_interrupt_vectors 3 5 interrupt_type.INTERRUPT_TYPE_IRQ 1
          emptyRegistry).2)).1 = status_t.B_OK :=
  ⟨by decide, by decide,
    (reserve_free_round_trip 3 5 interrupt_type.INTERRUPT_TYPE_IRQ
      interrupt_type.INTERRUPT_TYPE_IRQ 1 2 emptyRegistry).1⟩

end KernelInt

namespace ColumnTypes

theorem CompareFields_no_overflow (a b : Int)
    (h1 : -2 ^ 31 ≤ a - b) (h2 : a - b < 2 ^ 31) :
    BIntegerColumn.CompareFields ⟨a⟩ ⟨b⟩ = a - b := by
  unfold BIntegerColumn.CompareFields wrapInt32 BIntegerField.Value
  simp only []
  omega

/-- C30 at the failing input: with `a = 2147483647` and `b = -1`, both 32-bit signed
values with `a > b`, `BIntegerColumn::CompareFields` returns `-2147483648`, a negative
number; and with `a = -2147483648`, `b = 1`, where `a < b`, it returns a positive
number. -/
theorem CompareFields_overflow :
    BIntegerColumn.CompareFields ⟨2147483647⟩ ⟨-1⟩ = -2147483648 ∧
      (-1 : Int) < 2147483647 ∧
    BIntegerColumn.CompareFields ⟨-2147483648⟩ ⟨1⟩ = 2147483647 ∧
      (-2147483648 : Int) < 1 := by
  decide

end ColumnTypes

namespace AtaAdapter

theorem and_two_pow_eq_zero (n a : Nat) : n &&& 2 ^ a = 0 ↔ n.testBit a = false := by
  rw [Nat.and_two_pow]
  cases h : n.testBit a <;> simp

theorem clearBit10_testBit (old j : Nat) :
    (if old &&& (1 <<< 10) ≠ 0 then andNot old (1 <<< 10) else old).testBit j =
      (old.testBit j && !decide (j = 10)) := by
  have h10 : (1 <<< 10 : Nat) = 2 ^ 10 := by rw [Nat.one_shiftLeft]
  rw [h10]
  by_cases h : old &&& 2 ^ 10 ≠ 0
  · rw [if_pos h, testBit_andNot, Nat.testBit_two_pow]
    by_cases hj : j = 10
    · subst hj; simp
    · have hj2 : ¬ (10 = j) := fun e => hj e.symm
      simp [hj, hj2]
  · rw [if_neg h]
    have h0 : old.testBit 10 = false := (and_two_pow_eq_zero old 10).1 (by simpa using h)
    by_cases hj : j = 10
    · subst hj; simp [h0]
    · simp [hj]

theorem clearBit10_le (old : Nat) :
    (if old &&& (1 <<< 10) ≠ 0 then andNot old (1 <<< 10) else old) ≤ old := by
  split
  · exact andNot_le _ _
  · exact le_refl _

theorem setBit_testBit (n a j : Nat) (hn : n < 2 ^ 16) (ha : a < 16) :
    (if n &&& 2 ^ a = 0 then (n ||| 2 ^ a) % 2 ^ 16 else n).testBit j =
      (n.testBit j || decide (j = a)) ∧
    (if n &&& 2 ^ a = 0 then (n ||| 2 ^ a) % 2 ^ 16 else n) < 2 ^ 16 := by
  have hpow : 2 ^ a < 2 ^ 16 := Nat.pow_lt_pow_right (by norm_num) ha
  by_cases h : n &&& 2 ^ a = 0
  · have hlt : n ||| 2 ^ a < 2 ^ 16 := Nat.or_lt_two_pow hn hpow
    rw [if_pos h, Nat.mod_eq_of_lt hlt]
    refine ⟨?_, hlt⟩
    rw [Nat.testBit_or, Nat.testBit_two_pow]
    by_cases hj : j = a
    · subst hj; simp
    · have hj2 : ¬ (a = j) := fun e => hj e.symm
      simp [hj, hj2]
  · rw [if_neg h]
    refine ⟨?_, hn⟩
    have h1 : n.testBit a = true := by
      cases hb : n.testBit a with
      | true => rfl
      | false => exact absurd ((and_two_pow_eq_zero n a).2 hb) h
    by_cases hj : j = a
    · subst hj; simp [h1]
    · simp [hj]

theorem pcicmdNew_testBit (P : PciConsts) (a b old j : Nat)
    (hio : P.PCI_command_io = 2 ^ a) (ha : a < 16)
    (hma : P.PCI_command_master = 2 ^ b) (hb : b < 16) (hold : old < 2 ^ 16) :
    (pcicmdNew P old).testBit j =
      ((old.testBit j && !decide (j = 10)) || decide (j = a) || decide (j = b)) ∧
    pcicmdNew P old < 2 ^ 16 := by
  have h1 := clearBit10_testBit old j
  have h1l : (if old &&& (1 <<< 10) ≠ 0 then andNot old (1 <<< 10) else old) < 2 ^ 16 :=
    lt_of_le_of_lt (clearBit10_le old) hold
  obtain ⟨h2, h2l⟩ := setBit_testBit _ a j h1l ha
  obtain ⟨h3, h3l⟩ := setBit_testBit _ b j h2l hb
  unfold pcicmdNew
  simp only [hio, hma]
  refine ⟨?_, h3l⟩
  rw [h3, h2, h1]

theorem setupPciCommand_devlog {σ : Type} (P : PciConsts) (pl : Platform σ)
    (d : DetectWorld σ) :
    (setupPciCommand P pl d).devlog = d.devlog ++
      [DevEvent.read_pci_config P.PCI_command 2 (pl.read_pci_config d.w.hw P.PCI_command 2).1] ++
      (if pcicmdNew P ((pl.read_pci_config d.w.hw P.PCI_command 2).1 % 2 ^ 16) ≠
          (pl.read_pci_config d.w.hw P.PCI_command 2).1 % 2 ^ 16
        then [DevEvent.write_pci_config P.PCI_command 2
          (pcicmdNew P ((pl.read_pci_config d.w.hw P.PCI_command 2).1 % 2 ^ 16))]
        else []) := by
  unfold setupPciCommand
  simp only
  by_cases h : (read_pci_config pl P.PCI_command 2 d).1 % 2 ^ 16 ≠
      pcicmdNew P ((read_pci_config pl P.PCI_command 2 d).1 % 2 ^ 16)
  · rw [if_pos h]
    have h2 : pcicmdNew P ((pl.read_pci_config d.w.hw P.PCI_command 2).1 % 2 ^ 16) ≠
        (pl.read_pci_config d.w.hw P.PCI_command 2).1 % 2 ^ 16 := fun e => h e.symm
    rw [if_pos h2]
    simp [write_pci_config, read_pci_config]
  · rw [if_neg h]
    have h2 : ¬ (pcicmdNew P ((pl.read_pci_config d.w.hw P.PCI_command 2).1 % 2 ^ 16) ≠
        (pl.read_pci_config d.w.hw P.PCI_command 2).1 % 2 ^ 16) := by
      intro e; exact h (fun e2 => e e2.symm)
    rw [if_neg h2]
    simp [read_pci_config]

theorem detectSimplex_nowrite {σ : Type} (K : AtaConsts) (P : PciConsts) (m : Machine σ)
    (pl : Platform σ) (controller_can_dma : Bool) (bus_master_base channel_index : Nat)
    (supports_compatibility_mode : Bool) (d : DetectWorld σ) :
    ∃ can d1 before, detectSimplex K P m pl controller_can_dma bus_master_base channel_index
        supports_compatibility_mode d = some (can, d1) ∧
      d1.devlog = d.devlog ++ before ∧
      (∀ o s v, DevEvent.write_pci_config o s v ∉ before) := by
  cases supports_compatibility_mode
  · exact ⟨controller_can_dma, d, [], by simp [detectSimplex], by simp, by simp⟩
  · obtain ⟨s, w1, hs⟩ := Read8_total m (bus_master_base + K.ATA_BM_STATUS_REG) d.w
    by_cases hsx : s &&& K.ATA_BM_STATUS_SIMPLEX_DMA ≠ 0 ∧ channel_index ≠ 0
    · by_cases hv : (pl.read_pci_config w1.hw P.PCI_vendor_id 2).1 % 2 ^ 16 ≠ 0x8086
      · refine ⟨false, (read_pci_config pl P.PCI_vendor_id 2 { d with w := w1 }).2,
          [DevEvent.read_pci_config P.PCI_vendor_id 2
            (pl.read_pci_config w1.hw P.PCI_vendor_id 2).1], ?_, ?_, by simp⟩
        · simp only [detectSimplex, hs, if_true, Option.some_bind, hsx, read_pci_config]
          rw [if_pos hv]
          simpa using hsx
        · simp [read_pci_config]
      · refine ⟨controller_can_dma, (read_pci_config pl P.PCI_vendor_id 2 { d with w := w1 }).2,
          [DevEvent.read_pci_config P.PCI_vendor_id 2
            (pl.read_pci_config w1.hw P.PCI_vendor_id 2).1], ?_, ?_, by simp⟩
        · simp only [detectSimplex, hs, if_true, Option.some_bind, hsx, read_pci_config]
          rw [if_neg hv]
          simpa using hsx
        · simp [read_pci_config]
    · refine ⟨controller_can_dma, { d with w := w1 }, [], ?_, by simp, by simp⟩
      simp only [detectSimplex, hs, if_true, Option.some_bind, hsx, if_false]

/-- C29.  With `PCI_command_io` and `PCI_command_master` single bits `a`, `b` below 16
other than bit 10: on a call of `ata_adapter_detect_channel` that gets past address
resolution, with `old` the 16-bit value read from `PCI_command`, the value computed is
`new = (old & ~(1 << 10)) | PCI_command_io | PCI_command_master` (bit 10 clear, bits `a`
and `b` set, every other bit as in `old`); the PCI events of the call are the read of
the API byte, the read of `PCI_command`, then the write of `new` to `PCI_command` exactly
if `new ≠ old`, and no other write to configuration space follows.  The normalisation
is idempotent: applied to `new` it computes `new`, and a call that reads `new` writes
nothing. -/
theorem pci_command_normalised {σ : Type} (K : AtaConsts) (P : PciConsts) (m : Machine σ)
    (pl : Platform σ) (controller_can_dma : Bool)
    (command_block_base control_block_base bus_master_base intnum channel_index : Nat)
    (supports_compatibility_mode : Bool) (d : DetectWorld σ) (tgt : Nat × Nat × Nat)
    (a b raw old : Nat)
    (hio : P.PCI_command_io = 2 ^ a) (ha : a < 16) (ha10 : a ≠ 10)
    (hma : P.PCI_command_master = 2 ^ b) (hb : b < 16) (hb10 : b ≠ 10)
    (hres : resolveChannel P supports_compatibility_mode
      ((pl.read_pci_config d.w.hw P.PCI_class_api 1).1 % 2 ^ 8)
      command_block_base control_block_base intnum channel_index = some tgt)
    (hraw : raw = (pl.read_pci_config (pl.read_pci_config d.w.hw P.PCI_class_api 1).2
      P.PCI_command 2).1)
    (hold : old = raw % 2 ^ 16) :
    pcicmdNew P old = andNot old (1 <<< 10) ||| P.PCI_command_io ||| P.PCI_command_master ∧
    (pcicmdNew P old).testBit 10 = false ∧
    (pcicmdNew P old).testBit a = true ∧ (pcicmdNew P old).testBit b = true ∧
    (∀ j, j ≠ 10 → j ≠ a → j ≠ b → (pcicmdNew P old).testBit j = old.testBit j) ∧
    (∃ st node dfin rest, ata_adapter_detect_channel K P m pl controller_can_dma
        command_block_base control_block_base bus_master_base intnum channel_index
        supports_compatibility_mode d = some (st, node, dfin) ∧
      dfin.devlog = d.devlog ++
        [DevEvent.read_pci_config P.PCI_class_api 1 (pl.read_pci_config d.w.hw P.PCI_class_api 1).1,
         DevEvent.read_pci_config P.PCI_command 2 raw] ++
        (if pcicmdNew P old ≠ old then [DevEvent.write_pci_config P.PCI_command 2 (pcicmdNew P old)]
          else []) ++ rest ∧
      ∀ o s v, DevEvent.write_pci_config o s v ∉ rest) ∧
    pcicmdNew P (pcicmdNew P old) = pcicmdNew P old ∧
    (∀ (pl2 : Platform σ) (d2 : DetectWorld σ),
      (pl2.read_pci_config d2.w.hw P.PCI_command 2).1 % 2 ^ 16 = pcicmdNew P old →
      (setupPciCommand P pl2 d2).devlog = d2.devlog ++
        [DevEvent.read_pci_config P.PCI_command 2 (pl2.read_pci_config d2.w.hw P.PCI_command 2).1]) := by
  have holdlt : old < 2 ^ 16 := by rw [hold]; exact Nat.mod_lt _ (by norm_num)
  have hbit : ∀ j, (pcicmdNew P old).testBit j =
      ((old.testBit j && !decide (j = 10)) || decide (j = a) || decide (j = b)) :=
    fun j => (pcicmdNew_testBit P a b old j hio ha hma hb holdlt).1
  have hnewlt : pcicmdNew P old < 2 ^ 16 := (pcicmdNew_testBit P a b old 0 hio ha hma hb holdlt).2
  have hidem : pcicmdNew P (pcicmdNew P old) = pcicmdNew P old := by
    apply Nat.eq_of_testBit_eq
    intro j
    rw [(pcicmdNew_testBit P a b (pcicmdNew P old) j hio ha hma hb hnewlt).1, hbit j]
    cases old.testBit j <;> cases decide (j = 10) <;> cases decide (j = a) <;>
      cases decide (j = b) <;> rfl
  refine ⟨?_, ?_, ?_, ?_, ?_, ?_, hidem, ?_⟩
  · apply Nat.eq_of_testBit_eq
    intro j
    have h10 : (1 <<< 10 : Nat) = 2 ^ 10 := by rw [Nat.one_shiftLeft]
    rw [hbit j, Nat.testBit_or, Nat.testBit_or, testBit_andNot, hio, hma, h10,
      Nat.testBit_two_pow, Nat.testBit_two_pow, Nat.testBit_two_pow]
    have e : ∀ x : Nat, decide (x = j) = decide (j = x) := fun x =>
      decide_eq_decide.2 eq_comm
    rw [e 10, e a, e b]
  · rw [hbit 10]
    have e2 : decide (10 = a) = false := by simpa using fun h : 10 = a => ha10 h.symm
    have e3 : decide (10 = b) = false := by simpa using fun h : 10 = b => hb10 h.symm
    simp [e2, e3]
  · rw [hbit a]; simp
  · rw [hbit b]; simp
  · intro j h1 h2 h3
    rw [hbit j]
    simp [h1, h2, h3]
  · obtain ⟨can, d3, b2, hsim, hb2, hn2⟩ := detectSimplex_nowrite K P m pl controller_can_dma
      bus_master_base channel_index supports_compatibility_mode
      (setupPciCommand P pl (read_pci_config pl P.PCI_class_api 1 d).2)
    refine ⟨_, _, _, b2 ++ [DevEvent.register_node (NodeInfo.channel
        { command_block_base := tgt.1, control_block_base := tgt.2.1, can_dma := can,
          intnum := tgt.2.2, channel_index := channel_index,
          resources := [(tgt.1, 8), (tgt.2.1, 1)] })],
      detect_channel_of_resolve K P m pl controller_can_dma command_block_base
        control_block_base bus_master_base intnum channel_index supports_compatibility_mode
        d d3 tgt can hres hsim, ?_, ?_⟩
    · show d3.devlog ++ _ = _
      rw [hb2, setupPciCommand_devlog]
      subst hold
      subst hraw
      simp only [read_pci_config, List.append_assoc, List.singleton_append, List.cons_append,
        List.nil_append]
    · intro o s v hmem
      simp only [List.mem_append, List.mem_singleton] at hmem
      rcases hmem with h | h
      · exact hn2 o s v h
      · cases h
  · intro pl2 d2 h2
    rw [setupPciCommand_devlog, h2, hidem]
    simp

/-- Instance of C29: a native-mode controller whose command word reads `0x0470`
(interrupts disabled, I/O decoding and bus mastering off). -/
theorem pci_command_normalised_witness :
    pcicmdNew haikuPci 0x470 = 0x75 ∧
    ∃ st node dfin rest, ata_adapter_detect_channel haikuConsts haikuPci regFile
        (pciDevice 0x8086 0x8f 0x470) true 0x1000 0x2000 0x3000 4 0 false (detect0 0) =
          some (st, node, dfin) ∧
      dfin.devlog = (detect0 0).devlog ++
        [DevEvent.read_pci_config haikuPci.PCI_class_api 1
          ((pciDevice 0x8086 0x8f 0x470).read_pci_config (detect0 0).w.hw
            haikuPci.PCI_class_api 1).1,
         DevEvent.read_pci_config haikuPci.PCI_command 2 0x470] ++
        (if pcicmdNew haikuPci 0x470 ≠ 0x470
          then [DevEvent.write_pci_config haikuPci.PCI_command 2 (pcicmdNew haikuPci 0x470)]
          else []) ++ rest ∧
      ∀ o s v, DevEvent.write_pci_config o s v ∉ rest :=
  ⟨by decide,
    (pci_command_normalised haikuConsts haikuPci regFile (pciDevice 0x8086 0x8f 0x470) true
      0x1000 0x2000 0x3000 4 0 false (detect0 0) (0x1000, 0x2002, 4) 0 2 0x470 0x470
      (by decide) (by decide) (by decide) (by decide) (by decide) (by decide)
      (by decide) rfl (by decide)).2.2.2.2.2.1⟩

end AtaAdapter
